import Mathlib

/-!
# go-dots server: controllers and dispatcher

A shallow embedding of `dots_server/controllers/mitigation_request.go`,
`dots_server/controllers/session_configuration.go` and the method handler of
`dots_server/listen.go` (together with the message types of
`dots_common/messages/signal.go`), and theorems about the verbs of the
`MitigationRequest` and `SessionConfiguration` controllers, the orchestrator
`callBlocker` and the dispatcher.

The repository (`models`), the blocker drivers and the blocker selection
service are external to the controller.  They are taken as a parameter
`Env σ` over an arbitrary world state `σ`; every call the controller makes
on them is recorded in a trace of `Event`s.

* A Go `int` is an `Int`: the controller compares ports, ids and lifetimes and
  never computes with them.
* A pointer result that may be nil is an `Option`; a nil error is `none`.
  `Put` reads the field `MitigationId` of the scope it has looked up without a
  nil check, so a nil result ends it in `Status.panicked`.
* The two channels of `callBlocker` are the list of messages in the order in
  which the `select` receives them; when the list is used up while the counter
  is still positive the loop waits for ever, which is `CallStatus.blocked`.
* A `float64` is its bit pattern: the controllers copy such values only.
* Logging is left out.
-/

namespace GoDots

/-! ## Errors, codes and responses -/

/-- CoAP-shaped response code of `dots_common`, as the number `class * 32 + detail`. -/
abbrev Code := Nat

/-- Modelled from the spec: the code constants of `dots_common` (section 4.F), 2.01. -/
def Created : Code := 65
/-- Modelled from the spec: the code constants of `dots_common` (section 4.F), 2.02. -/
def Deleted : Code := 66
/-- Modelled from the spec: the code constants of `dots_common` (section 4.F), 2.04. -/
def Changed : Code := 68
/-- Modelled from the spec: the code constants of `dots_common` (section 4.F), 2.05. -/
def Content : Code := 69
/-- Modelled from the spec: the code constants of `dots_common` (section 4.F), 4.00. -/
def BadRequest : Code := 128
/-- Modelled from the spec: the code constants of `dots_common` (section 4.F), 4.03. -/
def Forbidden : Code := 131
/-- Modelled from the spec: the code constants of `dots_common` (section 4.F), 4.04. -/
def NotFound : Code := 132
/-- Modelled from the spec: the code constants of `dots_common` (section 4.F), 4.12. -/
def PreconditionFailed : Code := 140
/-- Modelled from the spec: the code constants of `dots_common` (section 4.F), 5.00. -/
def InternalServerError : Code := 160

/-- Message type of `dots_common`; the zero value is `Confirmable`. -/
inductive MsgType where
  | Confirmable
  | NonConfirmable
deriving DecidableEq, Repr

/-- A Go `error` value that is not nil: either an `errors.New` text, the
controller's `Error{Code, Type}`, or an error produced by a collaborator. -/
inductive GoError where
  | text (s : String)
  | ctrl (code : Code) (typ : MsgType)
  | ext (tag : Nat)
deriving DecidableEq, Repr

namespace messages

/-- The struct `messages.TargetPortRange`. -/
structure TargetPortRange where
  LowerPort : Int
  UpperPort : Int
deriving DecidableEq, Repr

/-- The struct `messages.Scope`. -/
structure Scope where
  MitigationId : Int
  TargetIp : List String
  TargetPrefix : List String
  TargetPortRange : List TargetPortRange
  TargetProtocol : List Int
  FQDN : List String
  URI : List String
  AliasName : List String
  Lifetime : Int
deriving DecidableEq, Repr

/-- The struct `messages.MitigationScope`. -/
structure MitigationScope where
  Scopes : List Scope
deriving DecidableEq, Repr

/-- The struct `messages.MitigationRequest`. -/
structure MitigationRequest where
  MitigationScope : MitigationScope
deriving DecidableEq, Repr

end messages

namespace models

/-- The struct `models.Customer`; only `Id` is read by the controller. -/
structure Customer where
  Id : Int
  Name : String
deriving DecidableEq, Repr

/-- A parsed prefix, the result of `models.NewPrefix`. -/
structure Prefix where
  cidr : String
deriving DecidableEq, Repr

/-- The struct `models.PortRange`. -/
structure PortRange where
  LowerPort : Int
  UpperPort : Int
deriving DecidableEq, Repr

/-- The constructor `models.NewPortRange`. -/
def NewPortRange (lower upper : Int) : PortRange :=
  { LowerPort := lower, UpperPort := upper }

/-- The struct `models.MitigationScope`; the set-valued fields are lists
without repetition. -/
structure MitigationScope where
  Customer : Customer
  ClientIdentifier : String
  MitigationId : Int
  TargetProtocol : List Int
  FQDN : List String
  URI : List String
  AliasName : List String
  Lifetime : Int
  TargetPrefix : List Prefix
  TargetPortRange : List PortRange
deriving DecidableEq, Repr

/-- The constructor `models.NewMitigationScope`: an empty scope of a customer. -/
def NewMitigationScope (c : Customer) (clientIdentifier : String) : MitigationScope :=
  { Customer := c, ClientIdentifier := clientIdentifier, MitigationId := 0,
    TargetProtocol := [], FQDN := [], URI := [], AliasName := [], Lifetime := 0,
    TargetPrefix := [], TargetPortRange := [] }

/-- The set method `AddList`: add each element that is not yet a member. -/
def AddList {α : Type} [DecidableEq α] (s : List α) (xs : List α) : List α :=
  xs.foldl (fun acc x => if x ∈ acc then acc else acc ++ [x]) s

/-- The interface `models.Protection`, as the values its methods return;
a blocker is named by its number. -/
structure Protection where
  Id : Nat
  IsEnabled : Bool
  TargetBlocker : Nat
  StartedAt : Int
deriving DecidableEq, Repr

end models

/-! ## Port ranges -/

/-- The text of the error of `newTargetPortRange`. -/
def invalidPortError (r : messages.TargetPortRange) : GoError :=
  GoError.text ("invalid port number. lower:" ++ toString r.LowerPort ++
    ", upper:" ++ toString r.UpperPort)

/-- The function `newTargetPortRange`: the ranges are converted in order and
the first invalid one ends the conversion with an error. -/
def newTargetPortRange :
    List messages.TargetPortRange → Except GoError (List models.PortRange)
  | [] => Except.ok []
  | r :: rest =>
    if r.LowerPort < 0 ∨ 0xffff < r.LowerPort ∨ r.UpperPort < 0 ∨ 0xffff < r.UpperPort then
      Except.error (invalidPortError r)
    else if r.UpperPort = 0 then
      match newTargetPortRange rest with
      | Except.error e => Except.error e
      | Except.ok ps => Except.ok (models.NewPortRange r.LowerPort r.LowerPort :: ps)
    else if r.LowerPort ≤ r.UpperPort then
      match newTargetPortRange rest with
      | Except.error e => Except.error e
      | Except.ok ps => Except.ok (models.NewPortRange r.LowerPort r.UpperPort :: ps)
    else
      Except.error (invalidPortError r)

/-- The reference of the specification, first half: a pair is refused when a
port lies outside 0..65535 or when upper-port is not 0 and lower-port exceeds it. -/
def portPairRefused (r : messages.TargetPortRange) : Bool :=
  decide (r.LowerPort < 0) || decide (65535 < r.LowerPort) ||
  decide (r.UpperPort < 0) || decide (65535 < r.UpperPort) ||
  (decide (r.UpperPort ≠ 0) && decide (r.LowerPort > r.UpperPort))

/-- The reference of the specification, second half: upper-port 0 becomes the
lower port, every other pair is kept. -/
def portPairNormalized (r : messages.TargetPortRange) : models.PortRange :=
  if r.UpperPort = 0 then { LowerPort := r.LowerPort, UpperPort := r.LowerPort }
  else { LowerPort := r.LowerPort, UpperPort := r.UpperPort }

/-- The reference of the specification for `newTargetPortRange`: failure when
some pair is refused, otherwise the pairs normalized one by one. -/
def newTargetPortRangeReference (rs : List messages.TargetPortRange) :
    Option (List models.PortRange) :=
  if rs.any portPairRefused then none else some (rs.map portPairNormalized)

/-! ## Session configuration: messages, policy and model -/

/-- A Go `float64`, as its bit pattern: the controllers copy such values and
never compute with them. -/
structure Float64 where
  bits : Nat
deriving DecidableEq, Repr

namespace messages

/-- The struct `messages.SignalConfig`. -/
structure SignalConfig where
  SessionId : Int
  HeartbeatInterval : Int
  MissingHbAllowed : Int
  MaxRetransmit : Int
  AckTimeout : Int
  AckRandomFactor : Float64
  TriggerMitigation : Bool
deriving DecidableEq, Repr

/-- Modelled from the spec: the struct `messages.SignalConfigRequest`, which is
not under `src/`; `SessionConfiguration.Put` reads its field `SignalConfig`. -/
structure SignalConfigRequest where
  SignalConfig : SignalConfig
deriving DecidableEq, Repr

/-- Modelled from the spec: an integer parameter of the response of GET,
`{min-value, max-value, current-value}` (section 6); not under `src/`. -/
structure IntCurrent where
  CurrentValue : Int
  MinValue : Int
  MaxValue : Int
deriving DecidableEq, Repr

/-- Modelled from the spec: a real parameter of the response of GET,
`{min-value, max-value, current-value}` (section 6); not under `src/`. -/
structure FloatCurrent where
  CurrentValue : Float64
  MinValue : Float64
  MaxValue : Float64
deriving DecidableEq, Repr

/-- Modelled from the spec: the `trigger-mitigation` value of the response of
GET, a current value only (section 4.F); not under `src/`. -/
structure BoolCurrent where
  CurrentValue : Bool
deriving DecidableEq, Repr

/-- Modelled from the spec: the struct `messages.ConfigurationResponse`
(sections 4.F and 6); not under `src/`. -/
structure ConfigurationResponse where
  HeartbeatInterval : IntCurrent
  MissingHbAllowed : IntCurrent
  MaxRetransmit : IntCurrent
  AckTimeout : IntCurrent
  AckRandomFactor : FloatCurrent
  TriggerMitigation : BoolCurrent
deriving DecidableEq, Repr

/-- The zero value `messages.ConfigurationResponse{}`. -/
def ConfigurationResponse.zero : ConfigurationResponse :=
  { HeartbeatInterval := { CurrentValue := 0, MinValue := 0, MaxValue := 0 },
    MissingHbAllowed := { CurrentValue := 0, MinValue := 0, MaxValue := 0 },
    MaxRetransmit := { CurrentValue := 0, MinValue := 0, MaxValue := 0 },
    AckTimeout := { CurrentValue := 0, MinValue := 0, MaxValue := 0 },
    AckRandomFactor :=
      { CurrentValue := { bits := 0 }, MinValue := { bits := 0 }, MaxValue := { bits := 0 } },
    TriggerMitigation := { CurrentValue := false } }

end messages

namespace config

/-- Modelled from the spec: the [min, max] band of an integer parameter in the
server policy (section 4.D); `dots_server/config` is not under `src/`. -/
structure IntegerParameterRange where
  Min : Int
  Max : Int
deriving DecidableEq, Repr

/-- Modelled from the spec: the [min, max] band of a real parameter in the
server policy (section 4.D); `dots_server/config` is not under `src/`. -/
structure FloatParameterRange where
  Min : Float64
  Max : Float64
deriving DecidableEq, Repr

/-- Modelled from the spec: the struct `SignalConfigurationParameter` of the
server policy; `SessionConfiguration.Get` reads these five fields. -/
structure SignalConfigurationParameter where
  HeartbeatInterval : IntegerParameterRange
  MissingHbAllowed : IntegerParameterRange
  MaxRetransmit : IntegerParameterRange
  AckTimeout : IntegerParameterRange
  AckRandomFactor : FloatParameterRange
deriving DecidableEq, Repr

end config

namespace messages

/-- Modelled from the spec: the method `SetMinMax`, which is not under `src/`:
the min and max of the triple are those of the policy band. -/
def IntCurrent.SetMinMax (v : IntCurrent) (pr : config.IntegerParameterRange) : IntCurrent :=
  { v with MinValue := pr.Min, MaxValue := pr.Max }

/-- Modelled from the spec: the method `SetMinMax`, which is not under `src/`:
the min and max of the triple are those of the policy band. -/
def FloatCurrent.SetMinMax (v : FloatCurrent) (pr : config.FloatParameterRange) :
    FloatCurrent :=
  { v with MinValue := pr.Min, MaxValue := pr.Max }

end messages

namespace models

/-- Modelled from the spec: the struct `models.SignalSessionConfiguration`
(section 3), with the fields that the controller passes to its constructor
and reads back; not under `src/`. -/
structure SignalSessionConfiguration where
  SessionId : Int
  HeartbeatInterval : Int
  MissingHbAllowed : Int
  MaxRetransmit : Int
  AckTimeout : Int
  AckRandomFactor : Float64
  TriggerMitigation : Bool
deriving DecidableEq, Repr

/-- Modelled from the spec: the constructor
`models.NewSignalSessionConfiguration`, which is not under `src/`. -/
def NewSignalSessionConfiguration (sessionId heartbeatInterval missingHbAllowed
    maxRetransmit ackTimeout : Int) (ackRandomFactor : Float64) (triggerMitigation : Bool) :
    SignalSessionConfiguration :=
  { SessionId := sessionId, HeartbeatInterval := heartbeatInterval,
    MissingHbAllowed := missingHbAllowed, MaxRetransmit := maxRetransmit,
    AckTimeout := ackTimeout, AckRandomFactor := ackRandomFactor,
    TriggerMitigation := triggerMitigation }

end models

/-! ## The collaborators of the controller -/

/-- A message of the blocker selection service: an assignment
`ScopeBlockerList{Blocker, Scope}` on the reply channel or an error on the
error channel. -/
inductive SelMsg where
  | assigned (blocker : Nat) (scope : models.MitigationScope)
  | failed (e : GoError)
deriving DecidableEq, Repr

/-- The response of a controller verb, `Response{Type, Code, Body}`. -/
inductive Body where
  | nil
  | mitigationResponsePut (req : messages.MitigationRequest)
  | configurationResponse (resp : messages.ConfigurationResponse)
deriving DecidableEq, Repr

/-- The struct `controllers.Response`; `Typ` is its field `Type`. -/
structure Response where
  Typ : MsgType
  Code : Code
  Body : Body
deriving DecidableEq, Repr

/-- The zero value `Response{}`. -/
def Response.zero : Response :=
  { Typ := MsgType.Confirmable, Code := 0, Body := Body.nil }

/-- One call of the controller on a collaborator, with whether it succeeded
where the controller looks at that. -/
inductive Event where
  | GetMitigationScope (customerId : Int) (clientIdentifier : String) (mitigationId : Int)
  | GetActiveProtectionByMitigationId (customerId : Int) (clientIdentifier : String)
      (mitigationId : Int)
  | CreateMitigationScope (scope : models.MitigationScope) (ok : Bool)
  | DeleteMitigationScope (customerId : Int) (clientIdentifier : String) (mitigationId : Int)
      (ok : Bool)
  | StopProtection (p : models.Protection) (ok : Bool)
  | Enqueue (scope : models.MitigationScope)
  | RegisterProtection (blocker : Nat) (scope : models.MitigationScope) (ok : Bool)
  | ExecuteProtection (blocker : Nat) (p : models.Protection) (ok : Bool)
  | UnregisterProtection (blocker : Nat) (p : models.Protection)
  | GetCurrentSignalSessionConfiguration (customerId : Int)
  | CreateSignalSessionConfiguration (configuration : models.SignalSessionConfiguration)
      (ok : Bool)
deriving DecidableEq, Repr

/-- The repository, the validator, the blocker drivers and the blocker
selection service, over a world state `σ`.  Queries read the state; the
other operations return the next state.  `Arrivals` is the sequence in which
the messages of the selection service reach the two channels of `callBlocker`
for the scopes enqueued so far. -/
structure Env (σ : Type) where
  DEFAULT_SIGNAL_MITIGATE_LIFETIME : Int
  EffectiveClientIdentifier : messages.MitigationRequest → String
  NewPrefix : String → Except GoError models.Prefix
  Validate : models.MitigationScope → models.Customer → Bool
  GetMitigationScope : σ → Int → String → Int → Except GoError (Option models.MitigationScope)
  GetActiveProtectionByMitigationId :
    σ → Int → String → Int → Except GoError (Option models.Protection)
  CreateMitigationScope : σ → models.MitigationScope → models.Customer → Option GoError × σ
  DeleteMitigationScope : σ → Int → String → Int → Option GoError × σ
  StopProtection : σ → Nat → models.Protection → Option GoError × σ
  RegisterProtection : σ → Nat → models.MitigationScope → Except GoError models.Protection × σ
  ExecuteProtection : σ → Nat → models.Protection → Option GoError × σ
  UnregisterProtection : σ → Nat → models.Protection → σ
  Enqueue : σ → models.MitigationScope → σ
  Arrivals : σ → List models.MitigationScope → List SelMsg

/-- The world while a verb runs: the state of the collaborators and the
calls made so far, oldest first. -/
structure World (σ : Type) where
  st : σ
  trace : List Event

/-- Record a call and move to the next state. -/
def World.step {σ : Type} (w : World σ) (st : σ) (e : Event) : World σ :=
  { st := st, trace := w.trace ++ [e] }

/-- Record a call that leaves the state as it is. -/
def World.log {σ : Type} (w : World σ) (e : Event) : World σ :=
  { st := w.st, trace := w.trace ++ [e] }

/-! ## Building model scopes -/

/-- The function `newTargetPrefix`. -/
def newTargetPrefix {σ : Type} (env : Env σ) :
    List String → Except GoError (List models.Prefix)
  | [] => Except.ok []
  | cidr :: rest =>
    match env.NewPrefix cidr with
    | Except.error e => Except.error e
    | Except.ok p =>
      match newTargetPrefix env rest with
      | Except.error e => Except.error e
      | Except.ok ps => Except.ok (p :: ps)

/-- The function `newMitigationScope`. -/
def newMitigationScope {σ : Type} (env : Env σ) (req : messages.Scope) (c : models.Customer)
    (clientIdentifier : String) : Except GoError models.MitigationScope :=
  let m := models.NewMitigationScope c clientIdentifier
  let m := { m with MitigationId := req.MitigationId }
  let m := { m with TargetProtocol := models.AddList m.TargetProtocol req.TargetProtocol }
  let m := { m with FQDN := models.AddList m.FQDN req.FQDN }
  let m := { m with URI := models.AddList m.URI req.URI }
  let m := { m with AliasName := models.AddList m.AliasName req.AliasName }
  let m := { m with Lifetime := req.Lifetime }
  match newTargetPrefix env req.TargetPrefix with
  | Except.error e => Except.error e
  | Except.ok prefixes =>
    let m := { m with TargetPrefix := prefixes }
    match newTargetPortRange req.TargetPortRange with
    | Except.error e => Except.error e
    | Except.ok portRanges => Except.ok { m with TargetPortRange := portRanges }

/-! ## createMitigationScope -/

/-- The lifetime default of `createMitigationScope`, applied to one scope. -/
def defaultLifetime {σ : Type} (env : Env σ) (s : messages.Scope) : messages.Scope :=
  if s.Lifetime ≤ 0 then { s with Lifetime := env.DEFAULT_SIGNAL_MITIGATE_LIFETIME } else s

/-- What `createMitigationScope` leaves behind: its error, the request as it
has been written to, and the world. -/
structure CreateResult (σ : Type) where
  err : Option GoError
  req : messages.MitigationRequest
  world : World σ

/-- The loop of `createMitigationScope`; `done` are the scopes before the
index of the loop, as the request now holds them, `todo` the scopes from the
index on. -/
def createMitigationScopeLoop {σ : Type} (env : Env σ) (customer : models.Customer) :
    List messages.Scope → List messages.Scope → World σ → CreateResult σ
  | done, [], w => { err := none, req := { MitigationScope := { Scopes := done } }, world := w }
  | done, s :: rest, w =>
    let messageScope := defaultLifetime env s
    let req : messages.MitigationRequest :=
      { MitigationScope := { Scopes := done ++ messageScope :: rest } }
    match newMitigationScope env messageScope customer (env.EffectiveClientIdentifier req) with
    | Except.error e => { err := some e, req := req, world := w }
    | Except.ok scope =>
      if env.Validate scope customer then
        match env.CreateMitigationScope w.st scope customer with
        | (some e, st) =>
          { err := some e, req := req,
            world := w.step st (Event.CreateMitigationScope scope false) }
        | (none, st) =>
          createMitigationScopeLoop env customer (done ++ [messageScope]) rest
            (w.step st (Event.CreateMitigationScope scope true))
      else
        createMitigationScopeLoop env customer (done ++ [messageScope]) rest w

/-- The function `createMitigationScope`. -/
def createMitigationScope {σ : Type} (env : Env σ) (req : messages.MitigationRequest)
    (customer : models.Customer) (w : World σ) : CreateResult σ :=
  createMitigationScopeLoop env customer [] req.MitigationScope.Scopes w

/-! ## cancelMitigationByIds -/

/-- The first loop of `cancelMitigationByIds` (validation and search): the
protections found so far are `protections`; the loop ends at the first id
that does not resolve to an enabled protection. -/
def cancelMitigationLookup {σ : Type} (env : Env σ) (clientIdentifier : String)
    (customer : models.Customer) :
    List Int → List models.Protection → World σ →
      Except GoError (List models.Protection) × World σ
  | [], protections, w => (Except.ok protections, w)
  | mitigationId :: rest, protections, w =>
    if mitigationId = 0 then
      (Except.error (GoError.ctrl NotFound MsgType.NonConfirmable), w)
    else
      let w1 := w.log (Event.GetMitigationScope customer.Id clientIdentifier mitigationId)
      match env.GetMitigationScope w.st customer.Id clientIdentifier mitigationId with
      | Except.error e => (Except.error e, w1)
      | Except.ok none => (Except.error (GoError.ctrl NotFound MsgType.NonConfirmable), w1)
      | Except.ok (some _) =>
        let w2 := w1.log
          (Event.GetActiveProtectionByMitigationId customer.Id clientIdentifier mitigationId)
        match env.GetActiveProtectionByMitigationId w.st customer.Id clientIdentifier
            mitigationId with
        | Except.error e => (Except.error e, w2)
        | Except.ok none => (Except.error (GoError.ctrl NotFound MsgType.NonConfirmable), w2)
        | Except.ok (some p) =>
          if p.IsEnabled then
            cancelMitigationLookup env clientIdentifier customer rest (protections ++ [p]) w2
          else
            (Except.error (GoError.ctrl PreconditionFailed MsgType.NonConfirmable), w2)

/-- The second loop of `cancelMitigationByIds` (cancel): each protection is
stopped on its target blocker; a refusal ends the loop with `BadRequest`. -/
def cancelMitigationStop {σ : Type} (env : Env σ) :
    List models.Protection → World σ → Option GoError × World σ
  | [], w => (none, w)
  | p :: rest, w =>
    match env.StopProtection w.st p.TargetBlocker p with
    | (some _, st) =>
      (some (GoError.ctrl BadRequest MsgType.NonConfirmable),
        w.step st (Event.StopProtection p false))
    | (none, st) => cancelMitigationStop env rest (w.step st (Event.StopProtection p true))

/-- The function `cancelMitigationByIds`. -/
def cancelMitigationByIds {σ : Type} (env : Env σ) (mitigationIds : List Int)
    (clientIdentifier : String) (customer : models.Customer) (w : World σ) :
    Option GoError × World σ :=
  match cancelMitigationLookup env clientIdentifier customer mitigationIds [] w with
  | (Except.error e, w1) => (some e, w1)
  | (Except.ok protections, w1) => cancelMitigationStop env protections w1

/-- The function `cancelMitigationByModel`. -/
def cancelMitigationByModel {σ : Type} (env : Env σ) (scope : models.MitigationScope)
    (clientIdentifier : String) (customer : models.Customer) (w : World σ) :
    Option GoError × World σ :=
  cancelMitigationByIds env [scope.MitigationId] clientIdentifier customer w

/-- The function `cancelMitigationByMessage`. -/
def cancelMitigationByMessage {σ : Type} (env : Env σ) (req : messages.MitigationRequest)
    (customer : models.Customer) (w : World σ) : Option GoError × World σ :=
  cancelMitigationByIds env (req.MitigationScope.Scopes.map (fun scope => scope.MitigationId))
    (env.EffectiveClientIdentifier req) customer w

/-- The loop of `deleteMitigationByMessage` over the scopes of `req`. -/
def deleteMitigationLoop {σ : Type} (env : Env σ) (req : messages.MitigationRequest)
    (customer : models.Customer) : List messages.Scope → World σ → Option GoError × World σ
  | [], w => (none, w)
  | scope :: rest, w =>
    match env.DeleteMitigationScope w.st customer.Id (env.EffectiveClientIdentifier req)
        scope.MitigationId with
    | (some e, st) =>
      (some e, w.step st (Event.DeleteMitigationScope customer.Id
        (env.EffectiveClientIdentifier req) scope.MitigationId false))
    | (none, st) =>
      deleteMitigationLoop env req customer rest
        (w.step st (Event.DeleteMitigationScope customer.Id
          (env.EffectiveClientIdentifier req) scope.MitigationId true))

/-- The function `deleteMitigationByMessage`. -/
def deleteMitigationByMessage {σ : Type} (env : Env σ) (req : messages.MitigationRequest)
    (customer : models.Customer) (w : World σ) : Option GoError × World σ :=
  deleteMitigationLoop env req customer req.MitigationScope.Scopes w

/-! ## callBlocker -/

/-- The first loop of `callBlocker`: each scope is built and validated, then
enqueued with the selection service; `enqueued` are the scopes enqueued so
far, whose number is `counter`. -/
def callBlockerEnqueue {σ : Type} (env : Env σ) (data : messages.MitigationRequest)
    (c : models.Customer) :
    List messages.Scope → List models.MitigationScope → World σ →
      Except GoError (List models.MitigationScope) × World σ
  | [], enqueued, w => (Except.ok enqueued, w)
  | messageScope :: rest, enqueued, w =>
    match newMitigationScope env messageScope c (env.EffectiveClientIdentifier data) with
    | Except.error e => (Except.error e, w)
    | Except.ok scope =>
      if env.Validate scope c then
        callBlockerEnqueue env data c rest (enqueued ++ [scope])
          (w.step (env.Enqueue w.st scope) (Event.Enqueue scope))
      else
        (Except.error (GoError.text "validation error."), w)

/-- The variables of the fan-in loop of `callBlocker`. -/
structure FanIn (σ : Type) where
  counter : Nat
  err : Option GoError
  unregisterCommands : List (Nat × models.Protection)
  world : World σ

/-- One turn of the `select` of `callBlocker` on the message `m`.  A `break`
inside the `select` leaves the `select` only: after a failed
`RegisterProtection` or `ExecuteProtection` the error is recorded and neither
the counter nor the list of unregister commands changes. -/
def callBlockerSelect {σ : Type} (env : Env σ) (m : SelMsg) (s : FanIn σ) : FanIn σ :=
  match m with
  | SelMsg.assigned blocker scope =>
    match env.RegisterProtection s.world.st blocker scope with
    | (Except.error e, st) =>
      { s with err := some e,
               world := s.world.step st (Event.RegisterProtection blocker scope false) }
    | (Except.ok p, st) =>
      let w1 := s.world.step st (Event.RegisterProtection blocker scope true)
      match env.ExecuteProtection w1.st blocker p with
      | (some e, st2) =>
        { s with err := some e,
                 world := w1.step st2 (Event.ExecuteProtection blocker p false) }
      | (none, st2) =>
        { s with unregisterCommands := s.unregisterCommands ++ [(blocker, p)],
                 counter := s.counter - 1,
                 world := w1.step st2 (Event.ExecuteProtection blocker p true) }
  | SelMsg.failed e =>
    { s with counter := s.counter - 1, err := some e }

/-- The fan-in loop `for counter > 0 { select ... }` of `callBlocker` over the
messages still to arrive.  It ends with `counter = 0`; when no message is
left while `counter > 0` the `select` waits for ever, and the variables are
returned as they stand, with `counter > 0`. -/
def callBlockerLoop {σ : Type} (env : Env σ) : List SelMsg → FanIn σ → FanIn σ
  | [], s => s
  | m :: rest, s =>
    if s.counter = 0 then s else callBlockerLoop env rest (callBlockerSelect env m s)

/-- The rollback of `callBlocker`: the unregister commands run in order. -/
def callBlockerRollback {σ : Type} (env : Env σ) :
    List (Nat × models.Protection) → World σ → World σ
  | [], w => w
  | (blocker, p) :: rest, w =>
    callBlockerRollback env rest
      (w.step (env.UnregisterProtection w.st blocker p) (Event.UnregisterProtection blocker p))

/-- How a call of `callBlocker` ends: it returns its error, or it waits for
ever in the fan-in loop. -/
inductive CallStatus where
  | returned (err : Option GoError)
  | blocked
deriving DecidableEq, Repr

/-- The result of `callBlocker`. -/
structure CallResult (σ : Type) where
  status : CallStatus
  world : World σ

/-- The function `callBlocker`. -/
def callBlocker {σ : Type} (env : Env σ) (data : messages.MitigationRequest)
    (c : models.Customer) (w : World σ) : CallResult σ :=
  match callBlockerEnqueue env data c data.MitigationScope.Scopes [] w with
  | (Except.error e, w1) => { status := CallStatus.returned (some e), world := w1 }
  | (Except.ok enqueued, w1) =>
    let s := callBlockerLoop env (env.Arrivals w1.st enqueued)
      { counter := enqueued.length, err := none, unregisterCommands := [], world := w1 }
    if s.counter = 0 then
      match s.err with
      | some e =>
        { status := CallStatus.returned (some e),
          world := callBlockerRollback env s.unregisterCommands s.world }
      | none => { status := CallStatus.returned none, world := s.world }
    else
      { status := CallStatus.blocked, world := s.world }

/-! ## The verbs of the MitigationRequest controller -/

/-- How a verb ends: it returns `(res, err)`, it panics on a nil pointer, or
it never returns. -/
inductive Status where
  | returned (res : Response) (err : Option GoError)
  | panicked
  | blocked
deriving DecidableEq, Repr

/-- The end of a verb and the world it leaves. -/
structure Outcome (σ : Type) where
  status : Status
  world : World σ

/-- The `BadRequest` response without body. -/
def badRequestResponse : Response :=
  { Typ := MsgType.NonConfirmable, Code := BadRequest, Body := Body.nil }

/-- The two branches of `MitigationRequest.Put` after the lookup, from
`createMitigationScope` on; they differ in the code of the response only
(`Created` at lines 128-145, `Changed` at lines 158-174). -/
def putCreateAndCall {σ : Type} (env : Env σ) (req : messages.MitigationRequest)
    (customer : models.Customer) (code : Code) (w : World σ) : Outcome σ :=
  let r := createMitigationScope env req customer w
  match r.err with
  | some e => { status := Status.returned Response.zero (some e), world := r.world }
  | none =>
    let b := callBlocker env r.req customer r.world
    match b.status with
    | CallStatus.blocked => { status := Status.blocked, world := b.world }
    | CallStatus.returned (some e) =>
      { status := Status.returned Response.zero (some e), world := b.world }
    | CallStatus.returned none =>
      { status := Status.returned
          { Typ := MsgType.NonConfirmable, Code := code,
            Body := Body.mitigationResponsePut r.req } none,
        world := b.world }

/-- The method `MitigationRequest.Put`; a nil request is `none`. -/
def MitigationRequest.Put {σ : Type} (env : Env σ) (request : Option messages.MitigationRequest)
    (customer : models.Customer) (w : World σ) : Outcome σ :=
  match request with
  | none => { status := Status.returned badRequestResponse none, world := w }
  | some req =>
    match req.MitigationScope.Scopes with
    | [reqScope] =>
      let w1 := w.log (Event.GetMitigationScope customer.Id
        (env.EffectiveClientIdentifier req) reqScope.MitigationId)
      match env.GetMitigationScope w.st customer.Id (env.EffectiveClientIdentifier req)
          reqScope.MitigationId with
      | Except.error e => { status := Status.returned Response.zero (some e), world := w1 }
      | Except.ok none => { status := Status.panicked, world := w1 }
      | Except.ok (some currentScope) =>
        if currentScope.MitigationId = 0 then
          putCreateAndCall env req customer Created w1
        else
          match cancelMitigationByModel env currentScope (env.EffectiveClientIdentifier req)
              customer w1 with
          | (some e, w2) => { status := Status.returned Response.zero (some e), world := w2 }
          | (none, w2) => putCreateAndCall env req customer Changed w2
    | _ => { status := Status.returned badRequestResponse none, world := w }

/-- The method `MitigationRequest.Delete`; a nil request is `none`. -/
def MitigationRequest.Delete {σ : Type} (env : Env σ)
    (request : Option messages.MitigationRequest) (customer : models.Customer)
    (w : World σ) : Outcome σ :=
  match request with
  | none => { status := Status.returned badRequestResponse none, world := w }
  | some req =>
    match cancelMitigationByMessage env req customer w with
    | (some e, w1) => { status := Status.returned Response.zero (some e), world := w1 }
    | (none, w1) =>
      match deleteMitigationByMessage env req customer w1 with
      | (some e, w2) => { status := Status.returned Response.zero (some e), world := w2 }
      | (none, w2) =>
        { status := Status.returned
            { Typ := MsgType.NonConfirmable, Code := Deleted, Body := Body.nil } none,
          world := w2 }

/-! ## The verbs of the SessionConfiguration controller -/

/-- The policy, the validator and the repository of the session
configurations, over a world state `σ`; none of them is under `src/`.
`SignalConfigurationParameter` is the field of that name of
`dots_config.GetServerSystemConfig()`. -/
structure SessionEnv (σ : Type) where
  SignalConfigurationParameter : config.SignalConfigurationParameter
  Validate : models.SignalSessionConfiguration → models.Customer → Bool
  GetCurrentSignalSessionConfiguration :
    σ → Int → Except GoError (Option models.SignalSessionConfiguration)
  CreateSignalSessionConfiguration :
    σ → models.SignalSessionConfiguration → models.Customer → Option GoError × σ

/-- The configuration that `SessionConfiguration.Put` builds from its payload
with `models.NewSignalSessionConfiguration` (lines 85-93). -/
def configurationOfPayload (payload : messages.SignalConfig) :
    models.SignalSessionConfiguration :=
  models.NewSignalSessionConfiguration payload.SessionId payload.HeartbeatInterval
    payload.MissingHbAllowed payload.MaxRetransmit payload.AckTimeout payload.AckRandomFactor
    payload.TriggerMitigation

/-- The method `SessionConfiguration.Get`; the request is not looked at.  The
configuration that the repository returns is read without a nil check. -/
def SessionConfiguration.Get {σ : Type} (env : SessionEnv σ)
    (_request : Option messages.SignalConfigRequest) (customer : models.Customer)
    (w : World σ) : Outcome σ :=
  let w1 := w.log (Event.GetCurrentSignalSessionConfiguration customer.Id)
  match env.GetCurrentSignalSessionConfiguration w.st customer.Id with
  | Except.error e => { status := Status.returned badRequestResponse (some e), world := w1 }
  | Except.ok none => { status := Status.panicked, world := w1 }
  | Except.ok (some signalSessionConfiguration) =>
    let config := env.SignalConfigurationParameter
    let resp := messages.ConfigurationResponse.zero
    let resp := { resp with
      HeartbeatInterval := resp.HeartbeatInterval.SetMinMax config.HeartbeatInterval }
    let resp := { resp with
      MissingHbAllowed := resp.MissingHbAllowed.SetMinMax config.MissingHbAllowed }
    let resp := { resp with MaxRetransmit := resp.MaxRetransmit.SetMinMax config.MaxRetransmit }
    let resp := { resp with AckTimeout := resp.AckTimeout.SetMinMax config.AckTimeout }
    let resp := { resp with
      AckRandomFactor := resp.AckRandomFactor.SetMinMax config.AckRandomFactor }
    let resp := { resp with
      HeartbeatInterval := { resp.HeartbeatInterval with
        CurrentValue := signalSessionConfiguration.HeartbeatInterval } }
    let resp := { resp with
      MissingHbAllowed := { resp.MissingHbAllowed with
        CurrentValue := signalSessionConfiguration.MissingHbAllowed } }
    let resp := { resp with
      MaxRetransmit := { resp.MaxRetransmit with
        CurrentValue := signalSessionConfiguration.MaxRetransmit } }
    let resp := { resp with
      AckTimeout := { resp.AckTimeout with
        CurrentValue := signalSessionConfiguration.AckTimeout } }
    let resp := { resp with
      AckRandomFactor := { resp.AckRandomFactor with
        CurrentValue := signalSessionConfiguration.AckRandomFactor } }
    let resp := { resp with
      TriggerMitigation := { resp.TriggerMitigation with
        CurrentValue := signalSessionConfiguration.TriggerMitigation } }
    { status := Status.returned
        { Typ := MsgType.NonConfirmable, Code := Content,
          Body := Body.configurationResponse resp } none,
      world := w1 }

/-- The method `SessionConfiguration.Put`; a nil request is `none`.  At the
label `ResponseNG` the result `err` keeps the error of
`CreateSignalSessionConfiguration` when that is what led there. -/
def SessionConfiguration.Put {σ : Type} (env : SessionEnv σ)
    (request : Option messages.SignalConfigRequest) (customer : models.Customer)
    (w : World σ) : Outcome σ :=
  match request with
  | none => { status := Status.returned badRequestResponse none, world := w }
  | some req =>
    let payload := req.SignalConfig
    let signalSessionConfiguration := configurationOfPayload payload
    if env.Validate signalSessionConfiguration customer then
      match env.CreateSignalSessionConfiguration w.st signalSessionConfiguration customer with
      | (some e, st) =>
        { status := Status.returned badRequestResponse (some e),
          world := w.step st
            (Event.CreateSignalSessionConfiguration signalSessionConfiguration false) }
      | (none, st) =>
        { status := Status.returned
            { Typ := MsgType.NonConfirmable, Code := Created, Body := Body.nil } none,
          world := w.step st
            (Event.CreateSignalSessionConfiguration signalSessionConfiguration true) }
    else
      { status := Status.returned badRequestResponse none, world := w }

/-- Modelled from the spec: the repository of the session configurations is
not under `src/`; this is the property of sections 3 and 4.C that the claim
about a GET after a PUT rests on: a successful
`CreateSignalSessionConfiguration` makes its configuration the current one of
the customer. -/
structure SessionRepositoryLaws {σ : Type} (env : SessionEnv σ) : Prop where
  create_then_get : ∀ st configuration customer st1,
    env.CreateSignalSessionConfiguration st configuration customer = (none, st1) →
      env.GetCurrentSignalSessionConfiguration st1 customer.Id =
        Except.ok (some configuration)

/-! ## The dispatcher -/

namespace libcoap

/-- The struct `libcoap.Pdu`, with the fields that the dispatcher reads or
writes; a byte is a number. -/
structure Pdu where
  MessageID : Nat
  Token : List Nat
  Code : Code
  Data : List Nat
deriving DecidableEq, Repr

/-- The session of a peer, `libcoap.Session`, named by a number. -/
structure Session where
  id : Nat
deriving DecidableEq, Repr

/-- Modelled from the spec: the constant `libcoap.ResponseForbidden`, 4.03. -/
def ResponseForbidden : Code := Forbidden

/-- Modelled from the spec: the constant `libcoap.ResponseInternalServerError`, 5.00. -/
def ResponseInternalServerError : Code := InternalServerError

end libcoap

/-- The collaborators of the dispatcher for an endpoint whose request type is
`ρ`: the secure transport, the repository of the customers and the CBOR
codec (`Decode` is `codec.Decoder.Decode` into a new value of the request
type, `Encode` is `cbor.Encoder.Encode`); none of them is under `src/`. -/
structure Transport (σ ρ : Type) where
  DtlsGetPeerCommonName : libcoap.Session → Except GoError String
  GetCustomerByCommonName : σ → String → Except GoError (Option models.Customer)
  Decode : List Nat → Except GoError ρ
  Encode : Body → Except GoError (List Nat)

/-- The function `unmarshalCbor`: an empty payload is the nil request. -/
def unmarshalCbor {σ ρ : Type} (t : Transport σ ρ) (pdu : libcoap.Pdu) :
    Except GoError (Option ρ) :=
  if pdu.Data.length = 0 then Except.ok none
  else
    match t.Decode pdu.Data with
    | Except.error err => Except.error err
    | Except.ok m => Except.ok (some m)

/-- The function `marshalCbor`. -/
def marshalCbor {σ ρ : Type} (t : Transport σ ρ) (msg : Body) : Except GoError (List Nat) :=
  match t.Encode msg with
  | Except.error err => Except.error err
  | Except.ok bytes => Except.ok bytes

/-- A controller verb as the dispatcher calls it, `DotsServiceMethod`. -/
abbrev DotsServiceMethod (σ ρ : Type) : Type :=
  Option ρ → models.Customer → World σ → Outcome σ

/-- What the method handler has done so far, in order. -/
inductive HandlerStep where
  | DtlsGetPeerCommonName
  | GetCustomerByCommonName (cn : String)
  | unmarshalCbor
  | method
  | marshalCbor
deriving DecidableEq, Repr

/-- How a call of the method handler ends: it returns, or the controller verb
(or the read of a nil customer) panics, or the controller verb never
returns. -/
inductive HandlerStatus where
  | returned
  | panicked
  | blocked
deriving DecidableEq, Repr

/-- The end of a call of the method handler: the response PDU as it has been
written, the steps taken and the world. -/
structure HandlerResult (σ : Type) where
  status : HandlerStatus
  response : libcoap.Pdu
  steps : List HandlerStep
  world : World σ

/-- The method handler that `toMethodHandler` of `addHandler` builds for the
controller verb `method`: `request` is the inbound PDU and `response` the PDU
that the handler fills in. -/
def toMethodHandler {σ ρ : Type} (t : Transport σ ρ) (method : DotsServiceMethod σ ρ)
    (session : libcoap.Session) (request response : libcoap.Pdu) (w : World σ) :
    HandlerResult σ :=
  let response := { response with MessageID := request.MessageID }
  let response := { response with Token := request.Token }
  match t.DtlsGetPeerCommonName session with
  | Except.error _ =>
    { status := HandlerStatus.returned,
      response := { response with Code := libcoap.ResponseForbidden },
      steps := [HandlerStep.DtlsGetPeerCommonName], world := w }
  | Except.ok cn =>
    match t.GetCustomerByCommonName w.st cn with
    | Except.error _ =>
      { status := HandlerStatus.returned,
        response := { response with Code := libcoap.ResponseForbidden },
        steps := [HandlerStep.DtlsGetPeerCommonName, HandlerStep.GetCustomerByCommonName cn],
        world := w }
    | Except.ok none =>
      { status := HandlerStatus.panicked, response := response,
        steps := [HandlerStep.DtlsGetPeerCommonName, HandlerStep.GetCustomerByCommonName cn],
        world := w }
    | Except.ok (some customer) =>
      if customer.Id = 0 then
        { status := HandlerStatus.returned,
          response := { response with Code := libcoap.ResponseForbidden },
          steps := [HandlerStep.DtlsGetPeerCommonName, HandlerStep.GetCustomerByCommonName cn],
          world := w }
      else
        match unmarshalCbor t request with
        | Except.error _ =>
          { status := HandlerStatus.returned,
            response := { response with Code := libcoap.ResponseInternalServerError },
            steps := [HandlerStep.DtlsGetPeerCommonName,
              HandlerStep.GetCustomerByCommonName cn, HandlerStep.unmarshalCbor],
            world := w }
        | Except.ok req =>
          let steps := [HandlerStep.DtlsGetPeerCommonName,
            HandlerStep.GetCustomerByCommonName cn, HandlerStep.unmarshalCbor,
            HandlerStep.method]
          let out := method req customer w
          match out.status with
          | Status.panicked =>
            { status := HandlerStatus.panicked, response := response, steps := steps,
              world := out.world }
          | Status.blocked =>
            { status := HandlerStatus.blocked, response := response, steps := steps,
              world := out.world }
          | Status.returned _ (some _) =>
            { status := HandlerStatus.returned,
              response := { response with Code := libcoap.ResponseInternalServerError },
              steps := steps, world := out.world }
          | Status.returned res none =>
            match marshalCbor t res.Body with
            | Except.error _ =>
              { status := HandlerStatus.returned,
                response := { response with Code := libcoap.ResponseInternalServerError },
                steps := steps ++ [HandlerStep.marshalCbor], world := out.world }
            | Except.ok payload =>
              let response := { response with Code := res.Code }
              let response := { response with Data := payload }
              { status := HandlerStatus.returned, response := response,
                steps := steps ++ [HandlerStep.marshalCbor], world := out.world }

/-! ## Kinds of calls -/

/-- A query of the repository: `GetMitigationScope` or
`GetActiveProtectionByMitigationId`. -/
def Event.isQuery : Event → Bool
  | Event.GetMitigationScope _ _ _ => true
  | Event.GetActiveProtectionByMitigationId _ _ _ => true
  | _ => false

/-- A call of the orchestrator on the selection service or on a blocker:
`Enqueue`, `RegisterProtection`, `ExecuteProtection` or `UnregisterProtection`. -/
def Event.isBlockerCall : Event → Bool
  | Event.Enqueue _ => true
  | Event.RegisterProtection _ _ _ => true
  | Event.ExecuteProtection _ _ _ => true
  | Event.UnregisterProtection _ _ => true
  | _ => false

/-- A call of `StopProtection`. -/
def Event.isStop : Event → Bool
  | Event.StopProtection _ _ => true
  | _ => false

/-- A call of `CreateMitigationScope`. -/
def Event.isCreate : Event → Bool
  | Event.CreateMitigationScope _ _ => true
  | _ => false

/-- A call of `DeleteMitigationScope`. -/
def Event.isDelete : Event → Bool
  | Event.DeleteMitigationScope _ _ _ _ => true
  | _ => false

/-- The world `w1` comes from `w` by calls that all satisfy `P`. -/
def OnlyAdds {σ : Type} (P : Event → Bool) (w w1 : World σ) : Prop :=
  ∃ t, w1.trace = w.trace ++ t ∧ ∀ e ∈ t, P e = true

/-! ## What a world state holds, as the controller can observe it -/

/-- Whether the repository holds a scope for the key: the lookup yields a
scope whose mitigation-id is not 0 (`Put` reads a scope with mitigation-id 0
as "no scope", `cancelMitigationByIds` reads nil so). -/
def hasScope {σ : Type} (env : Env σ) (st : σ) (customerId : Int) (clientIdentifier : String)
    (mitigationId : Int) : Bool :=
  match env.GetMitigationScope st customerId clientIdentifier mitigationId with
  | Except.ok (some s) => s.MitigationId != 0
  | _ => false

/-- The enabled active protection of the key, when there is one. -/
def enabledProtection {σ : Type} (env : Env σ) (st : σ) (customerId : Int)
    (clientIdentifier : String) (mitigationId : Int) : Option models.Protection :=
  match env.GetActiveProtectionByMitigationId st customerId clientIdentifier mitigationId with
  | Except.ok (some p) => if p.IsEnabled then some p else none
  | _ => none

/-- Modelled from the spec: the repository and the blockers are not under
`src/`; these are the properties of sections 3 and 4.C that the claims about
the state after `DELETE` rest on.  A successful `DeleteMitigationScope`
leaves no scope under its key, a successful `StopProtection` leaves the
protection not enabled (is-enabled cleared), and neither operation brings a
scope or an enabled protection into being. -/
structure RepositoryLaws {σ : Type} (env : Env σ) : Prop where
  delete_removes : ∀ st cid cl mid st1,
    env.DeleteMitigationScope st cid cl mid = (none, st1) → hasScope env st1 cid cl mid = false
  delete_keeps_absent : ∀ st cid cl mid cid1 cl1 mid1,
    hasScope env (env.DeleteMitigationScope st cid cl mid).2 cid1 cl1 mid1 = true →
      hasScope env st cid1 cl1 mid1 = true
  delete_keeps_stopped : ∀ st cid cl mid cid1 cl1 mid1 q,
    enabledProtection env (env.DeleteMitigationScope st cid cl mid).2 cid1 cl1 mid1 = some q →
      enabledProtection env st cid1 cl1 mid1 = some q
  stop_disables : ∀ st b p st1 cid cl mid,
    env.StopProtection st b p = (none, st1) → enabledProtection env st1 cid cl mid ≠ some p
  stop_keeps_stopped : ∀ st b p cid cl mid q,
    enabledProtection env (env.StopProtection st b p).2 cid cl mid = some q →
      enabledProtection env st cid cl mid = some q

/-! ## A concrete repository and blocker pool -/

/-- Modelled from the spec: the state of the repository, the blockers and the
selection service (sections 3, 4.C and 4.E), none of which is under `src/`.
`scopes` are the rows of the mitigation scopes, `protections` the protections
with the scope each one protects (newest first), `blockers` the blockers with
their remaining capacity, `failing` the blockers whose driver calls fail,
`mailbox` the replies of the selection service in the order they were posted. -/
structure Store where
  scopes : List models.MitigationScope
  protections : List (models.MitigationScope × models.Protection)
  blockers : List (Nat × Nat)
  failing : List Nat
  mailbox : List SelMsg
  nextProtectionId : Nat
deriving DecidableEq, Repr

/-- Whether a stored scope is the one of the key. -/
def sameKey (s : models.MitigationScope) (customerId : Int) (clientIdentifier : String)
    (mitigationId : Int) : Bool :=
  s.Customer.Id == customerId && s.ClientIdentifier == clientIdentifier &&
    s.MitigationId == mitigationId

/-- Modelled from the spec: the selection of section 4.E on one scope, the
first blocker with remaining capacity, whose capacity is decremented. -/
def selectBlocker : List (Nat × Nat) → Option (Nat × List (Nat × Nat))
  | [] => none
  | (b, cap) :: rest =>
    if 0 < cap then some (b, (b, cap - 1) :: rest)
    else
      match selectBlocker rest with
      | none => none
      | some (b1, rest1) => some (b1, (b, cap) :: rest1)

/-- Modelled from the spec: the collaborators of sections 4.C to 4.E over a
`Store`.  A lookup that finds no row yields the empty scope, with
mitigation-id 0, which is how `Put` reads absence; `CreateMitigationScope`
replaces the row of the key; a protection is known by its `Id`;
`StopProtection` clears is-enabled, `ExecuteProtection` sets it; a blocker in
`failing` refuses every driver call; the selection service posts one message
per enqueued scope, an error when no blocker has capacity left. -/
def storeEnv : Env Store where
  DEFAULT_SIGNAL_MITIGATE_LIFETIME := 3600
  EffectiveClientIdentifier := fun _ => "client"
  NewPrefix := fun cidr => Except.ok { cidr := cidr }
  Validate := fun s _ => !(s.TargetPrefix.isEmpty && s.TargetPortRange.isEmpty &&
    s.TargetProtocol.isEmpty && s.FQDN.isEmpty && s.URI.isEmpty && s.AliasName.isEmpty)
  GetMitigationScope := fun st cid cl mid =>
    match st.scopes.find? (fun s => sameKey s cid cl mid) with
    | some s => Except.ok (some s)
    | none => Except.ok (some (models.NewMitigationScope { Id := cid, Name := "" } cl))
  GetActiveProtectionByMitigationId := fun st cid cl mid =>
    match st.protections.find? (fun e => sameKey e.1 cid cl mid) with
    | some e => Except.ok (some e.2)
    | none => Except.ok none
  CreateMitigationScope := fun st s _ =>
    let others := st.scopes.filter
      (fun r => !sameKey r s.Customer.Id s.ClientIdentifier s.MitigationId)
    (none, { st with scopes := s :: others })
  DeleteMitigationScope := fun st cid cl mid =>
    (none, { st with scopes := st.scopes.filter (fun r => !sameKey r cid cl mid) })
  StopProtection := fun st b p =>
    if b ∈ st.failing then (some (GoError.ext 2), st)
    else
      let stopped := st.protections.map
        (fun e => if e.2.Id = p.Id then (e.1, { e.2 with IsEnabled := false }) else e)
      (none, { st with protections := stopped })
  RegisterProtection := fun st b s =>
    if b ∈ st.failing then (Except.error (GoError.ext 3), st)
    else
      let p : models.Protection :=
        { Id := st.nextProtectionId, IsEnabled := false, TargetBlocker := b, StartedAt := 0 }
      (Except.ok p, { st with protections := List.cons (s, p) st.protections,
                              nextProtectionId := st.nextProtectionId + 1 })
  ExecuteProtection := fun st b p =>
    if b ∈ st.failing then (some (GoError.ext 4), st)
    else
      let started := st.protections.map
        (fun e => if e.2.Id = p.Id then (e.1, { e.2 with IsEnabled := true }) else e)
      (none, { st with protections := started })
  UnregisterProtection := fun st _ p =>
    { st with protections := st.protections.filter (fun e => e.2.Id ≠ p.Id) }
  Enqueue := fun st s =>
    match selectBlocker st.blockers with
    | some (b, blockers) =>
      { st with blockers := blockers, mailbox := st.mailbox ++ [SelMsg.assigned b s] }
    | none => { st with mailbox := st.mailbox ++ [SelMsg.failed (GoError.ext 1)] }
  Arrivals := fun st enqueued => st.mailbox.drop (st.mailbox.length - enqueued.length)

/-! ## Example inputs -/

/-- A customer. -/
def exampleCustomer : models.Customer := { Id := 1, Name := "customer" }

/-- The scope of scenario 1 of the specification with a port range added:
mitigation-id 12345, one prefix, TCP, port 443 with upper-port 0. -/
def exampleScope (mitigationId lifetime : Int) : messages.Scope :=
  { MitigationId := mitigationId, TargetIp := [], TargetPrefix := ["192.0.2.0/24"],
    TargetPortRange := [{ LowerPort := 443, UpperPort := 0 }], TargetProtocol := [6],
    FQDN := [], URI := [], AliasName := [], Lifetime := lifetime }

/-- A scope without any target, which the validator of `storeEnv` rejects. -/
def emptyScope (mitigationId lifetime : Int) : messages.Scope :=
  { MitigationId := mitigationId, TargetIp := [], TargetPrefix := [],
    TargetPortRange := [], TargetProtocol := [],
    FQDN := [], URI := [], AliasName := [], Lifetime := lifetime }

/-- A scope whose port range has a port above 65535. -/
def badPortScope (mitigationId lifetime : Int) : messages.Scope :=
  { MitigationId := mitigationId, TargetIp := [], TargetPrefix := [],
    TargetPortRange := [{ LowerPort := 70000, UpperPort := 0 }], TargetProtocol := [],
    FQDN := [], URI := [], AliasName := [], Lifetime := lifetime }

/-- A request with the given scopes. -/
def requestOf (scopes : List messages.Scope) : messages.MitigationRequest :=
  { MitigationScope := { Scopes := scopes } }

/-- A request with two scopes. -/
def twoScopeRequest : messages.MitigationRequest :=
  requestOf [exampleScope 12345 3600, exampleScope 12346 3600]

/-- An empty repository with one blocker, number 7, of capacity 2. -/
def exampleStore : Store :=
  { scopes := [], protections := [], blockers := [(7, 2)], failing := [], mailbox := [],
    nextProtectionId := 0 }

/-- The world of `exampleStore` before any call. -/
def exampleWorld : World Store := { st := exampleStore, trace := [] }

/-- The model scope that `newMitigationScope` builds from `exampleScope 12345 3600`. -/
def exampleModelScope : models.MitigationScope :=
  { Customer := exampleCustomer, ClientIdentifier := "client", MitigationId := 12345,
    TargetProtocol := [6], FQDN := [], URI := [], AliasName := [], Lifetime := 3600,
    TargetPrefix := [{ cidr := "192.0.2.0/24" }],
    TargetPortRange := [{ LowerPort := 443, UpperPort := 443 }] }

/-- The world after scenario 1 of the specification: the PUT of
`exampleScope 12345 3600` on the empty repository. -/
def protectedWorld : World Store :=
  (MitigationRequest.Put storeEnv (some (requestOf [exampleScope 12345 3600])) exampleCustomer
    exampleWorld).world

/-- The world of `protectedWorld` in which blocker 7 has begun to refuse its
driver calls. -/
def refusingWorld : World Store :=
  { st := { protectedWorld.st with failing := [7] }, trace := [] }

/-- The model scope that `newMitigationScope` builds from `emptyScope 12345 3600`. -/
def emptyModelScope : models.MitigationScope :=
  { Customer := exampleCustomer, ClientIdentifier := "client", MitigationId := 12345,
    TargetProtocol := [], FQDN := [], URI := [], AliasName := [], Lifetime := 3600,
    TargetPrefix := [], TargetPortRange := [] }

/-- An empty repository without any blocker: the selection service answers
every enqueued scope with an error. -/
def noBlockerWorld : World Store :=
  { st := { exampleStore with blockers := [] }, trace := [] }

/-- The protection that scenario 1 of the specification starts on blocker 7. -/
def exampleProtection : models.Protection :=
  { Id := 0, IsEnabled := true, TargetBlocker := 7, StartedAt := 0 }

/-- The world after a PUT of mitigation 12346 on `protectedWorld`: two scopes,
each with an enabled protection. -/
def twiceProtectedWorld : World Store :=
  (MitigationRequest.Put storeEnv (some (requestOf [exampleScope 12346 3600])) exampleCustomer
    protectedWorld).world

/-- The world of `twiceProtectedWorld` after the protection of mitigation 12346
has been stopped: both scopes are stored, the protection of 12345 is enabled,
that of 12346 is present but not enabled. -/
def stoppedWorld : World Store :=
  (cancelMitigationByIds storeEnv [12346] "client" exampleCustomer twiceProtectedWorld).2

/-! ## A concrete repository of session configurations, transport and codec -/

/-- Modelled from the spec: the state of the repository of the session
configurations (sections 3 and 4.C), which is not under `src/`: at most one
current configuration per customer id, and a switch that makes every write
fail. -/
structure SessionStore where
  configurations : List (Int × models.SignalSessionConfiguration)
  readOnly : Bool
deriving DecidableEq, Repr

/-- Whether a value lies in the band of the policy. -/
def config.IntegerParameterRange.includes (pr : config.IntegerParameterRange) (x : Int) : Bool :=
  decide (pr.Min ≤ x) && decide (x ≤ pr.Max)

/-- Whether a value lies in the band of the policy; for the non-negative
reals of the policy the order of the bit patterns is the order of the
numbers. -/
def config.FloatParameterRange.includes (pr : config.FloatParameterRange) (x : Float64) : Bool :=
  decide (pr.Min.bits ≤ x.bits) && decide (x.bits ≤ pr.Max.bits)

/-- Modelled from the spec: a server policy (section 4.D); the band of
ack-random-factor is 1.0 to 4.0. -/
def examplePolicy : config.SignalConfigurationParameter :=
  { HeartbeatInterval := { Min := 15, Max := 240 },
    MissingHbAllowed := { Min := 3, Max := 9 },
    MaxRetransmit := { Min := 2, Max := 15 },
    AckTimeout := { Min := 1, Max := 30 },
    AckRandomFactor := { Min := { bits := 0x3FF0000000000000 },
                         Max := { bits := 0x4010000000000000 } } }

/-- Modelled from the spec: the collaborators of `SessionConfiguration` over a
`SessionStore` (sections 4.C and 4.D).  The validator checks each numeric
parameter against its band; `CreateSignalSessionConfiguration` replaces the
current configuration of the customer. -/
def sessionStoreEnv : SessionEnv SessionStore where
  SignalConfigurationParameter := examplePolicy
  Validate := fun c _ =>
    examplePolicy.HeartbeatInterval.includes c.HeartbeatInterval &&
    examplePolicy.MissingHbAllowed.includes c.MissingHbAllowed &&
    examplePolicy.MaxRetransmit.includes c.MaxRetransmit &&
    examplePolicy.AckTimeout.includes c.AckTimeout &&
    examplePolicy.AckRandomFactor.includes c.AckRandomFactor
  GetCurrentSignalSessionConfiguration := fun st customerId =>
    match st.configurations.find? (fun e => e.1 == customerId) with
    | some e => Except.ok (some e.2)
    | none => Except.ok none
  CreateSignalSessionConfiguration := fun st c customer =>
    if st.readOnly then (some (GoError.ext 5), st)
    else
      let others := st.configurations.filter (fun e => e.1 != customer.Id)
      (none, { st with configurations := (customer.Id, c) :: others })

/-- The PUT payload of scenario 6 of the specification; ack-random-factor is
1.5. -/
def exampleSignalConfig : messages.SignalConfigRequest :=
  { SignalConfig :=
      { SessionId := 7, HeartbeatInterval := 30, MissingHbAllowed := 5, MaxRetransmit := 3,
        AckTimeout := 2, AckRandomFactor := { bits := 0x3FF8000000000000 },
        TriggerMitigation := true } }

/-- A payload whose heartbeat-interval is outside the band of the policy. -/
def rejectedSignalConfig : messages.SignalConfigRequest :=
  { SignalConfig := { exampleSignalConfig.SignalConfig with HeartbeatInterval := 1 } }

/-- The repository of session configurations before any PUT. -/
def sessionWorld : World SessionStore :=
  { st := { configurations := [], readOnly := false }, trace := [] }

/-- The repository of session configurations when every write fails. -/
def readOnlySessionWorld : World SessionStore :=
  { st := { configurations := [], readOnly := true }, trace := [] }

/-- Modelled from the spec: a transport and codec for the endpoint
`/mitigation_request` (sections 4.B, 4.C and 4.G), none of which is under
`src/`.  Session 1 belongs to the peer with Common Name "customer"; no Common
Name can be extracted from any other session but session 3, whose peer
"stranger" is no customer.  A Common Name without customer yields the empty
customer, with id 0.  The codec is a stand-in for
CBOR: each byte of a payload is the mitigation-id of one scope without
targets, and a byte above 255 does not decode. -/
def exampleTransport : Transport Store messages.MitigationRequest where
  DtlsGetPeerCommonName := fun session =>
    if session.id = 1 then Except.ok "customer"
    else if session.id = 3 then Except.ok "stranger"
    else Except.error (GoError.ext 10)
  GetCustomerByCommonName := fun _ cn =>
    if cn = "customer" then Except.ok (some exampleCustomer)
    else Except.ok (some { Id := 0, Name := "" })
  Decode := fun data =>
    if data.all (fun b => decide (b ≤ 255)) then
      Except.ok (requestOf (data.map (fun b => emptyScope (Int.ofNat b) 0)))
    else Except.error (GoError.ext 11)
  Encode := fun body =>
    match body with
    | Body.nil => Except.ok []
    | _ => Except.ok [1]

/-- An inbound PDU with message-id 4711 and token 0xca 0xfe. -/
def examplePdu (data : List Nat) : libcoap.Pdu :=
  { MessageID := 4711, Token := [0xca, 0xfe], Code := 0, Data := data }

/-- The response PDU before the handler has written to it. -/
def emptyPdu : libcoap.Pdu := { MessageID := 0, Token := [], Code := 0, Data := [] }

/-- Modelled from the spec: the collaborators of `storeEnv`, except that
every `ExecuteProtection` fails (a driver timeout, section 5). -/
def executeFailingEnv : Env Store :=
  { storeEnv with ExecuteProtection := fun st _ _ => (some (GoError.ext 4), st) }

/-- The world of `exampleStore` in which blocker 7 refuses its driver calls,
`RegisterProtection` included. -/
def registerFailingWorld : World Store :=
  { st := { exampleStore with failing := [7] }, trace := [] }

/-- The world of `exampleStore` in which blocker 7 has capacity for one
protection only: the selection service assigns the first enqueued scope to
blocker 7 and answers the second with an error. -/
def oneSlotWorld : World Store :=
  { st := { exampleStore with blockers := [(7, 1)] }, trace := [] }

/-! ## Theorems -/

/-! ### Port ranges -/

theorem portPairRefused_iff (r : messages.TargetPortRange) :
    portPairRefused r = true ↔
      (r.LowerPort < 0 ∨ 65535 < r.LowerPort ∨ r.UpperPort < 0 ∨ 65535 < r.UpperPort) ∨
        (r.UpperPort ≠ 0 ∧ r.UpperPort < r.LowerPort) := by
  unfold portPairRefused
  simp only [Bool.or_eq_true, decide_eq_true_eq, Bool.and_eq_true, gt_iff_lt]
  tauto

theorem newTargetPortRange_cons_refused (r : messages.TargetPortRange)
    (rest : List messages.TargetPortRange) (h : portPairRefused r = true) :
    newTargetPortRange (r :: rest) = Except.error (invalidPortError r) := by
  rw [portPairRefused_iff] at h
  unfold newTargetPortRange
  by_cases h1 : r.LowerPort < 0 ∨ 0xffff < r.LowerPort ∨ r.UpperPort < 0 ∨ 0xffff < r.UpperPort
  · rw [if_pos h1]
  · rw [if_neg h1]
    have h2 : r.UpperPort ≠ 0 := by omega
    have h3 : ¬ r.LowerPort ≤ r.UpperPort := by omega
    rw [if_neg h2, if_neg h3]

theorem newTargetPortRange_cons_accepted (r : messages.TargetPortRange)
    (rest : List messages.TargetPortRange) (h : portPairRefused r = false) :
    newTargetPortRange (r :: rest) =
      match newTargetPortRange rest with
      | Except.error e => Except.error e
      | Except.ok ps => Except.ok (portPairNormalized r :: ps) := by
  have h' : ¬ (portPairRefused r = true) := by simp [h]
  rw [portPairRefused_iff] at h'
  have h1 : ¬ (r.LowerPort < 0 ∨ 0xffff < r.LowerPort ∨ r.UpperPort < 0 ∨ 0xffff < r.UpperPort) := by
    omega
  rw [newTargetPortRange, if_neg h1]
  unfold portPairNormalized models.NewPortRange
  by_cases h2 : r.UpperPort = 0
  · rw [if_pos h2, if_pos h2]
  · have h3 : r.LowerPort ≤ r.UpperPort := by omega
    rw [if_neg h2, if_pos h3, if_neg h2]

theorem portPairNormalized_bounds (r : messages.TargetPortRange) (h : portPairRefused r = false) :
    0 ≤ (portPairNormalized r).LowerPort ∧
      (portPairNormalized r).LowerPort ≤ (portPairNormalized r).UpperPort ∧
      (portPairNormalized r).UpperPort ≤ 65535 := by
  have h' : ¬ (portPairRefused r = true) := by simp [h]
  rw [portPairRefused_iff] at h'
  unfold portPairNormalized
  by_cases h2 : r.UpperPort = 0
  · rw [if_pos h2]; simp only; omega
  · rw [if_neg h2]; simp only; omega

/-- C1: `newTargetPortRange` equals the reference on every list of pairs: it
fails exactly when the reference fails (some pair has a port outside 0..65535,
or upper-port is not 0 and lower-port exceeds it), and otherwise it returns
the pairs normalized one by one, in the same order and number (upper-port 0
becomes the lower port), so that every returned range has
0 <= lower <= upper <= 65535. -/
theorem newTargetPortRange_eq_reference (rs : List messages.TargetPortRange) :
    (newTargetPortRange rs).toOption = newTargetPortRangeReference rs ∧
    ∀ ps, newTargetPortRange rs = Except.ok ps →
      ps = rs.map portPairNormalized ∧ ps.length = rs.length ∧
      ∀ p ∈ ps, 0 ≤ p.LowerPort ∧ p.LowerPort ≤ p.UpperPort ∧ p.UpperPort ≤ 65535 := by
  induction rs with
  | nil =>
    refine ⟨rfl, ?_⟩
    intro ps h
    simp only [newTargetPortRange, Except.ok.injEq] at h
    subst h
    simp
  | cons r rest ih =>
    obtain ⟨ih1, ih2⟩ := ih
    unfold newTargetPortRangeReference at ih1 ⊢
    cases hr : portPairRefused r with
    | true =>
      rw [newTargetPortRange_cons_refused r rest hr]
      refine ⟨by simp [hr, Except.toOption], ?_⟩
      intro ps h
      cases h
    | false =>
      rw [newTargetPortRange_cons_accepted r rest hr]
      cases hrest : newTargetPortRange rest with
      | error e =>
        rw [hrest] at ih1
        refine ⟨?_, ?_⟩
        · simp only [List.any_cons, hr, Bool.false_or]
          by_cases ha : rest.any portPairRefused = true
          · rw [if_pos ha]; rfl
          · rw [if_neg ha] at ih1; cases ih1
        · intro ps h
          cases h
      | ok qs =>
        rw [hrest] at ih1
        obtain ⟨e1, e2, e3⟩ := ih2 qs hrest
        refine ⟨?_, ?_⟩
        · simp only [List.any_cons, hr, Bool.false_or, List.map_cons]
          by_cases ha : rest.any portPairRefused = true
          · rw [if_pos ha] at ih1; cases ih1
          · rw [if_neg ha]
            rw [e1]
            rfl
        · intro ps h
          simp only [Except.ok.injEq] at h
          subst h
          refine ⟨by rw [e1]; rfl, by simp [e2], ?_⟩
          intro p hp
          rcases List.mem_cons.1 hp with hp | hp
          · subst hp; exact portPairNormalized_bounds r hr
          · exact e3 p hp

/-! ### Traces -/

@[simp] theorem World.log_trace {σ : Type} (w : World σ) (e : Event) :
    (w.log e).trace = w.trace ++ [e] := rfl

@[simp] theorem World.log_st {σ : Type} (w : World σ) (e : Event) : (w.log e).st = w.st := rfl

@[simp] theorem World.step_trace {σ : Type} (w : World σ) (st : σ) (e : Event) :
    (w.step st e).trace = w.trace ++ [e] := rfl

@[simp] theorem World.step_st {σ : Type} (w : World σ) (st : σ) (e : Event) :
    (w.step st e).st = st := rfl

theorem OnlyAdds.refl {σ : Type} (P : Event → Bool) (w : World σ) : OnlyAdds P w w :=
  ⟨[], by simp, by simp⟩

theorem OnlyAdds.trans {σ : Type} {P : Event → Bool} {w1 w2 w3 : World σ}
    (h12 : OnlyAdds P w1 w2) (h23 : OnlyAdds P w2 w3) : OnlyAdds P w1 w3 := by
  obtain ⟨t1, e1, p1⟩ := h12
  obtain ⟨t2, e2, p2⟩ := h23
  refine ⟨t1 ++ t2, by rw [e2, e1, List.append_assoc], ?_⟩
  intro e he
  rcases List.mem_append.1 he with h | h
  · exact p1 e h
  · exact p2 e h

theorem OnlyAdds.step {σ : Type} {P : Event → Bool} (w : World σ) (st : σ) (e : Event)
    (h : P e = true) : OnlyAdds P w (w.step st e) :=
  ⟨[e], rfl, by simpa using h⟩

theorem OnlyAdds.log {σ : Type} {P : Event → Bool} (w : World σ) (e : Event)
    (h : P e = true) : OnlyAdds P w (w.log e) :=
  ⟨[e], rfl, by simpa using h⟩

theorem OnlyAdds.mono {σ : Type} {P Q : Event → Bool} {w1 w2 : World σ}
    (h : OnlyAdds P w1 w2) (hPQ : ∀ e, P e = true → Q e = true) : OnlyAdds Q w1 w2 := by
  obtain ⟨t, e1, p1⟩ := h
  exact ⟨t, e1, fun e he => hPQ e (p1 e he)⟩

/-! ### The orchestrator calls the selection service and the blockers only -/

theorem callBlockerEnqueue_onlyAdds {σ : Type} (env : Env σ) (data : messages.MitigationRequest)
    (c : models.Customer) (scopes : List messages.Scope) :
    ∀ (enqueued : List models.MitigationScope) (w : World σ),
      OnlyAdds Event.isBlockerCall w (callBlockerEnqueue env data c scopes enqueued w).2 := by
  induction scopes with
  | nil => intro enqueued w; exact OnlyAdds.refl _ w
  | cons s rest ih =>
    intro enqueued w
    unfold callBlockerEnqueue
    cases newMitigationScope env s c (env.EffectiveClientIdentifier data) with
    | error e => exact OnlyAdds.refl _ w
    | ok scope =>
      simp only
      split
      · exact (OnlyAdds.step w _ _ rfl).trans (ih _ _)
      · exact OnlyAdds.refl _ w

theorem callBlockerSelect_onlyAdds {σ : Type} (env : Env σ) (m : SelMsg) (s : FanIn σ) :
    OnlyAdds Event.isBlockerCall s.world (callBlockerSelect env m s).world := by
  unfold callBlockerSelect
  cases m with
  | failed e => exact OnlyAdds.refl _ _
  | assigned blocker scope =>
    simp only
    split
    · exact OnlyAdds.step _ _ _ rfl
    · split
      · exact (OnlyAdds.step _ _ _ rfl).trans (OnlyAdds.step _ _ _ rfl)
      · exact (OnlyAdds.step _ _ _ rfl).trans (OnlyAdds.step _ _ _ rfl)

theorem callBlockerLoop_onlyAdds {σ : Type} (env : Env σ) (msgs : List SelMsg) :
    ∀ s : FanIn σ, OnlyAdds Event.isBlockerCall s.world (callBlockerLoop env msgs s).world := by
  induction msgs with
  | nil => intro s; exact OnlyAdds.refl _ _
  | cons m rest ih =>
    intro s
    unfold callBlockerLoop
    split
    · exact OnlyAdds.refl _ _
    · exact (callBlockerSelect_onlyAdds env m s).trans (ih _)

theorem callBlockerRollback_onlyAdds {σ : Type} (env : Env σ)
    (cmds : List (Nat × models.Protection)) :
    ∀ w : World σ, OnlyAdds Event.isBlockerCall w (callBlockerRollback env cmds w) := by
  induction cmds with
  | nil => intro w; exact OnlyAdds.refl _ _
  | cons cmd rest ih =>
    intro w
    obtain ⟨blocker, p⟩ := cmd
    unfold callBlockerRollback
    exact (OnlyAdds.step _ _ _ rfl).trans (ih _)

theorem callBlocker_onlyAdds {σ : Type} (env : Env σ) (data : messages.MitigationRequest)
    (c : models.Customer) (w : World σ) :
    OnlyAdds Event.isBlockerCall w (callBlocker env data c w).world := by
  have h1 := callBlockerEnqueue_onlyAdds env data c data.MitigationScope.Scopes [] w
  unfold callBlocker
  split
  · next e w1 heq => rw [heq] at h1; exact h1
  · next enqueued w1 heq =>
    rw [heq] at h1
    have h2 := callBlockerLoop_onlyAdds env (env.Arrivals w1.st enqueued)
      { counter := enqueued.length, err := none, unregisterCommands := [], world := w1 }
    simp only
    split
    · split
      · exact h1.trans (h2.trans (callBlockerRollback_onlyAdds env _ _))
      · exact h1.trans h2
    · exact h1.trans h2

/-! ### PUT without exactly one scope -/

/-- C2: for every non-null request whose scope list does not have exactly one
element, `Put` returns a response with code `BadRequest` and no error, and it
calls neither the repository nor a blocker: the trace of calls and the state
of the collaborators are as before. -/
theorem Put_scope_count_not_one {σ : Type} (env : Env σ) (req : messages.MitigationRequest)
    (customer : models.Customer) (w : World σ)
    (h : req.MitigationScope.Scopes.length ≠ 1) :
    (MitigationRequest.Put env (some req) customer w).status =
        Status.returned
          { Typ := MsgType.NonConfirmable, Code := BadRequest, Body := Body.nil } none ∧
      (MitigationRequest.Put env (some req) customer w).world.trace = w.trace ∧
      (MitigationRequest.Put env (some req) customer w).world.st = w.st := by
  obtain ⟨⟨scopes⟩⟩ := req
  cases scopes with
  | nil => exact ⟨rfl, rfl, rfl⟩
  | cons a rest =>
    cases rest with
    | nil => exact absurd rfl h
    | cons b rest2 => exact ⟨rfl, rfl, rfl⟩

/-- Witness of `Put_scope_count_not_one`: a request with two scopes. -/
theorem Put_scope_count_not_one_witness :
    twoScopeRequest.MitigationScope.Scopes.length ≠ 1 ∧
    (MitigationRequest.Put storeEnv (some twoScopeRequest) exampleCustomer
        exampleWorld).status =
      Status.returned
        { Typ := MsgType.NonConfirmable, Code := BadRequest, Body := Body.nil } none ∧
    (MitigationRequest.Put storeEnv (some twoScopeRequest) exampleCustomer
        exampleWorld).world.trace = exampleWorld.trace ∧
    (MitigationRequest.Put storeEnv (some twoScopeRequest) exampleCustomer
        exampleWorld).world.st = exampleWorld.st :=
  ⟨by decide,
   Put_scope_count_not_one storeEnv twoScopeRequest exampleCustomer exampleWorld (by decide)⟩

/-! ### PUT with exactly one scope -/

theorem createMitigationScope_single {σ : Type} (env : Env σ) (reqScope : messages.Scope)
    (customer : models.Customer) (w : World σ) :
    createMitigationScope env { MitigationScope := { Scopes := [reqScope] } } customer w =
      match newMitigationScope env (defaultLifetime env reqScope) customer
          (env.EffectiveClientIdentifier
            { MitigationScope := { Scopes := [defaultLifetime env reqScope] } }) with
      | Except.error e =>
        { err := some e,
          req := { MitigationScope := { Scopes := [defaultLifetime env reqScope] } },
          world := w }
      | Except.ok scope =>
        if env.Validate scope customer then
          match env.CreateMitigationScope w.st scope customer with
          | (some e, st) =>
            { err := some e,
              req := { MitigationScope := { Scopes := [defaultLifetime env reqScope] } },
              world := w.step st (Event.CreateMitigationScope scope false) }
          | (none, st) =>
            { err := none,
              req := { MitigationScope := { Scopes := [defaultLifetime env reqScope] } },
              world := w.step st (Event.CreateMitigationScope scope true) }
        else
          { err := none,
            req := { MitigationScope := { Scopes := [defaultLifetime env reqScope] } },
            world := w } := by
  simp only [createMitigationScope, createMitigationScopeLoop, List.nil_append]

theorem callBlocker_single_rejected {σ : Type} (env : Env σ) (s : messages.Scope)
    (c : models.Customer) (w : World σ) (scope : models.MitigationScope)
    (hs : newMitigationScope env s c
      (env.EffectiveClientIdentifier { MitigationScope := { Scopes := [s] } }) = Except.ok scope)
    (hv : env.Validate scope c = false) :
    callBlocker env { MitigationScope := { Scopes := [s] } } c w =
      { status := CallStatus.returned (some (GoError.text "validation error.")), world := w } := by
  simp [callBlocker, callBlockerEnqueue, hs, hv]

theorem callBlocker_single_failed {σ : Type} (env : Env σ) (s : messages.Scope)
    (c : models.Customer) (w : World σ) (e : GoError)
    (hs : newMitigationScope env s c
      (env.EffectiveClientIdentifier { MitigationScope := { Scopes := [s] } }) = Except.error e) :
    callBlocker env { MitigationScope := { Scopes := [s] } } c w =
      { status := CallStatus.returned (some e), world := w } := by
  simp [callBlocker, callBlockerEnqueue, hs]

theorem callBlocker_single_enqueued {σ : Type} (env : Env σ) (s : messages.Scope)
    (c : models.Customer) (w : World σ) (scope : models.MitigationScope)
    (hs : newMitigationScope env s c
      (env.EffectiveClientIdentifier { MitigationScope := { Scopes := [s] } }) = Except.ok scope)
    (hv : env.Validate scope c = true) :
    OnlyAdds Event.isBlockerCall (w.step (env.Enqueue w.st scope) (Event.Enqueue scope))
      (callBlocker env { MitigationScope := { Scopes := [s] } } c w).world := by
  have h2 := callBlockerLoop_onlyAdds env
    (env.Arrivals (env.Enqueue w.st scope) [scope])
    { counter := 1, err := none, unregisterCommands := [],
      world := w.step (env.Enqueue w.st scope) (Event.Enqueue scope) }
  simp only [callBlocker, callBlockerEnqueue, hs, hv, if_true, List.nil_append,
    World.step_st, List.length_singleton]
  split
  · split
    · exact h2.trans (callBlockerRollback_onlyAdds env _ _)
    · exact h2
  · exact h2


theorem putCreateAndCall_conversion_failed {σ : Type} (env : Env σ) (reqScope : messages.Scope)
    (customer : models.Customer) (code : Code) (w : World σ) (e : GoError)
    (hs : newMitigationScope env (defaultLifetime env reqScope) customer
      (env.EffectiveClientIdentifier
        { MitigationScope := { Scopes := [defaultLifetime env reqScope] } }) = Except.error e) :
    putCreateAndCall env { MitigationScope := { Scopes := [reqScope] } } customer code w =
      { status := Status.returned Response.zero (some e), world := w } := by
  simp only [putCreateAndCall, createMitigationScope_single, hs]

theorem putCreateAndCall_rejected {σ : Type} (env : Env σ) (reqScope : messages.Scope)
    (customer : models.Customer) (code : Code) (w : World σ) (scope : models.MitigationScope)
    (hs : newMitigationScope env (defaultLifetime env reqScope) customer
      (env.EffectiveClientIdentifier
        { MitigationScope := { Scopes := [defaultLifetime env reqScope] } }) = Except.ok scope)
    (hv : env.Validate scope customer = false) :
    putCreateAndCall env { MitigationScope := { Scopes := [reqScope] } } customer code w =
      { status := Status.returned Response.zero (some (GoError.text "validation error.")),
        world := w } := by
  simp [putCreateAndCall, createMitigationScope_single, hs, hv,
    callBlocker_single_rejected env _ customer w scope hs hv]

theorem putCreateAndCall_create_failed {σ : Type} (env : Env σ) (reqScope : messages.Scope)
    (customer : models.Customer) (code : Code) (w : World σ) (scope : models.MitigationScope)
    (e : GoError) (st : σ)
    (hs : newMitigationScope env (defaultLifetime env reqScope) customer
      (env.EffectiveClientIdentifier
        { MitigationScope := { Scopes := [defaultLifetime env reqScope] } }) = Except.ok scope)
    (hv : env.Validate scope customer = true)
    (hc : env.CreateMitigationScope w.st scope customer = (some e, st)) :
    putCreateAndCall env { MitigationScope := { Scopes := [reqScope] } } customer code w =
      { status := Status.returned Response.zero (some e),
        world := w.step st (Event.CreateMitigationScope scope false) } := by
  simp [putCreateAndCall, createMitigationScope_single, hs, hv, hc]

theorem putCreateAndCall_created {σ : Type} (env : Env σ) (reqScope : messages.Scope)
    (customer : models.Customer) (code : Code) (w : World σ) (scope : models.MitigationScope)
    (st : σ)
    (hs : newMitigationScope env (defaultLifetime env reqScope) customer
      (env.EffectiveClientIdentifier
        { MitigationScope := { Scopes := [defaultLifetime env reqScope] } }) = Except.ok scope)
    (hv : env.Validate scope customer = true)
    (hc : env.CreateMitigationScope w.st scope customer = (none, st)) :
    putCreateAndCall env { MitigationScope := { Scopes := [reqScope] } } customer code w =
      match (callBlocker env { MitigationScope := { Scopes := [defaultLifetime env reqScope] } }
          customer (w.step st (Event.CreateMitigationScope scope true))).status with
      | CallStatus.blocked =>
        { status := Status.blocked,
          world := (callBlocker env
            { MitigationScope := { Scopes := [defaultLifetime env reqScope] } }
            customer (w.step st (Event.CreateMitigationScope scope true))).world }
      | CallStatus.returned (some e) =>
        { status := Status.returned Response.zero (some e),
          world := (callBlocker env
            { MitigationScope := { Scopes := [defaultLifetime env reqScope] } }
            customer (w.step st (Event.CreateMitigationScope scope true))).world }
      | CallStatus.returned none =>
        { status := Status.returned
            { Typ := MsgType.NonConfirmable, Code := code,
              Body := Body.mitigationResponsePut
                { MitigationScope := { Scopes := [defaultLifetime env reqScope] } } } none,
          world := (callBlocker env
            { MitigationScope := { Scopes := [defaultLifetime env reqScope] } }
            customer (w.step st (Event.CreateMitigationScope scope true))).world } := by
  simp [putCreateAndCall, createMitigationScope_single, hs, hv, hc]

/-- The shared end of both branches of `Put` when persistence and the
orchestrator succeed: the response carries `code`, and the successful
`CreateMitigationScope` of the scope comes before every call of the
orchestrator, the first of which enqueues that scope. -/
theorem putCreateAndCall_success {σ : Type} (env : Env σ) (reqScope : messages.Scope)
    (customer : models.Customer) (code : Code) (w : World σ)
    (hc : (createMitigationScope env { MitigationScope := { Scopes := [reqScope] } }
      customer w).err = none)
    (hb : (callBlocker env
      (createMitigationScope env { MitigationScope := { Scopes := [reqScope] } } customer w).req
      customer
      (createMitigationScope env { MitigationScope := { Scopes := [reqScope] } }
        customer w).world).status = CallStatus.returned none) :
    ∃ scope t,
      newMitigationScope env (defaultLifetime env reqScope) customer
        (env.EffectiveClientIdentifier
          { MitigationScope := { Scopes := [defaultLifetime env reqScope] } }) = Except.ok scope ∧
      (putCreateAndCall env { MitigationScope := { Scopes := [reqScope] } } customer code
        w).status =
        Status.returned
          { Typ := MsgType.NonConfirmable, Code := code,
            Body := Body.mitigationResponsePut
              { MitigationScope := { Scopes := [defaultLifetime env reqScope] } } } none ∧
      (putCreateAndCall env { MitigationScope := { Scopes := [reqScope] } } customer code
        w).world.trace =
        w.trace ++ [Event.CreateMitigationScope scope true, Event.Enqueue scope] ++ t ∧
      ∀ e ∈ t, e.isBlockerCall = true := by
  rw [createMitigationScope_single] at hc hb
  cases hs : newMitigationScope env (defaultLifetime env reqScope) customer
      (env.EffectiveClientIdentifier
        { MitigationScope := { Scopes := [defaultLifetime env reqScope] } }) with
  | error e => simp [hs] at hc
  | ok scope =>
    cases hv : env.Validate scope customer with
    | false =>
      simp [hs, hv, callBlocker_single_rejected env _ customer w scope hs hv] at hb
    | true =>
      cases hcr : env.CreateMitigationScope w.st scope customer with
      | mk eo st =>
        cases eo with
        | some e => simp [hs, hv, hcr] at hc
        | none =>
          simp only [hs, hv, hcr, if_true] at hb
          obtain ⟨t, ht, hp⟩ := callBlocker_single_enqueued env (defaultLifetime env reqScope)
            customer (w.step st (Event.CreateMitigationScope scope true)) scope hs hv
          refine ⟨scope, t, rfl, ?_, ?_, hp⟩
          · rw [putCreateAndCall_created env reqScope customer code w scope st hs hv hcr, hb]
          · rw [putCreateAndCall_created env reqScope customer code w scope st hs hv hcr, hb]
            simp only [ht, World.step_trace, List.append_assoc, List.singleton_append,
              List.cons_append, List.nil_append]

/-- C3: for every PUT carrying exactly one scope whose lookup yields a scope
`currentScope`: when `currentScope` has mitigation-id 0 (no existing scope)
and `createMitigationScope` and `callBlocker` succeed, `Put` returns code
`Created` without error; when `currentScope` has another mitigation-id (an
existing scope) and the cancel step, `createMitigationScope` and `callBlocker`
succeed, `Put` returns code `Changed` without error.  In both cases the
successful `CreateMitigationScope` of the scope built from the request comes
in the trace before every call of the orchestrator, which starts by enqueuing
that same scope. -/
theorem Put_created_or_changed {σ : Type} (env : Env σ) (req : messages.MitigationRequest)
    (reqScope : messages.Scope) (customer : models.Customer) (w : World σ)
    (currentScope : models.MitigationScope)
    (hone : req.MitigationScope.Scopes = [reqScope])
    (hget : env.GetMitigationScope w.st customer.Id (env.EffectiveClientIdentifier req)
      reqScope.MitigationId = Except.ok (some currentScope)) :
    (currentScope.MitigationId = 0 →
      (createMitigationScope env req customer
        (w.log (Event.GetMitigationScope customer.Id (env.EffectiveClientIdentifier req)
          reqScope.MitigationId))).err = none →
      (callBlocker env
        (createMitigationScope env req customer
          (w.log (Event.GetMitigationScope customer.Id (env.EffectiveClientIdentifier req)
            reqScope.MitigationId))).req customer
        (createMitigationScope env req customer
          (w.log (Event.GetMitigationScope customer.Id (env.EffectiveClientIdentifier req)
            reqScope.MitigationId))).world).status = CallStatus.returned none →
      ∃ res scope t,
        (MitigationRequest.Put env (some req) customer w).status = Status.returned res none ∧
        res.Code = Created ∧
        (MitigationRequest.Put env (some req) customer w).world.trace =
          w.trace ++ [Event.GetMitigationScope customer.Id (env.EffectiveClientIdentifier req)
            reqScope.MitigationId] ++
          [Event.CreateMitigationScope scope true, Event.Enqueue scope] ++ t ∧
        ∀ e ∈ t, e.isBlockerCall = true) ∧
    (currentScope.MitigationId ≠ 0 →
      ∀ w2 : World σ,
      cancelMitigationByModel env currentScope (env.EffectiveClientIdentifier req) customer
        (w.log (Event.GetMitigationScope customer.Id (env.EffectiveClientIdentifier req)
          reqScope.MitigationId)) = (none, w2) →
      (createMitigationScope env req customer w2).err = none →
      (callBlocker env (createMitigationScope env req customer w2).req customer
        (createMitigationScope env req customer w2).world).status = CallStatus.returned none →
      ∃ res scope t,
        (MitigationRequest.Put env (some req) customer w).status = Status.returned res none ∧
        res.Code = Changed ∧
        (MitigationRequest.Put env (some req) customer w).world.trace =
          w2.trace ++ [Event.CreateMitigationScope scope true, Event.Enqueue scope] ++ t ∧
        ∀ e ∈ t, e.isBlockerCall = true) := by
  obtain ⟨⟨scopes⟩⟩ := req
  simp only at hone
  subst hone
  constructor
  · intro hid hc hb
    obtain ⟨scope, t, _, h1, h2, h3⟩ :=
      putCreateAndCall_success env reqScope customer Created _ hc hb
    refine ⟨{ Typ := MsgType.NonConfirmable, Code := Created,
              Body := Body.mitigationResponsePut
                { MitigationScope := { Scopes := [defaultLifetime env reqScope] } } },
      scope, t, ?_, ?_, ?_, h3⟩
    · simp only [MitigationRequest.Put, hget, hid, if_true]
      exact h1
    · rfl
    · simp only [MitigationRequest.Put, hget, hid, if_true]
      rw [h2]
      rfl
  · intro hid w2 hcancel hc hb
    obtain ⟨scope, t, _, h1, h2, h3⟩ :=
      putCreateAndCall_success env reqScope customer Changed w2 hc hb
    refine ⟨{ Typ := MsgType.NonConfirmable, Code := Changed,
              Body := Body.mitigationResponsePut
                { MitigationScope := { Scopes := [defaultLifetime env reqScope] } } },
      scope, t, ?_, ?_, ?_, h3⟩
    · simp only [MitigationRequest.Put, hget, hid, if_false, hcancel]
      exact h1
    · rfl
    · simp only [MitigationRequest.Put, hget, hid, if_false, hcancel]
      rw [h2]

/-- Witness of `Put_created_or_changed`: scenario 1 of the specification on the
empty repository answers `Created`, and scenario 2, the same PUT on the world
that the first one leaves, answers `Changed`. -/
theorem Put_created_or_changed_witness :
    (∃ res scope t,
      (MitigationRequest.Put storeEnv (some (requestOf [exampleScope 12345 3600]))
        exampleCustomer exampleWorld).status = Status.returned res none ∧
      res.Code = Created ∧
      (MitigationRequest.Put storeEnv (some (requestOf [exampleScope 12345 3600]))
        exampleCustomer exampleWorld).world.trace =
        exampleWorld.trace ++ [Event.GetMitigationScope 1 "client" 12345] ++
          [Event.CreateMitigationScope scope true, Event.Enqueue scope] ++ t ∧
      ∀ e ∈ t, e.isBlockerCall = true) ∧
    (∃ res scope t,
      (MitigationRequest.Put storeEnv (some (requestOf [exampleScope 12345 3600]))
        exampleCustomer protectedWorld).status = Status.returned res none ∧
      res.Code = Changed ∧
      (MitigationRequest.Put storeEnv (some (requestOf [exampleScope 12345 3600]))
        exampleCustomer protectedWorld).world.trace =
        (cancelMitigationByModel storeEnv exampleModelScope "client" exampleCustomer
          (protectedWorld.log (Event.GetMitigationScope 1 "client" 12345))).2.trace ++
          [Event.CreateMitigationScope scope true, Event.Enqueue scope] ++ t ∧
      ∀ e ∈ t, e.isBlockerCall = true) :=
  ⟨(Put_created_or_changed storeEnv (requestOf [exampleScope 12345 3600])
      (exampleScope 12345 3600) exampleCustomer exampleWorld
      (models.NewMitigationScope { Id := 1, Name := "" } "client") rfl rfl).1
      rfl (by decide) (by decide),
   (Put_created_or_changed storeEnv (requestOf [exampleScope 12345 3600])
      (exampleScope 12345 3600) exampleCustomer protectedWorld
      exampleModelScope rfl rfl).2
      (by decide) _ rfl (by decide) (by decide)⟩

/-! ### The update path of PUT -/

theorem createMitigationScopeLoop_onlyAdds {σ : Type} (env : Env σ) (customer : models.Customer)
    (todo : List messages.Scope) :
    ∀ (done : List messages.Scope) (w : World σ),
      OnlyAdds Event.isCreate w (createMitigationScopeLoop env customer done todo w).world := by
  induction todo with
  | nil => intro done w; exact OnlyAdds.refl _ _
  | cons s rest ih =>
    intro done w
    unfold createMitigationScopeLoop
    simp only
    split
    · exact OnlyAdds.refl _ _
    · split
      · split
        · exact OnlyAdds.step _ _ _ rfl
        · exact (OnlyAdds.step _ _ _ rfl).trans (ih _ _)
      · exact ih _ _

theorem createMitigationScope_onlyAdds {σ : Type} (env : Env σ)
    (req : messages.MitigationRequest) (customer : models.Customer) (w : World σ) :
    OnlyAdds Event.isCreate w (createMitigationScope env req customer w).world :=
  createMitigationScopeLoop_onlyAdds env customer _ _ _

theorem putCreateAndCall_onlyAdds {σ : Type} (env : Env σ) (req : messages.MitigationRequest)
    (customer : models.Customer) (code : Code) (w : World σ) :
    OnlyAdds (fun e => e.isCreate || e.isBlockerCall) w
      (putCreateAndCall env req customer code w).world := by
  have h1 : OnlyAdds (fun e => e.isCreate || e.isBlockerCall) w
      (createMitigationScope env req customer w).world :=
    (createMitigationScope_onlyAdds env req customer w).mono (by intro e h; simp [h])
  have h2 : OnlyAdds (fun e => e.isCreate || e.isBlockerCall)
      (createMitigationScope env req customer w).world
      (callBlocker env (createMitigationScope env req customer w).req customer
        (createMitigationScope env req customer w).world).world :=
    (callBlocker_onlyAdds env _ customer _).mono (by intro e h; simp [h])
  unfold putCreateAndCall
  simp only
  split
  · exact h1
  · split
    · exact h1.trans h2
    · exact h1.trans h2
    · exact h1.trans h2

theorem cancelMitigationByIds_single {σ : Type} (env : Env σ) (mitigationId : Int)
    (clientIdentifier : String) (customer : models.Customer) (w : World σ)
    (hid : mitigationId ≠ 0) :
    cancelMitigationByIds env [mitigationId] clientIdentifier customer w =
      match env.GetMitigationScope w.st customer.Id clientIdentifier mitigationId with
      | Except.error e =>
        (some e, w.log (Event.GetMitigationScope customer.Id clientIdentifier mitigationId))
      | Except.ok none =>
        (some (GoError.ctrl NotFound MsgType.NonConfirmable),
          w.log (Event.GetMitigationScope customer.Id clientIdentifier mitigationId))
      | Except.ok (some _) =>
        match env.GetActiveProtectionByMitigationId w.st customer.Id clientIdentifier
            mitigationId with
        | Except.error e =>
          (some e, (w.log (Event.GetMitigationScope customer.Id clientIdentifier
            mitigationId)).log (Event.GetActiveProtectionByMitigationId customer.Id
              clientIdentifier mitigationId))
        | Except.ok none =>
          (some (GoError.ctrl NotFound MsgType.NonConfirmable),
            (w.log (Event.GetMitigationScope customer.Id clientIdentifier
              mitigationId)).log (Event.GetActiveProtectionByMitigationId customer.Id
                clientIdentifier mitigationId))
        | Except.ok (some p) =>
          if p.IsEnabled then
            match env.StopProtection w.st p.TargetBlocker p with
            | (some _, st) =>
              (some (GoError.ctrl BadRequest MsgType.NonConfirmable),
                ((w.log (Event.GetMitigationScope customer.Id clientIdentifier
                  mitigationId)).log (Event.GetActiveProtectionByMitigationId customer.Id
                    clientIdentifier mitigationId)).step st (Event.StopProtection p false))
            | (none, st) =>
              (none,
                ((w.log (Event.GetMitigationScope customer.Id clientIdentifier
                  mitigationId)).log (Event.GetActiveProtectionByMitigationId customer.Id
                    clientIdentifier mitigationId)).step st (Event.StopProtection p true))
          else
            (some (GoError.ctrl PreconditionFailed MsgType.NonConfirmable),
              (w.log (Event.GetMitigationScope customer.Id clientIdentifier
                mitigationId)).log (Event.GetActiveProtectionByMitigationId customer.Id
                  clientIdentifier mitigationId)) := by
  simp only [cancelMitigationByIds, cancelMitigationLookup, hid, if_false, World.log_st,
    List.nil_append]
  cases env.GetMitigationScope w.st customer.Id clientIdentifier mitigationId with
  | error e => rfl
  | ok so =>
    cases so with
    | none => rfl
    | some s =>
      simp only
      cases env.GetActiveProtectionByMitigationId w.st customer.Id clientIdentifier
          mitigationId with
      | error e => rfl
      | ok po =>
        cases po with
        | none => rfl
        | some p =>
          simp only
          cases hp : p.IsEnabled with
          | false => simp
          | true =>
            simp only [if_true, cancelMitigationStop, World.log_st]

theorem cancel_failure_trace {σ : Type} (w w1 w2 : World σ) (t : List Event)
    (h : w1 = w2) (h1 : w1.trace = w.trace ++ t) (h2 : t.countP Event.isStop ≤ 1)
    (h3 : ∀ ev ∈ t, ev.isCreate = false ∧ ev.isBlockerCall = false) :
    ∃ t, w2.trace = w.trace ++ t ∧ t.countP Event.isStop ≤ 1 ∧
      ∀ ev ∈ t, ev.isCreate = false ∧ ev.isBlockerCall = false :=
  ⟨t, h ▸ h1, h2, h3⟩

/-- C4: on the update path of `Put` (the lookup yields a scope with a
mitigation-id other than 0): when the cancel step succeeds, the active
protection of that scope, which is enabled, is stopped by exactly one
successful `StopProtection`, which follows the queries only and comes before
every `CreateMitigationScope` and every call of the orchestrator
(`Enqueue`, `RegisterProtection`, `ExecuteProtection`, `UnregisterProtection`),
none of which is a further `StopProtection`; when the cancel step fails with
an error, `Put` returns that error with the empty response, having called
`StopProtection` at most once and neither `CreateMitigationScope` nor the
orchestrator. -/
theorem Put_update_stops_once {σ : Type} (env : Env σ) (req : messages.MitigationRequest)
    (reqScope : messages.Scope) (customer : models.Customer) (w : World σ)
    (currentScope : models.MitigationScope)
    (hone : req.MitigationScope.Scopes = [reqScope])
    (hget : env.GetMitigationScope w.st customer.Id (env.EffectiveClientIdentifier req)
      reqScope.MitigationId = Except.ok (some currentScope))
    (hid : currentScope.MitigationId ≠ 0) :
    (∀ w2 : World σ,
      cancelMitigationByModel env currentScope (env.EffectiveClientIdentifier req) customer
        (w.log (Event.GetMitigationScope customer.Id (env.EffectiveClientIdentifier req)
          reqScope.MitigationId)) = (none, w2) →
      ∃ p t,
        env.GetActiveProtectionByMitigationId w.st customer.Id
          (env.EffectiveClientIdentifier req) currentScope.MitigationId = Except.ok (some p) ∧
        p.IsEnabled = true ∧
        (MitigationRequest.Put env (some req) customer w).world.trace =
          w.trace ++
            [Event.GetMitigationScope customer.Id (env.EffectiveClientIdentifier req)
              reqScope.MitigationId,
             Event.GetMitigationScope customer.Id (env.EffectiveClientIdentifier req)
              currentScope.MitigationId,
             Event.GetActiveProtectionByMitigationId customer.Id
              (env.EffectiveClientIdentifier req) currentScope.MitigationId,
             Event.StopProtection p true] ++ t ∧
        ∀ ev ∈ t, (ev.isCreate || ev.isBlockerCall) = true ∧ ev.isStop = false) ∧
    (∀ (e : GoError) (w2 : World σ),
      cancelMitigationByModel env currentScope (env.EffectiveClientIdentifier req) customer
        (w.log (Event.GetMitigationScope customer.Id (env.EffectiveClientIdentifier req)
          reqScope.MitigationId)) = (some e, w2) →
      (MitigationRequest.Put env (some req) customer w).status =
        Status.returned Response.zero (some e) ∧
      ∃ t,
        (MitigationRequest.Put env (some req) customer w).world.trace = w.trace ++ t ∧
        t.countP Event.isStop ≤ 1 ∧
        ∀ ev ∈ t, ev.isCreate = false ∧ ev.isBlockerCall = false) := by
  obtain ⟨⟨scopes⟩⟩ := req
  simp only at hone
  subst hone
  constructor
  · intro w2 hcancel
    have hput : MitigationRequest.Put env
        (some { MitigationScope := { Scopes := [reqScope] } }) customer w =
        putCreateAndCall env { MitigationScope := { Scopes := [reqScope] } } customer Changed
          w2 := by
      simp only [MitigationRequest.Put, hget, hid, if_false, hcancel]
    obtain ⟨t, ht, hp⟩ := putCreateAndCall_onlyAdds env
      { MitigationScope := { Scopes := [reqScope] } } customer Changed w2
    have hsingle := cancelMitigationByIds_single env currentScope.MitigationId
      (env.EffectiveClientIdentifier { MitigationScope := { Scopes := [reqScope] } }) customer
      (w.log (Event.GetMitigationScope customer.Id
        (env.EffectiveClientIdentifier { MitigationScope := { Scopes := [reqScope] } })
        reqScope.MitigationId)) hid
    unfold cancelMitigationByModel at hcancel
    rw [hsingle] at hcancel
    simp only [World.log_st] at hcancel
    cases hs : env.GetMitigationScope w.st customer.Id
        (env.EffectiveClientIdentifier { MitigationScope := { Scopes := [reqScope] } })
        currentScope.MitigationId with
    | error e => simp [hs] at hcancel
    | ok so =>
      cases so with
      | none => simp [hs] at hcancel
      | some s =>
        cases ha : env.GetActiveProtectionByMitigationId w.st customer.Id
            (env.EffectiveClientIdentifier { MitigationScope := { Scopes := [reqScope] } })
            currentScope.MitigationId with
        | error e => simp [hs, ha] at hcancel
        | ok po =>
          cases po with
          | none => simp [hs, ha] at hcancel
          | some p =>
            cases hen : p.IsEnabled with
            | false => simp [hs, ha, hen] at hcancel
            | true =>
              cases hst : env.StopProtection w.st p.TargetBlocker p with
              | mk eo st =>
                cases eo with
                | some e => simp [hs, ha, hen, hst] at hcancel
                | none =>
                  simp only [hs, ha, hen, hst, if_true, Prod.mk.injEq, true_and] at hcancel
                  refine ⟨p, t, rfl, hen, ?_, ?_⟩
                  · rw [hput, ht, ← hcancel]
                    simp
                  · intro ev hev
                    have := hp ev hev
                    refine ⟨this, ?_⟩
                    cases ev <;> simp_all [Event.isCreate, Event.isBlockerCall, Event.isStop]
  · intro e w2 hcancel
    have hput : MitigationRequest.Put env
        (some { MitigationScope := { Scopes := [reqScope] } }) customer w =
        { status := Status.returned Response.zero (some e), world := w2 } := by
      simp only [MitigationRequest.Put, hget, hid, if_false, hcancel]
    rw [hput]
    refine ⟨rfl, ?_⟩
    have hsingle := cancelMitigationByIds_single env currentScope.MitigationId
      (env.EffectiveClientIdentifier { MitigationScope := { Scopes := [reqScope] } }) customer
      (w.log (Event.GetMitigationScope customer.Id
        (env.EffectiveClientIdentifier { MitigationScope := { Scopes := [reqScope] } })
        reqScope.MitigationId)) hid
    unfold cancelMitigationByModel at hcancel
    rw [hsingle] at hcancel
    simp only [World.log_st] at hcancel
    clear hsingle hput
    cases hs : env.GetMitigationScope w.st customer.Id
        (env.EffectiveClientIdentifier { MitigationScope := { Scopes := [reqScope] } })
        currentScope.MitigationId with
    | error e1 =>
      simp only [hs, Prod.mk.injEq] at hcancel
      exact cancel_failure_trace w _ w2 _ hcancel.2
        (by simp only [World.log_trace, World.step_trace, List.append_assoc]; rfl)
        (by simp [Event.isStop]) (by simp [Event.isCreate, Event.isBlockerCall])
    | ok so =>
      cases so with
      | none =>
        simp only [hs, Prod.mk.injEq] at hcancel
        exact cancel_failure_trace w _ w2 _ hcancel.2
          (by simp only [World.log_trace, World.step_trace, List.append_assoc]; rfl)
          (by simp [Event.isStop]) (by simp [Event.isCreate, Event.isBlockerCall])
      | some s =>
        cases ha : env.GetActiveProtectionByMitigationId w.st customer.Id
            (env.EffectiveClientIdentifier { MitigationScope := { Scopes := [reqScope] } })
            currentScope.MitigationId with
        | error e1 =>
          simp only [hs, ha, Prod.mk.injEq] at hcancel
          exact cancel_failure_trace w _ w2 _ hcancel.2
            (by simp only [World.log_trace, World.step_trace, List.append_assoc]; rfl)
            (by simp [Event.isStop]) (by simp [Event.isCreate, Event.isBlockerCall])
        | ok po =>
          cases po with
          | none =>
            simp only [hs, ha, Prod.mk.injEq] at hcancel
            exact cancel_failure_trace w _ w2 _ hcancel.2
              (by simp only [World.log_trace, World.step_trace, List.append_assoc]; rfl)
              (by simp [Event.isStop]) (by simp [Event.isCreate, Event.isBlockerCall])
          | some p =>
            cases hen : p.IsEnabled with
            | false =>
              simp only [hs, ha, hen, Prod.mk.injEq] at hcancel
              simp at hcancel
              exact cancel_failure_trace w _ w2 _ hcancel.2
                (by simp only [World.log_trace, World.step_trace, List.append_assoc]; rfl)
                (by simp [Event.isStop]) (by simp [Event.isCreate, Event.isBlockerCall])
            | true =>
              cases hst : env.StopProtection w.st p.TargetBlocker p with
              | mk eo st =>
                cases eo with
                | none => simp [hs, ha, hen, hst] at hcancel
                | some e1 =>
                  simp only [hs, ha, hen, hst, if_true, Prod.mk.injEq] at hcancel
                  exact cancel_failure_trace w _ w2 _ hcancel.2
                    (by simp only [World.log_trace, World.step_trace, List.append_assoc]; rfl)
                    (by simp [Event.isStop]) (by simp [Event.isCreate, Event.isBlockerCall])

/-- Witness of `Put_update_stops_once`: scenario 2 of the specification, the
PUT of an existing mitigation, stops the prior protection once before the new
one is registered and executed; and when the blocker refuses to stop, `Put`
returns the `BadRequest` error of the cancel step and neither persists nor
runs the orchestrator. -/
theorem Put_update_stops_once_witness :
    (∃ p t,
      storeEnv.GetActiveProtectionByMitigationId protectedWorld.st 1 "client" 12345 =
        Except.ok (some p) ∧
      p.IsEnabled = true ∧
      (MitigationRequest.Put storeEnv (some (requestOf [exampleScope 12345 3600]))
        exampleCustomer protectedWorld).world.trace =
        protectedWorld.trace ++
          [Event.GetMitigationScope 1 "client" 12345, Event.GetMitigationScope 1 "client" 12345,
           Event.GetActiveProtectionByMitigationId 1 "client" 12345,
           Event.StopProtection p true] ++ t ∧
      ∀ ev ∈ t, (ev.isCreate || ev.isBlockerCall) = true ∧ ev.isStop = false) ∧
    ((MitigationRequest.Put storeEnv (some (requestOf [exampleScope 12345 3600]))
        exampleCustomer refusingWorld).status =
        Status.returned Response.zero (some (GoError.ctrl BadRequest MsgType.NonConfirmable)) ∧
      ∃ t,
        (MitigationRequest.Put storeEnv (some (requestOf [exampleScope 12345 3600]))
          exampleCustomer refusingWorld).world.trace = refusingWorld.trace ++ t ∧
        t.countP Event.isStop ≤ 1 ∧
        ∀ ev ∈ t, ev.isCreate = false ∧ ev.isBlockerCall = false) :=
  ⟨(Put_update_stops_once storeEnv (requestOf [exampleScope 12345 3600])
      (exampleScope 12345 3600) exampleCustomer protectedWorld exampleModelScope
      rfl rfl (by decide)).1
      (cancelMitigationByModel storeEnv exampleModelScope "client" exampleCustomer
        (protectedWorld.log (Event.GetMitigationScope 1 "client" 12345))).2 rfl,
   (Put_update_stops_once storeEnv (requestOf [exampleScope 12345 3600])
      (exampleScope 12345 3600) exampleCustomer refusingWorld exampleModelScope
      rfl rfl (by decide)).2
      (GoError.ctrl BadRequest MsgType.NonConfirmable)
      (cancelMitigationByModel storeEnv exampleModelScope "client" exampleCustomer
        (refusingWorld.log (Event.GetMitigationScope 1 "client" 12345))).2 rfl⟩

/-! ### Lifetime defaulting in createMitigationScope -/

theorem newMitigationScope_fields {σ : Type} (env : Env σ) (s : messages.Scope)
    (c : models.Customer) (cl : String) (m : models.MitigationScope)
    (h : newMitigationScope env s c cl = Except.ok m) :
    m.Lifetime = s.Lifetime ∧ m.MitigationId = s.MitigationId ∧ m.ClientIdentifier = cl ∧
      m.Customer = c := by
  unfold newMitigationScope at h
  simp only at h
  split at h
  · cases h
  · split at h
    · cases h
    · simp only [Except.ok.injEq] at h
      subst h
      exact ⟨rfl, rfl, rfl, rfl⟩

theorem defaultLifetime_spec {σ : Type} (env : Env σ) (s : messages.Scope) :
    (s.Lifetime ≤ 0 →
      defaultLifetime env s = { s with Lifetime := env.DEFAULT_SIGNAL_MITIGATE_LIFETIME }) ∧
    (0 < s.Lifetime → defaultLifetime env s = s) := by
  unfold defaultLifetime
  constructor
  · intro h; rw [if_pos h]
  · intro h; rw [if_neg (by omega)]

theorem createMitigationScopeLoop_lifetime {σ : Type} (env : Env σ) (customer : models.Customer)
    (todo : List messages.Scope) :
    ∀ (done : List messages.Scope) (w : World σ),
      (∃ n, n ≤ todo.length ∧ (todo ≠ [] → 0 < n) ∧
        ((createMitigationScopeLoop env customer done todo w).err = none → n = todo.length) ∧
        (createMitigationScopeLoop env customer done todo w).req.MitigationScope.Scopes =
          done ++ (todo.take n).map (defaultLifetime env) ++ todo.drop n) ∧
      ∃ t, (createMitigationScopeLoop env customer done todo w).world.trace = w.trace ++ t ∧
        ∀ e ∈ t, ∃ m ok s, e = Event.CreateMitigationScope m ok ∧ s ∈ todo ∧
          m.MitigationId = s.MitigationId ∧ m.Lifetime = (defaultLifetime env s).Lifetime := by
  induction todo with
  | nil =>
    intro done w
    exact ⟨⟨0, by simp, by simp, by simp, by simp [createMitigationScopeLoop]⟩,
      [], by simp [createMitigationScopeLoop], by simp⟩
  | cons s rest ih =>
    intro done w
    unfold createMitigationScopeLoop
    simp only
    cases hs : newMitigationScope env (defaultLifetime env s) customer
        (env.EffectiveClientIdentifier
          { MitigationScope := { Scopes := done ++ defaultLifetime env s :: rest } }) with
    | error e =>
      exact ⟨⟨1, by simp, by simp, by simp, by simp⟩, [], by simp, by simp⟩
    | ok scope =>
      obtain ⟨hl, hm, _, _⟩ := newMitigationScope_fields env _ _ _ _ hs
      have hstep : ∀ w1 : World σ,
          (∃ n, n ≤ (s :: rest).length ∧ (s :: rest ≠ [] → 0 < n) ∧
            ((createMitigationScopeLoop env customer (done ++ [defaultLifetime env s]) rest
              w1).err = none → n = (s :: rest).length) ∧
            (createMitigationScopeLoop env customer (done ++ [defaultLifetime env s]) rest
              w1).req.MitigationScope.Scopes =
              done ++ ((s :: rest).take n).map (defaultLifetime env) ++ (s :: rest).drop n) := by
        intro w1
        obtain ⟨⟨n, h1, _, h3, h4⟩, _⟩ := ih (done ++ [defaultLifetime env s]) w1
        refine ⟨n + 1, by simpa using h1, by simp, ?_, ?_⟩
        · intro h; simp [h3 h]
        · rw [h4]; simp
      have hev : ∀ (w1 : World σ) (t0 : List Event), w1.trace = w.trace ++ t0 →
          (∀ e ∈ t0, ∃ m ok s1, e = Event.CreateMitigationScope m ok ∧ s1 ∈ s :: rest ∧
            m.MitigationId = s1.MitigationId ∧
            m.Lifetime = (defaultLifetime env s1).Lifetime) →
          ∃ t, (createMitigationScopeLoop env customer (done ++ [defaultLifetime env s]) rest
              w1).world.trace = w.trace ++ t ∧
            ∀ e ∈ t, ∃ m ok s1, e = Event.CreateMitigationScope m ok ∧ s1 ∈ s :: rest ∧
              m.MitigationId = s1.MitigationId ∧
              m.Lifetime = (defaultLifetime env s1).Lifetime := by
        intro w1 t0 h0 hp
        obtain ⟨_, t, ht, hq⟩ := ih (done ++ [defaultLifetime env s]) w1
        refine ⟨t0 ++ t, by rw [ht, h0, List.append_assoc], ?_⟩
        intro e he
        rcases List.mem_append.1 he with h | h
        · exact hp e h
        · obtain ⟨m, ok, s1, h1, h2, h3⟩ := hq e h
          exact ⟨m, ok, s1, h1, List.mem_cons_of_mem _ h2, h3⟩
      have hmine : ∀ ok : Bool, ∀ e ∈ [Event.CreateMitigationScope scope ok],
          ∃ m ok s1, e = Event.CreateMitigationScope m ok ∧ s1 ∈ s :: rest ∧
            m.MitigationId = s1.MitigationId ∧
            m.Lifetime = (defaultLifetime env s1).Lifetime := by
        intro ok e he
        simp only [List.mem_singleton] at he
        subst he
        refine ⟨scope, ok, s, rfl, List.mem_cons_self _ _, ?_, hl⟩
        rw [hm]
        unfold defaultLifetime
        split <;> rfl
      simp only
      split
      · cases hc : env.CreateMitigationScope w.st scope customer with
        | mk eo st =>
          cases eo with
          | some e =>
            exact ⟨⟨1, by simp, by simp, by simp, by simp⟩,
              [Event.CreateMitigationScope scope false], by simp, hmine false⟩
          | none =>
            exact ⟨hstep _, hev _ [Event.CreateMitigationScope scope true] (by simp) (hmine true)⟩
      · exact ⟨hstep _, hev _ [] (by simp) (by simp)⟩

/-- C5: for every request of one scope `s`, which are the requests that `Put`
passes to `createMitigationScope`: afterwards the request holds the scope with
its lifetime replaced by `DEFAULT_SIGNAL_MITIGATE_LIFETIME` when it was <= 0,
and unchanged when it was > 0, whatever the function returns.  When the scope
converts to a model scope `m` and the validator accepts it, `m` is handed to
`CreateMitigationScope` of the repository, which is the one call made, and
the lifetime of `m` is the default when the lifetime of `s` was <= 0 and the
lifetime of `s` when it was > 0; no scope with another lifetime is handed to
the repository in any case. -/
theorem createMitigationScope_default_lifetime {σ : Type} (env : Env σ)
    (req : messages.MitigationRequest) (s : messages.Scope) (customer : models.Customer)
    (w : World σ) (hone : req.MitigationScope.Scopes = [s]) :
    (s.Lifetime ≤ 0 →
      (createMitigationScope env req customer w).req.MitigationScope.Scopes =
        [{ s with Lifetime := env.DEFAULT_SIGNAL_MITIGATE_LIFETIME }]) ∧
    (0 < s.Lifetime →
      (createMitigationScope env req customer w).req.MitigationScope.Scopes = [s]) ∧
    (∀ m : models.MitigationScope,
      newMitigationScope env (defaultLifetime env s) customer
        (env.EffectiveClientIdentifier
          { MitigationScope := { Scopes := [defaultLifetime env s] } }) = Except.ok m →
      env.Validate m customer = true →
        (∃ ok, (createMitigationScope env req customer w).world.trace =
          w.trace ++ [Event.CreateMitigationScope m ok]) ∧
        (s.Lifetime ≤ 0 → m.Lifetime = env.DEFAULT_SIGNAL_MITIGATE_LIFETIME) ∧
        (0 < s.Lifetime → m.Lifetime = s.Lifetime)) ∧
    ∃ t, (createMitigationScope env req customer w).world.trace = w.trace ++ t ∧
      ∀ x ∈ t, ∃ m ok, x = Event.CreateMitigationScope m ok ∧
        (s.Lifetime ≤ 0 → m.Lifetime = env.DEFAULT_SIGNAL_MITIGATE_LIFETIME) ∧
        (0 < s.Lifetime → m.Lifetime = s.Lifetime) := by
  obtain ⟨⟨scopes⟩⟩ := req
  simp only at hone
  subst hone
  rw [createMitigationScope_single]
  have hlife : ∀ (m : models.MitigationScope) (cl : String),
      newMitigationScope env (defaultLifetime env s) customer cl = Except.ok m →
      (s.Lifetime ≤ 0 → m.Lifetime = env.DEFAULT_SIGNAL_MITIGATE_LIFETIME) ∧
      (0 < s.Lifetime → m.Lifetime = s.Lifetime) := by
    intro m cl h
    obtain ⟨hl, _⟩ := newMitigationScope_fields env _ _ _ _ h
    constructor
    · intro h0; rw [hl, (defaultLifetime_spec env s).1 h0]
    · intro h0; rw [hl, (defaultLifetime_spec env s).2 h0]
  cases hs : newMitigationScope env (defaultLifetime env s) customer
      (env.EffectiveClientIdentifier
        { MitigationScope := { Scopes := [defaultLifetime env s] } }) with
  | error e =>
    refine ⟨?_, ?_, ?_, [], by simp, by simp⟩
    · intro h0; simp only; rw [(defaultLifetime_spec env s).1 h0]
    · intro h0; simp only; rw [(defaultLifetime_spec env s).2 h0]
    · intro m hm; cases hm
  | ok scope =>
    have hl := hlife scope _ hs
    simp only
    by_cases hv : env.Validate scope customer = true
    · rw [if_pos hv]
      cases hc : env.CreateMitigationScope w.st scope customer with
      | mk eo st =>
        cases eo with
        | some e =>
          refine ⟨?_, ?_, ?_, [Event.CreateMitigationScope scope false], by simp, ?_⟩
          · intro h0; simp only; rw [(defaultLifetime_spec env s).1 h0]
          · intro h0; simp only; rw [(defaultLifetime_spec env s).2 h0]
          · intro m hm _
            cases hm
            exact ⟨⟨false, by simp⟩, hl⟩
          · intro x hx
            simp only [List.mem_singleton] at hx
            exact ⟨scope, false, hx, hl⟩
        | none =>
          refine ⟨?_, ?_, ?_, [Event.CreateMitigationScope scope true], by simp, ?_⟩
          · intro h0; simp only; rw [(defaultLifetime_spec env s).1 h0]
          · intro h0; simp only; rw [(defaultLifetime_spec env s).2 h0]
          · intro m hm _
            cases hm
            exact ⟨⟨true, by simp⟩, hl⟩
          · intro x hx
            simp only [List.mem_singleton] at hx
            exact ⟨scope, true, hx, hl⟩
    · rw [if_neg hv]
      refine ⟨?_, ?_, ?_, [], by simp, by simp⟩
      · intro h0; simp only; rw [(defaultLifetime_spec env s).1 h0]
      · intro h0; simp only; rw [(defaultLifetime_spec env s).2 h0]
      · intro m hm hvm
        cases hm
        exact absurd hvm hv

/-- Witness of `createMitigationScope_default_lifetime`: the scope of scenario 1
with lifetime 0 is stored with lifetime 3600 and the request then holds 3600;
with lifetime 60 it is stored with 60 and the request keeps 60; a scope with
lifetime -5 whose port is above 65535 is not converted, nothing is handed
to the repository, and the request holds 3600 all the same. -/
theorem createMitigationScope_default_lifetime_witness :
    (createMitigationScope storeEnv (requestOf [exampleScope 12345 0]) exampleCustomer
      exampleWorld).req.MitigationScope.Scopes = [exampleScope 12345 3600] ∧
    (createMitigationScope storeEnv (requestOf [exampleScope 12345 0]) exampleCustomer
      exampleWorld).world.trace = [Event.CreateMitigationScope exampleModelScope true] ∧
    (createMitigationScope storeEnv (requestOf [exampleScope 12345 0]) exampleCustomer
      exampleWorld).world.st.scopes = [exampleModelScope] ∧
    exampleModelScope.Lifetime = 3600 ∧
    (createMitigationScope storeEnv (requestOf [exampleScope 12345 60]) exampleCustomer
      exampleWorld).req.MitigationScope.Scopes = [exampleScope 12345 60] ∧
    (createMitigationScope storeEnv (requestOf [exampleScope 12345 60]) exampleCustomer
      exampleWorld).world.trace =
      [Event.CreateMitigationScope { exampleModelScope with Lifetime := 60 } true] ∧
    (createMitigationScope storeEnv (requestOf [badPortScope 1 (-5)]) exampleCustomer
      exampleWorld).req.MitigationScope.Scopes = [badPortScope 1 3600] ∧
    (createMitigationScope storeEnv (requestOf [badPortScope 1 (-5)]) exampleCustomer
      exampleWorld).world.trace = [] :=
  ⟨(createMitigationScope_default_lifetime storeEnv (requestOf [exampleScope 12345 0])
      (exampleScope 12345 0) exampleCustomer exampleWorld rfl).1 (by decide),
   by decide, by decide,
   (((createMitigationScope_default_lifetime storeEnv (requestOf [exampleScope 12345 0])
      (exampleScope 12345 0) exampleCustomer exampleWorld rfl).2.2.1 exampleModelScope rfl
      rfl).2.1 (by decide)),
   (createMitigationScope_default_lifetime storeEnv (requestOf [exampleScope 12345 60])
      (exampleScope 12345 60) exampleCustomer exampleWorld rfl).2.1 (by decide),
   by decide,
   (createMitigationScope_default_lifetime storeEnv (requestOf [badPortScope 1 (-5)])
      (badPortScope 1 (-5)) exampleCustomer exampleWorld rfl).1 (by decide),
   by decide⟩

/-! ### The cancel step calls queries and StopProtection only -/

theorem cancelMitigationLookup_onlyAdds {σ : Type} (env : Env σ) (clientIdentifier : String)
    (customer : models.Customer) (ids : List Int) :
    ∀ (protections : List models.Protection) (w : World σ),
      OnlyAdds Event.isQuery w
        (cancelMitigationLookup env clientIdentifier customer ids protections w).2 ∧
      (cancelMitigationLookup env clientIdentifier customer ids protections w).2.st = w.st := by
  induction ids with
  | nil => intro protections w; exact ⟨OnlyAdds.refl _ _, rfl⟩
  | cons mitigationId rest ih =>
    intro protections w
    unfold cancelMitigationLookup
    split
    · exact ⟨OnlyAdds.refl _ _, rfl⟩
    · simp only
      split
      · exact ⟨OnlyAdds.log _ _ rfl, rfl⟩
      · exact ⟨OnlyAdds.log _ _ rfl, rfl⟩
      · split
        · exact ⟨(OnlyAdds.log _ _ rfl).trans (OnlyAdds.log _ _ rfl), rfl⟩
        · exact ⟨(OnlyAdds.log _ _ rfl).trans (OnlyAdds.log _ _ rfl), rfl⟩
        · split
          · obtain ⟨h1, h2⟩ := ih (protections ++ [_])
              ((w.log (Event.GetMitigationScope customer.Id clientIdentifier mitigationId)).log
                (Event.GetActiveProtectionByMitigationId customer.Id clientIdentifier
                  mitigationId))
            exact ⟨((OnlyAdds.log _ _ rfl).trans (OnlyAdds.log _ _ rfl)).trans h1, h2⟩
          · exact ⟨(OnlyAdds.log _ _ rfl).trans (OnlyAdds.log _ _ rfl), rfl⟩

theorem cancelMitigationStop_onlyAdds {σ : Type} (env : Env σ)
    (protections : List models.Protection) :
    ∀ w : World σ, OnlyAdds Event.isStop w (cancelMitigationStop env protections w).2 := by
  induction protections with
  | nil => intro w; exact OnlyAdds.refl _ _
  | cons p rest ih =>
    intro w
    unfold cancelMitigationStop
    split
    · exact OnlyAdds.step _ _ _ rfl
    · exact (OnlyAdds.step _ _ _ rfl).trans (ih _)

theorem cancelMitigationByIds_onlyAdds {σ : Type} (env : Env σ) (ids : List Int)
    (clientIdentifier : String) (customer : models.Customer) (w : World σ) :
    OnlyAdds (fun e => e.isQuery || e.isStop) w
      (cancelMitigationByIds env ids clientIdentifier customer w).2 := by
  have h1 := (cancelMitigationLookup_onlyAdds env clientIdentifier customer ids [] w).1
  unfold cancelMitigationByIds
  split
  · next e w1 heq =>
    rw [heq] at h1
    exact h1.mono (by intro e h; simp [h])
  · next ps w1 heq =>
    rw [heq] at h1
    exact (h1.mono (by intro e h; simp [h])).trans
      ((cancelMitigationStop_onlyAdds env ps w1).mono (by intro e h; simp [h]))

theorem not_create_of_query_or_stop (e : Event) (h : (e.isQuery || e.isStop) = true) :
    e.isCreate = false ∧ e.isBlockerCall = false ∧ e.isDelete = false := by
  cases e <;> simp_all [Event.isQuery, Event.isStop, Event.isCreate, Event.isBlockerCall,
    Event.isDelete]

/-! ### PUT of a scope that the validator rejects -/

/-- C6, as amended: for every PUT carrying exactly one scope that the
validator rejects, `Put` does not answer with a response at all, so not with
code `BadRequest`: it ends with an error (or panics on a nil lookup result),
and when the lookup and, on the update path, the cancel step succeed, that
error is the plain error "validation error." of `callBlocker` next to the
empty response.  Nothing is persisted (no `CreateMitigationScope` call) and no
scope is enqueued (no call of the orchestrator on the selection service or a
blocker). -/
theorem Put_rejected_scope {σ : Type} (env : Env σ) (req : messages.MitigationRequest)
    (reqScope : messages.Scope) (customer : models.Customer) (w : World σ)
    (m : models.MitigationScope)
    (hone : req.MitigationScope.Scopes = [reqScope])
    (hm : newMitigationScope env (defaultLifetime env reqScope) customer
      (env.EffectiveClientIdentifier
        { MitigationScope := { Scopes := [defaultLifetime env reqScope] } }) = Except.ok m)
    (hv : env.Validate m customer = false) :
    (∀ res, (MitigationRequest.Put env (some req) customer w).status ≠
      Status.returned res none) ∧
    (∀ currentScope,
      env.GetMitigationScope w.st customer.Id (env.EffectiveClientIdentifier req)
        reqScope.MitigationId = Except.ok (some currentScope) →
      (currentScope.MitigationId = 0 ∨
        (cancelMitigationByModel env currentScope (env.EffectiveClientIdentifier req) customer
          (w.log (Event.GetMitigationScope customer.Id (env.EffectiveClientIdentifier req)
            reqScope.MitigationId))).1 = none) →
      (MitigationRequest.Put env (some req) customer w).status =
        Status.returned Response.zero (some (GoError.text "validation error."))) ∧
    ∃ t, (MitigationRequest.Put env (some req) customer w).world.trace = w.trace ++ t ∧
      ∀ e ∈ t, e.isCreate = false ∧ e.isBlockerCall = false := by
  obtain ⟨⟨scopes⟩⟩ := req
  simp only at hone
  subst hone
  have hq : OnlyAdds (fun e => e.isQuery || e.isStop) w
      (w.log (Event.GetMitigationScope customer.Id
        (env.EffectiveClientIdentifier { MitigationScope := { Scopes := [reqScope] } })
        reqScope.MitigationId)) := OnlyAdds.log _ _ rfl
  have hfin : ∀ w2 : World σ, OnlyAdds (fun e => e.isQuery || e.isStop) w w2 →
      ∃ t, w2.trace = w.trace ++ t ∧ ∀ e ∈ t, e.isCreate = false ∧ e.isBlockerCall = false := by
    intro w2 h
    obtain ⟨t, ht, hp⟩ := h
    exact ⟨t, ht, fun e he =>
      ⟨(not_create_of_query_or_stop e (hp e he)).1, (not_create_of_query_or_stop e (hp e he)).2.1⟩⟩
  cases hget : env.GetMitigationScope w.st customer.Id
      (env.EffectiveClientIdentifier { MitigationScope := { Scopes := [reqScope] } })
      reqScope.MitigationId with
  | error e =>
    have hput : MitigationRequest.Put env
        (some { MitigationScope := { Scopes := [reqScope] } }) customer w =
        { status := Status.returned Response.zero (some e),
          world := w.log (Event.GetMitigationScope customer.Id
            (env.EffectiveClientIdentifier { MitigationScope := { Scopes := [reqScope] } })
            reqScope.MitigationId) } := by
      simp only [MitigationRequest.Put, hget]
    rw [hput]
    exact ⟨fun res h => (by cases h), fun c h => (by cases h), hfin _ hq⟩
  | ok so =>
    cases so with
    | none =>
      have hput : MitigationRequest.Put env
          (some { MitigationScope := { Scopes := [reqScope] } }) customer w =
          { status := Status.panicked,
            world := w.log (Event.GetMitigationScope customer.Id
              (env.EffectiveClientIdentifier { MitigationScope := { Scopes := [reqScope] } })
              reqScope.MitigationId) } := by
        simp only [MitigationRequest.Put, hget]
      rw [hput]
      exact ⟨fun res h => (by cases h), fun c h => (by cases h), hfin _ hq⟩
    | some cur =>
      by_cases hid : cur.MitigationId = 0
      · have hput : MitigationRequest.Put env
            (some { MitigationScope := { Scopes := [reqScope] } }) customer w =
            { status := Status.returned Response.zero (some (GoError.text "validation error.")),
              world := w.log (Event.GetMitigationScope customer.Id
                (env.EffectiveClientIdentifier { MitigationScope := { Scopes := [reqScope] } })
                reqScope.MitigationId) } := by
          simp only [MitigationRequest.Put, hget, hid, if_true,
            putCreateAndCall_rejected env reqScope customer Created _ m hm hv]
        rw [hput]
        exact ⟨fun res h => (by cases h), fun c _ _ => rfl, hfin _ hq⟩
      · have hc := cancelMitigationByIds_onlyAdds env [cur.MitigationId]
          (env.EffectiveClientIdentifier { MitigationScope := { Scopes := [reqScope] } })
          customer (w.log (Event.GetMitigationScope customer.Id
            (env.EffectiveClientIdentifier { MitigationScope := { Scopes := [reqScope] } })
            reqScope.MitigationId))
        cases hcancel : cancelMitigationByModel env cur
            (env.EffectiveClientIdentifier { MitigationScope := { Scopes := [reqScope] } })
            customer (w.log (Event.GetMitigationScope customer.Id
              (env.EffectiveClientIdentifier { MitigationScope := { Scopes := [reqScope] } })
              reqScope.MitigationId)) with
        | mk eo w2 =>
          have hw2 : OnlyAdds (fun e => e.isQuery || e.isStop) w w2 := by
            unfold cancelMitigationByModel at hcancel
            rw [hcancel] at hc
            exact hq.trans hc
          cases eo with
          | some e =>
            have hput : MitigationRequest.Put env
                (some { MitigationScope := { Scopes := [reqScope] } }) customer w =
                { status := Status.returned Response.zero (some e), world := w2 } := by
              simp only [MitigationRequest.Put, hget, hid, if_false, hcancel]
            rw [hput]
            refine ⟨fun res h => (by cases h), ?_, hfin _ hw2⟩
            intro c hc1 hc2
            simp only [Except.ok.injEq, Option.some.injEq] at hc1
            subst hc1
            rcases hc2 with h | h
            · exact absurd h hid
            · rw [hcancel] at h; cases h
          | none =>
            have hput : MitigationRequest.Put env
                (some { MitigationScope := { Scopes := [reqScope] } }) customer w =
                { status :=
                    Status.returned Response.zero (some (GoError.text "validation error.")),
                  world := w2 } := by
              simp only [MitigationRequest.Put, hget, hid, if_false, hcancel,
                putCreateAndCall_rejected env reqScope customer Changed _ m hm hv]
            rw [hput]
            exact ⟨fun res h => (by cases h), fun c _ _ => rfl, hfin _ hw2⟩

/-- Witness of `Put_rejected_scope`: a PUT of a scope without any target on the
empty repository. -/
theorem Put_rejected_scope_witness :
    (∀ res, (MitigationRequest.Put storeEnv (some (requestOf [emptyScope 12345 3600]))
      exampleCustomer exampleWorld).status ≠ Status.returned res none) ∧
    (∀ currentScope,
      storeEnv.GetMitigationScope exampleWorld.st exampleCustomer.Id
        (storeEnv.EffectiveClientIdentifier (requestOf [emptyScope 12345 3600]))
        (emptyScope 12345 3600).MitigationId = Except.ok (some currentScope) →
      (currentScope.MitigationId = 0 ∨
        (cancelMitigationByModel storeEnv currentScope
          (storeEnv.EffectiveClientIdentifier (requestOf [emptyScope 12345 3600]))
          exampleCustomer
          (exampleWorld.log (Event.GetMitigationScope exampleCustomer.Id
            (storeEnv.EffectiveClientIdentifier (requestOf [emptyScope 12345 3600]))
            (emptyScope 12345 3600).MitigationId))).1 = none) →
      (MitigationRequest.Put storeEnv (some (requestOf [emptyScope 12345 3600]))
        exampleCustomer exampleWorld).status =
        Status.returned Response.zero (some (GoError.text "validation error."))) ∧
    ∃ t, (MitigationRequest.Put storeEnv (some (requestOf [emptyScope 12345 3600]))
        exampleCustomer exampleWorld).world.trace = exampleWorld.trace ++ t ∧
      ∀ e ∈ t, e.isCreate = false ∧ e.isBlockerCall = false :=
  Put_rejected_scope storeEnv (requestOf [emptyScope 12345 3600]) (emptyScope 12345 3600)
    exampleCustomer exampleWorld emptyModelScope rfl rfl rfl

/-- C6, counterexample: the validator rejects the scope without any target,
and `Put` ends with the error "validation error." next to the empty response,
whose code is not `BadRequest`. -/
theorem Put_rejected_scope_counterexample :
    newMitigationScope storeEnv (emptyScope 12345 3600) exampleCustomer "client" =
      Except.ok emptyModelScope ∧
    storeEnv.Validate emptyModelScope exampleCustomer = false ∧
    (MitigationRequest.Put storeEnv (some (requestOf [emptyScope 12345 3600]))
      exampleCustomer exampleWorld).status =
      Status.returned Response.zero (some (GoError.text "validation error.")) ∧
    Response.zero.Code ≠ BadRequest :=
  ⟨rfl, rfl, by decide, by decide⟩

/-! ### PUT on the create path when the orchestrator fails -/

/-- C7, as amended: for every PUT on the create path (the lookup yields a
scope with mitigation-id 0) whose scope is validated and persisted and whose
orchestrator run ends with an error, `Put` returns that error next to the
empty response, and after the successful `CreateMitigationScope` it has only
called the selection service and the blockers: the rollback makes no
`DeleteMitigationScope` call, so it does not remove the row that the create
path has persisted. -/
theorem Put_create_path_failure_keeps_scope {σ : Type} (env : Env σ)
    (req : messages.MitigationRequest) (reqScope : messages.Scope)
    (customer : models.Customer) (w : World σ) (currentScope m : models.MitigationScope)
    (st : σ) (e : GoError)
    (hone : req.MitigationScope.Scopes = [reqScope])
    (hget : env.GetMitigationScope w.st customer.Id (env.EffectiveClientIdentifier req)
      reqScope.MitigationId = Except.ok (some currentScope))
    (hid : currentScope.MitigationId = 0)
    (hm : newMitigationScope env (defaultLifetime env reqScope) customer
      (env.EffectiveClientIdentifier
        { MitigationScope := { Scopes := [defaultLifetime env reqScope] } }) = Except.ok m)
    (hv : env.Validate m customer = true)
    (hc : env.CreateMitigationScope w.st m customer = (none, st))
    (hb : (callBlocker env { MitigationScope := { Scopes := [defaultLifetime env reqScope] } }
      customer
      ((w.log (Event.GetMitigationScope customer.Id (env.EffectiveClientIdentifier req)
        reqScope.MitigationId)).step st (Event.CreateMitigationScope m true))).status =
      CallStatus.returned (some e)) :
    (MitigationRequest.Put env (some req) customer w).status =
      Status.returned Response.zero (some e) ∧
    ∃ t, (MitigationRequest.Put env (some req) customer w).world.trace =
        w.trace ++ [Event.GetMitigationScope customer.Id (env.EffectiveClientIdentifier req)
          reqScope.MitigationId, Event.CreateMitigationScope m true, Event.Enqueue m] ++ t ∧
      ∀ ev ∈ t, ev.isBlockerCall = true ∧ ev.isDelete = false := by
  obtain ⟨⟨scopes⟩⟩ := req
  simp only at hone
  subst hone
  have hput : MitigationRequest.Put env
      (some { MitigationScope := { Scopes := [reqScope] } }) customer w =
      putCreateAndCall env { MitigationScope := { Scopes := [reqScope] } } customer Created
        (w.log (Event.GetMitigationScope customer.Id
          (env.EffectiveClientIdentifier { MitigationScope := { Scopes := [reqScope] } })
          reqScope.MitigationId)) := by
    simp only [MitigationRequest.Put, hget, hid, if_true]
  rw [hput, putCreateAndCall_created env reqScope customer Created
    (w.log (Event.GetMitigationScope customer.Id
      (env.EffectiveClientIdentifier { MitigationScope := { Scopes := [reqScope] } })
      reqScope.MitigationId)) m st hm hv hc, hb]
  refine ⟨rfl, ?_⟩
  obtain ⟨t, ht, hp⟩ := callBlocker_single_enqueued env (defaultLifetime env reqScope)
    customer ((w.log (Event.GetMitigationScope customer.Id
      (env.EffectiveClientIdentifier { MitigationScope := { Scopes := [reqScope] } })
      reqScope.MitigationId)).step st (Event.CreateMitigationScope m true)) m hm hv
  refine ⟨t, ?_, ?_⟩
  · simp only [ht, World.step_trace, World.log_trace, List.append_assoc, List.singleton_append,
      List.cons_append, List.nil_append]
  · intro ev hev
    have := hp ev hev
    refine ⟨this, ?_⟩
    cases ev <;> simp_all [Event.isBlockerCall, Event.isDelete]

/-- Witness of `Put_create_path_failure_keeps_scope`: scenario 1 of the
specification when no blocker is available. -/
theorem Put_create_path_failure_keeps_scope_witness :
    (MitigationRequest.Put storeEnv (some (requestOf [exampleScope 12345 3600]))
      exampleCustomer noBlockerWorld).status =
      Status.returned Response.zero (some (GoError.ext 1)) ∧
    ∃ t, (MitigationRequest.Put storeEnv (some (requestOf [exampleScope 12345 3600]))
        exampleCustomer noBlockerWorld).world.trace =
        noBlockerWorld.trace ++ [Event.GetMitigationScope 1 "client" 12345,
          Event.CreateMitigationScope exampleModelScope true,
          Event.Enqueue exampleModelScope] ++ t ∧
      ∀ ev ∈ t, ev.isBlockerCall = true ∧ ev.isDelete = false :=
  Put_create_path_failure_keeps_scope storeEnv (requestOf [exampleScope 12345 3600])
    (exampleScope 12345 3600) exampleCustomer noBlockerWorld
    (models.NewMitigationScope { Id := 1, Name := "" } "client") exampleModelScope
    (storeEnv.CreateMitigationScope noBlockerWorld.st exampleModelScope exampleCustomer).2
    (GoError.ext 1) rfl rfl rfl rfl rfl rfl (by decide)

/-- C7, counterexample: on the repository without blockers the PUT of a fresh
mitigation-id takes the create path, its orchestrator run fails with the
error of the selection service and rolls back, and when `Put` returns the
repository holds the scope of that mitigation-id. -/
theorem Put_create_path_rollback_counterexample :
    hasScope storeEnv noBlockerWorld.st 1 "client" 12345 = false ∧
    (MitigationRequest.Put storeEnv (some (requestOf [exampleScope 12345 3600]))
      exampleCustomer noBlockerWorld).status =
      Status.returned Response.zero (some (GoError.ext 1)) ∧
    (callBlocker storeEnv (requestOf [exampleScope 12345 3600]) exampleCustomer
      (createMitigationScope storeEnv (requestOf [exampleScope 12345 3600]) exampleCustomer
        noBlockerWorld).world).status = CallStatus.returned (some (GoError.ext 1)) ∧
    hasScope storeEnv
      (MitigationRequest.Put storeEnv (some (requestOf [exampleScope 12345 3600]))
        exampleCustomer noBlockerWorld).world.st 1 "client" 12345 = true := by
  decide

/-! ### DELETE: the validation loop -/

theorem cancelMitigationLookup_resolving {σ : Type} (env : Env σ) (clientIdentifier : String)
    (customer : models.Customer) (pre : List Int) :
    ∀ (rest : List Int) (protections : List models.Protection) (w : World σ),
      (∀ id ∈ pre, id ≠ 0 ∧
        (∃ s, env.GetMitigationScope w.st customer.Id clientIdentifier id =
          Except.ok (some s)) ∧
        ∃ p, env.GetActiveProtectionByMitigationId w.st customer.Id clientIdentifier id =
          Except.ok (some p) ∧ p.IsEnabled = true) →
      ∃ found w1,
        cancelMitigationLookup env clientIdentifier customer (pre ++ rest) protections w =
          cancelMitigationLookup env clientIdentifier customer rest (protections ++ found) w1 ∧
        w1.st = w.st ∧ OnlyAdds Event.isQuery w w1 := by
  induction pre with
  | nil =>
    intro rest protections w _
    exact ⟨[], w, by simp, rfl, OnlyAdds.refl _ _⟩
  | cons id pre ih =>
    intro rest protections w h
    obtain ⟨hid, ⟨s, hs⟩, p, hp, hen⟩ := h id (List.mem_cons_self _ _)
    obtain ⟨found, w1, h1, h2, h3⟩ := ih rest (protections ++ [p])
      ((w.log (Event.GetMitigationScope customer.Id clientIdentifier id)).log
        (Event.GetActiveProtectionByMitigationId customer.Id clientIdentifier id))
      (fun i hi => h i (List.mem_cons_of_mem _ hi))
    refine ⟨p :: found, w1, ?_, h2, ?_⟩
    · rw [List.cons_append, cancelMitigationLookup]
      simp only [hid, if_false, hs, hp, hen, if_true]
      rw [h1]
      simp
    · exact ((OnlyAdds.log _ _ rfl).trans (OnlyAdds.log _ _ rfl)).trans h3

theorem Delete_of_lookup_error {σ : Type} (env : Env σ) (req : messages.MitigationRequest)
    (customer : models.Customer) (w w1 : World σ) (e : GoError)
    (h : cancelMitigationLookup env (env.EffectiveClientIdentifier req) customer
      (req.MitigationScope.Scopes.map (fun scope => scope.MitigationId)) [] w =
        (Except.error e, w1)) :
    MitigationRequest.Delete env (some req) customer w =
      { status := Status.returned Response.zero (some e), world := w1 } := by
  simp only [MitigationRequest.Delete, cancelMitigationByMessage, cancelMitigationByIds, h]

theorem queries_are_not_stop_or_delete {σ : Type} {w w1 : World σ}
    (h : OnlyAdds Event.isQuery w w1) :
    ∃ t, w1.trace = w.trace ++ t ∧ ∀ e ∈ t, e.isStop = false ∧ e.isDelete = false := by
  obtain ⟨t, ht, hp⟩ := h
  refine ⟨t, ht, ?_⟩
  intro e he
  have := hp e he
  cases e <;> simp_all [Event.isQuery, Event.isStop, Event.isDelete]

/-- C8: for every DELETE whose id list is `pre ++ bad :: post`, where every id
of `pre` is not 0 and resolves to a scope and an enabled active protection,
and `bad` is 0, or the repository has no scope for it (the lookup yields nil,
or it yields a scope but no active protection is found for it): `Delete`
fails with the error of code `NotFound`, and all it has called are queries:
no `StopProtection` and no `DeleteMitigationScope` call is made for any id,
those of `pre` included, and the state of the collaborators is unchanged. -/
theorem Delete_not_found {σ : Type} (env : Env σ) (req : messages.MitigationRequest)
    (customer : models.Customer) (w : World σ) (pre post : List Int) (bad : Int)
    (hids : req.MitigationScope.Scopes.map (fun scope => scope.MitigationId) =
      pre ++ bad :: post)
    (hpre : ∀ id ∈ pre, id ≠ 0 ∧
      (∃ s, env.GetMitigationScope w.st customer.Id (env.EffectiveClientIdentifier req) id =
        Except.ok (some s)) ∧
      ∃ p, env.GetActiveProtectionByMitigationId w.st customer.Id
        (env.EffectiveClientIdentifier req) id = Except.ok (some p) ∧ p.IsEnabled = true)
    (hbad : bad = 0 ∨
      env.GetMitigationScope w.st customer.Id (env.EffectiveClientIdentifier req) bad =
        Except.ok none ∨
      ((∃ s, env.GetMitigationScope w.st customer.Id (env.EffectiveClientIdentifier req) bad =
        Except.ok (some s)) ∧
       env.GetActiveProtectionByMitigationId w.st customer.Id
        (env.EffectiveClientIdentifier req) bad = Except.ok none)) :
    (MitigationRequest.Delete env (some req) customer w).status =
      Status.returned Response.zero (some (GoError.ctrl NotFound MsgType.NonConfirmable)) ∧
    (MitigationRequest.Delete env (some req) customer w).world.st = w.st ∧
    ∃ t, (MitigationRequest.Delete env (some req) customer w).world.trace = w.trace ++ t ∧
      ∀ e ∈ t, e.isStop = false ∧ e.isDelete = false := by
  obtain ⟨found, w1, h1, h2, h3⟩ := cancelMitigationLookup_resolving env
    (env.EffectiveClientIdentifier req) customer pre (bad :: post) [] w hpre
  have key : ∃ w2, cancelMitigationLookup env (env.EffectiveClientIdentifier req) customer
      (bad :: post) ([] ++ found) w1 =
        (Except.error (GoError.ctrl NotFound MsgType.NonConfirmable), w2) ∧
      w2.st = w1.st ∧ OnlyAdds Event.isQuery w1 w2 := by
    unfold cancelMitigationLookup
    by_cases h0 : bad = 0
    · exact ⟨w1, by simp [h0], rfl, OnlyAdds.refl _ _⟩
    · rcases hbad with hb | hb | ⟨⟨s, hs⟩, hp⟩
      · exact absurd hb h0
      · rw [← h2] at hb
        exact ⟨w1.log (Event.GetMitigationScope customer.Id
          (env.EffectiveClientIdentifier req) bad),
          by simp only [h0, if_false, hb], rfl, OnlyAdds.log _ _ rfl⟩
      · rw [← h2] at hs hp
        exact ⟨(w1.log (Event.GetMitigationScope customer.Id
          (env.EffectiveClientIdentifier req) bad)).log
            (Event.GetActiveProtectionByMitigationId customer.Id
              (env.EffectiveClientIdentifier req) bad),
          by simp only [h0, if_false, hs, hp], rfl,
          (OnlyAdds.log _ _ rfl).trans (OnlyAdds.log _ _ rfl)⟩
  obtain ⟨w2, k1, k2, k3⟩ := key
  rw [← hids] at h1
  rw [Delete_of_lookup_error env req customer w w2 _ (h1.trans k1)]
  exact ⟨rfl, k2.trans h2, queries_are_not_stop_or_delete (h3.trans k3)⟩

/-- C9: for every DELETE whose id list is `pre ++ i :: post`, where every id
of `pre` is not 0 and resolves to a scope and an enabled active protection,
and `i` is not 0 and resolves to a scope whose active protection is present
but not enabled: `Delete` fails with the error of code `PreconditionFailed`,
and all it has called are queries: no `StopProtection` and no
`DeleteMitigationScope` call is made for any id of the request, and the state
of the collaborators is unchanged. -/
theorem Delete_precondition_failed {σ : Type} (env : Env σ)
    (req : messages.MitigationRequest) (customer : models.Customer) (w : World σ)
    (pre post : List Int) (i : Int) (s : models.MitigationScope) (p : models.Protection)
    (hids : req.MitigationScope.Scopes.map (fun scope => scope.MitigationId) =
      pre ++ i :: post)
    (hpre : ∀ id ∈ pre, id ≠ 0 ∧
      (∃ s, env.GetMitigationScope w.st customer.Id (env.EffectiveClientIdentifier req) id =
        Except.ok (some s)) ∧
      ∃ p, env.GetActiveProtectionByMitigationId w.st customer.Id
        (env.EffectiveClientIdentifier req) id = Except.ok (some p) ∧ p.IsEnabled = true)
    (hi : i ≠ 0)
    (hs : env.GetMitigationScope w.st customer.Id (env.EffectiveClientIdentifier req) i =
      Except.ok (some s))
    (hp : env.GetActiveProtectionByMitigationId w.st customer.Id
      (env.EffectiveClientIdentifier req) i = Except.ok (some p))
    (hen : p.IsEnabled = false) :
    (MitigationRequest.Delete env (some req) customer w).status =
      Status.returned Response.zero
        (some (GoError.ctrl PreconditionFailed MsgType.NonConfirmable)) ∧
    (MitigationRequest.Delete env (some req) customer w).world.st = w.st ∧
    ∃ t, (MitigationRequest.Delete env (some req) customer w).world.trace = w.trace ++ t ∧
      ∀ e ∈ t, e.isStop = false ∧ e.isDelete = false := by
  obtain ⟨found, w1, h1, h2, h3⟩ := cancelMitigationLookup_resolving env
    (env.EffectiveClientIdentifier req) customer pre (i :: post) [] w hpre
  have key : ∃ w2, cancelMitigationLookup env (env.EffectiveClientIdentifier req) customer
      (i :: post) ([] ++ found) w1 =
        (Except.error (GoError.ctrl PreconditionFailed MsgType.NonConfirmable), w2) ∧
      w2.st = w1.st ∧ OnlyAdds Event.isQuery w1 w2 := by
    unfold cancelMitigationLookup
    rw [← h2] at hs hp
    exact ⟨(w1.log (Event.GetMitigationScope customer.Id
      (env.EffectiveClientIdentifier req) i)).log
        (Event.GetActiveProtectionByMitigationId customer.Id
          (env.EffectiveClientIdentifier req) i),
      by simp [hi, hs, hp, hen], rfl,
      (OnlyAdds.log _ _ rfl).trans (OnlyAdds.log _ _ rfl)⟩
  obtain ⟨w2, k1, k2, k3⟩ := key
  rw [← hids] at h1
  rw [Delete_of_lookup_error env req customer w w2 _ (h1.trans k1)]
  exact ⟨rfl, k2.trans h2, queries_are_not_stop_or_delete (h3.trans k3)⟩

/-- Witness of `Delete_not_found`: on the world of scenario 1, a DELETE of the
ids 12345 and 0 (scenario 5 of the specification after a valid id), and a
DELETE of the ids 12345 and 999, of which the repository has no scope. -/
theorem Delete_not_found_witness :
    ((MitigationRequest.Delete storeEnv
        (some (requestOf [exampleScope 12345 3600, exampleScope 0 3600]))
        exampleCustomer protectedWorld).status =
      Status.returned Response.zero (some (GoError.ctrl NotFound MsgType.NonConfirmable)) ∧
    (MitigationRequest.Delete storeEnv
        (some (requestOf [exampleScope 12345 3600, exampleScope 0 3600]))
        exampleCustomer protectedWorld).world.st = protectedWorld.st ∧
    ∃ t, (MitigationRequest.Delete storeEnv
        (some (requestOf [exampleScope 12345 3600, exampleScope 0 3600]))
        exampleCustomer protectedWorld).world.trace = protectedWorld.trace ++ t ∧
      ∀ e ∈ t, e.isStop = false ∧ e.isDelete = false) ∧
    ((MitigationRequest.Delete storeEnv
        (some (requestOf [exampleScope 12345 3600, exampleScope 999 3600]))
        exampleCustomer protectedWorld).status =
      Status.returned Response.zero (some (GoError.ctrl NotFound MsgType.NonConfirmable)) ∧
    (MitigationRequest.Delete storeEnv
        (some (requestOf [exampleScope 12345 3600, exampleScope 999 3600]))
        exampleCustomer protectedWorld).world.st = protectedWorld.st ∧
    ∃ t, (MitigationRequest.Delete storeEnv
        (some (requestOf [exampleScope 12345 3600, exampleScope 999 3600]))
        exampleCustomer protectedWorld).world.trace = protectedWorld.trace ++ t ∧
      ∀ e ∈ t, e.isStop = false ∧ e.isDelete = false) :=
  ⟨Delete_not_found storeEnv (requestOf [exampleScope 12345 3600, exampleScope 0 3600])
      exampleCustomer protectedWorld [12345] [] 0 rfl
      (by
        intro id hid
        rw [List.mem_singleton] at hid
        subst hid
        exact ⟨by decide, ⟨exampleModelScope, rfl⟩, exampleProtection, rfl, rfl⟩)
      (Or.inl rfl),
   Delete_not_found storeEnv (requestOf [exampleScope 12345 3600, exampleScope 999 3600])
      exampleCustomer protectedWorld [12345] [] 999 rfl
      (by
        intro id hid
        rw [List.mem_singleton] at hid
        subst hid
        exact ⟨by decide, ⟨exampleModelScope, rfl⟩, exampleProtection, rfl, rfl⟩)
      (Or.inr (Or.inr ⟨⟨models.NewMitigationScope { Id := 1, Name := "" } "client", rfl⟩,
        rfl⟩))⟩

/-- Witness of `Delete_precondition_failed`: a DELETE of the mitigations 12345
and 12346 on the world in which the protection of 12346 has already been
stopped. -/
theorem Delete_precondition_failed_witness :
    (MitigationRequest.Delete storeEnv
        (some (requestOf [exampleScope 12345 3600, exampleScope 12346 3600]))
        exampleCustomer stoppedWorld).status =
      Status.returned Response.zero
        (some (GoError.ctrl PreconditionFailed MsgType.NonConfirmable)) ∧
    (MitigationRequest.Delete storeEnv
        (some (requestOf [exampleScope 12345 3600, exampleScope 12346 3600]))
        exampleCustomer stoppedWorld).world.st = stoppedWorld.st ∧
    ∃ t, (MitigationRequest.Delete storeEnv
        (some (requestOf [exampleScope 12345 3600, exampleScope 12346 3600]))
        exampleCustomer stoppedWorld).world.trace = stoppedWorld.trace ++ t ∧
      ∀ e ∈ t, e.isStop = false ∧ e.isDelete = false :=
  Delete_precondition_failed storeEnv
    (requestOf [exampleScope 12345 3600, exampleScope 12346 3600]) exampleCustomer
    stoppedWorld [12345] [] 12346 { exampleModelScope with MitigationId := 12346 }
    { Id := 1, IsEnabled := false, TargetBlocker := 7, StartedAt := 0 }
    rfl
    (by
      intro id hid
      rw [List.mem_singleton] at hid
      subst hid
      exact ⟨by decide, ⟨exampleModelScope, rfl⟩, exampleProtection, rfl, rfl⟩)
    (by decide) rfl rfl rfl

/-! ### DELETE: success -/

theorem cancelMitigationLookup_ok {σ : Type} (env : Env σ) (clientIdentifier : String)
    (customer : models.Customer) (ids : List Int) :
    ∀ (protections out : List models.Protection) (w w1 : World σ),
      cancelMitigationLookup env clientIdentifier customer ids protections w =
        (Except.ok out, w1) →
      ∃ found, out = protections ++ found ∧
        List.Forall₂ (fun id p =>
          env.GetActiveProtectionByMitigationId w.st customer.Id clientIdentifier id =
            Except.ok (some p) ∧ p.IsEnabled = true) ids found := by
  induction ids with
  | nil =>
    intro protections out w w1 h
    simp only [cancelMitigationLookup, Prod.mk.injEq, Except.ok.injEq] at h
    exact ⟨[], by simp [h.1], List.Forall₂.nil⟩
  | cons id rest ih =>
    intro protections out w w1 h
    unfold cancelMitigationLookup at h
    split at h
    · cases h
    · simp only at h
      split at h
      · cases h
      · cases h
      · split at h
        · cases h
        · cases h
        · next p hp =>
          split at h
          · next hen =>
            obtain ⟨found, h1, h2⟩ := ih _ _ _ _ h
            refine ⟨p :: found, by simp [h1], List.Forall₂.cons ⟨hp, hen⟩ ?_⟩
            simpa using h2
          · cases h

theorem cancelMitigationStop_ok {σ : Type} (env : Env σ) (laws : RepositoryLaws env)
    (protections : List models.Protection) :
    ∀ (w w1 : World σ), cancelMitigationStop env protections w = (none, w1) →
      w1.trace = w.trace ++ protections.map (fun p => Event.StopProtection p true) ∧
      ∀ cid cl mid q, enabledProtection env w1.st cid cl mid = some q →
        enabledProtection env w.st cid cl mid = some q ∧ q ∉ protections := by
  induction protections with
  | nil =>
    intro w w1 h
    simp only [cancelMitigationStop, Prod.mk.injEq, true_and] at h
    subst h
    exact ⟨by simp, fun cid cl mid q hq => ⟨hq, by simp⟩⟩
  | cons p rest ih =>
    intro w w1 h
    unfold cancelMitigationStop at h
    split at h
    · cases h
    · next st hst =>
      obtain ⟨h1, h2⟩ := ih _ _ h
      refine ⟨by simp [h1], ?_⟩
      intro cid cl mid q hq
      obtain ⟨h3, h4⟩ := h2 cid cl mid q hq
      simp only [World.step_st] at h3
      have h5 := laws.stop_disables w.st p.TargetBlocker p st cid cl mid hst
      have h6 := laws.stop_keeps_stopped w.st p.TargetBlocker p cid cl mid q
        (by rw [hst]; exact h3)
      refine ⟨h6, ?_⟩
      intro hmem
      rcases List.mem_cons.1 hmem with h7 | h7
      · subst h7; exact h5 h3
      · exact h4 h7

theorem deleteMitigationLoop_ok {σ : Type} (env : Env σ) (laws : RepositoryLaws env)
    (req : messages.MitigationRequest) (customer : models.Customer)
    (scopes : List messages.Scope) :
    ∀ (w w1 : World σ), deleteMitigationLoop env req customer scopes w = (none, w1) →
      w1.trace = w.trace ++ scopes.map (fun scope =>
        Event.DeleteMitigationScope customer.Id (env.EffectiveClientIdentifier req)
          scope.MitigationId true) ∧
      (∀ scope ∈ scopes, hasScope env w1.st customer.Id (env.EffectiveClientIdentifier req)
        scope.MitigationId = false) ∧
      (∀ cid cl mid, hasScope env w1.st cid cl mid = true → hasScope env w.st cid cl mid = true) ∧
      ∀ cid cl mid q, enabledProtection env w1.st cid cl mid = some q →
        enabledProtection env w.st cid cl mid = some q := by
  induction scopes with
  | nil =>
    intro w w1 h
    simp only [deleteMitigationLoop, Prod.mk.injEq, true_and] at h
    subst h
    exact ⟨by simp, by simp, fun _ _ _ h => h, fun _ _ _ _ h => h⟩
  | cons scope rest ih =>
    intro w w1 h
    unfold deleteMitigationLoop at h
    split at h
    · cases h
    · next st hst =>
      obtain ⟨h1, h2, h3, h4⟩ := ih _ _ h
      simp only [World.step_st] at h3 h4
      have hdel : (env.DeleteMitigationScope w.st customer.Id
          (env.EffectiveClientIdentifier req) scope.MitigationId).2 = st := by rw [hst]
      refine ⟨by simp [h1], ?_, ?_, ?_⟩
      · intro sc hsc
        rcases List.mem_cons.1 hsc with h5 | h5
        · subst h5
          have h6 := laws.delete_removes w.st customer.Id (env.EffectiveClientIdentifier req)
            sc.MitigationId st hst
          cases h7 : hasScope env w1.st customer.Id (env.EffectiveClientIdentifier req)
              sc.MitigationId with
          | false => rfl
          | true => rw [h3 _ _ _ h7] at h6; cases h6
        · exact h2 sc h5
      · intro cid cl mid hh
        have := h3 cid cl mid hh
        rw [← hdel] at this
        exact laws.delete_keeps_absent _ _ _ _ _ _ _ this
      · intro cid cl mid q hh
        have := h4 cid cl mid q hh
        rw [← hdel] at this
        exact laws.delete_keeps_stopped _ _ _ _ _ _ _ _ this

theorem forall₂_exists_right {α β : Type} {R : α → β → Prop} {l1 : List α} {l2 : List β}
    (h : List.Forall₂ R l1 l2) {a : α} (ha : a ∈ l1) : ∃ b, b ∈ l2 ∧ R a b := by
  induction h with
  | nil => cases ha
  | cons hab _ ih =>
    rcases List.mem_cons.1 ha with h1 | h1
    · exact ⟨_, List.mem_cons_self _ _, h1 ▸ hab⟩
    · obtain ⟨b, hb, hr⟩ := ih h1
      exact ⟨b, List.mem_cons_of_mem _ hb, hr⟩

/-- C10: for every DELETE over the list of mitigation-ids of its scopes that
returns without error, the code is `Deleted`, and the calls it has made are
queries, then one successful `StopProtection` for each id of the list, on the
enabled active protection of that id, then one successful
`DeleteMitigationScope` for each id of the list: every stop comes before every
delete.  With the repository and the blockers behaving as section 3 and 4.C
say (`RepositoryLaws`), the repository then holds no scope and no enabled
active protection for any id of the list. -/
theorem Delete_success {σ : Type} (env : Env σ) (laws : RepositoryLaws env)
    (req : messages.MitigationRequest) (customer : models.Customer) (w : World σ)
    (res : Response)
    (h : (MitigationRequest.Delete env (some req) customer w).status =
      Status.returned res none) :
    res.Code = Deleted ∧
    (∃ queries protections,
      (MitigationRequest.Delete env (some req) customer w).world.trace =
        w.trace ++ queries ++
          protections.map (fun p => Event.StopProtection p true) ++
          req.MitigationScope.Scopes.map (fun scope =>
            Event.DeleteMitigationScope customer.Id (env.EffectiveClientIdentifier req)
              scope.MitigationId true) ∧
      (∀ e ∈ queries, e.isQuery = true) ∧
      List.Forall₂ (fun id p =>
        env.GetActiveProtectionByMitigationId w.st customer.Id
          (env.EffectiveClientIdentifier req) id = Except.ok (some p) ∧ p.IsEnabled = true)
        (req.MitigationScope.Scopes.map (fun scope => scope.MitigationId)) protections) ∧
    ∀ scope ∈ req.MitigationScope.Scopes,
      hasScope env (MitigationRequest.Delete env (some req) customer w).world.st customer.Id
        (env.EffectiveClientIdentifier req) scope.MitigationId = false ∧
      enabledProtection env (MitigationRequest.Delete env (some req) customer w).world.st
        customer.Id (env.EffectiveClientIdentifier req) scope.MitigationId = none := by
  unfold MitigationRequest.Delete at h ⊢
  simp only at h ⊢
  unfold cancelMitigationByMessage cancelMitigationByIds at h ⊢
  have hq := cancelMitigationLookup_onlyAdds env (env.EffectiveClientIdentifier req) customer
    (req.MitigationScope.Scopes.map (fun scope => scope.MitigationId)) [] w
  cases hl : cancelMitigationLookup env (env.EffectiveClientIdentifier req) customer
      (req.MitigationScope.Scopes.map (fun scope => scope.MitigationId)) [] w with
  | mk r w1 =>
    rw [hl] at hq
    obtain ⟨⟨queries, hq1, hq2⟩, hq3⟩ := hq
    simp only at hq1 hq3
    cases r with
    | error e => simp [hl] at h
    | ok protections =>
      obtain ⟨found, hf1, hf2⟩ := cancelMitigationLookup_ok env _ _ _ _ _ _ _ hl
      simp only [List.nil_append] at hf1
      subst hf1
      simp only [hl] at h ⊢
      cases hs : cancelMitigationStop env protections w1 with
      | mk eo w2 =>
        cases eo with
        | some e => simp [hs] at h
        | none =>
          obtain ⟨hs1, hs2⟩ := cancelMitigationStop_ok env laws protections w1 w2 hs
          simp only [hs] at h ⊢
          unfold deleteMitigationByMessage at h ⊢
          cases hd : deleteMitigationLoop env req customer req.MitigationScope.Scopes w2 with
          | mk eo2 w3 =>
            cases eo2 with
            | some e => simp [hd] at h
            | none =>
              obtain ⟨hd1, hd2, hd3, hd4⟩ :=
                deleteMitigationLoop_ok env laws req customer _ w2 w3 hd
              simp only [hd, Status.returned.injEq, and_true] at h ⊢
              subst h
              refine ⟨rfl, ⟨queries, protections, ?_, hq2, hf2⟩, ?_⟩
              · rw [hd1, hs1, hq1]
              · intro scope hscope
                refine ⟨hd2 scope hscope, ?_⟩
                cases hen : enabledProtection env w3.st customer.Id
                    (env.EffectiveClientIdentifier req) scope.MitigationId with
                | none => rfl
                | some q =>
                  exfalso
                  obtain ⟨k1, k2⟩ := hs2 _ _ _ _ (hd4 _ _ _ _ hen)
                  rw [hq3] at k1
                  have hmem : scope.MitigationId ∈
                      req.MitigationScope.Scopes.map (fun scope => scope.MitigationId) :=
                    List.mem_map_of_mem _ hscope
                  obtain ⟨p, hp1, hp2, hp3⟩ := forall₂_exists_right hf2 hmem
                  unfold enabledProtection at k1
                  rw [hp2] at k1
                  simp only [hp3, if_true, Option.some.injEq] at k1
                  exact k2 (k1 ▸ hp1)

/-! ### The concrete repository satisfies the laws -/

theorem storeEnv_hasScope (st : Store) (cid : Int) (cl : String) (mid : Int) :
    hasScope storeEnv st cid cl mid = true ↔
      ∃ s, st.scopes.find? (fun s => sameKey s cid cl mid) = some s ∧ s.MitigationId ≠ 0 := by
  unfold hasScope storeEnv
  simp only
  cases h : st.scopes.find? (fun s => sameKey s cid cl mid) with
  | none => simp [models.NewMitigationScope]
  | some s => simp

theorem sameKey_mitigationId {s : models.MitigationScope} {cid : Int} {cl : String} {mid : Int}
    (h : sameKey s cid cl mid = true) : s.MitigationId = mid := by
  unfold sameKey at h
  simp only [Bool.and_eq_true, beq_iff_eq] at h
  exact h.2

theorem storeEnv_enabledProtection (st : Store) (cid : Int) (cl : String) (mid : Int)
    (q : models.Protection) :
    enabledProtection storeEnv st cid cl mid = some q ↔
      ∃ e, st.protections.find? (fun e => sameKey e.1 cid cl mid) = some e ∧ e.2 = q ∧
        q.IsEnabled = true := by
  unfold enabledProtection storeEnv
  simp only
  cases h : st.protections.find? (fun e => sameKey e.1 cid cl mid) with
  | none => simp
  | some e =>
    simp only [Option.some.injEq, exists_eq_left']
    constructor
    · intro h1
      split at h1
      · next hen => simp only [Option.some.injEq] at h1; exact ⟨h1, h1 ▸ hen⟩
      · cases h1
    · rintro ⟨h1, h2⟩
      rw [h1, if_pos h2]

theorem find?_map_same_key (l : List (models.MitigationScope × models.Protection))
    (f : models.MitigationScope × models.Protection → models.MitigationScope × models.Protection)
    (hf : ∀ e, (f e).1 = e.1) (cid : Int) (cl : String) (mid : Int) :
    (l.map f).find? (fun e => sameKey e.1 cid cl mid) =
      (l.find? (fun e => sameKey e.1 cid cl mid)).map f := by
  induction l with
  | nil => rfl
  | cons e rest ih =>
    simp only [List.map_cons, List.find?_cons, hf]
    cases sameKey e.1 cid cl mid with
    | true => rfl
    | false => exact ih

theorem storeEnv_laws : RepositoryLaws storeEnv where
  delete_removes := by
    intro st cid cl mid st1 h
    cases hh : hasScope storeEnv st1 cid cl mid with
    | false => rfl
    | true =>
      exfalso
      obtain ⟨s, hs, _⟩ := (storeEnv_hasScope st1 cid cl mid).1 hh
      have hst : st1.scopes = st.scopes.filter (fun r => !sameKey r cid cl mid) := by
        simp only [storeEnv, Prod.mk.injEq, true_and] at h
        rw [← h]
      rw [hst] at hs
      have h1 := List.find?_some hs
      have h2 := List.mem_of_find?_eq_some hs
      simp only [List.mem_filter, Bool.not_eq_true'] at h2
      rw [h2.2] at h1
      cases h1
  delete_keeps_absent := by
    intro st cid cl mid cid1 cl1 mid1 h
    obtain ⟨s, hs, hne⟩ := (storeEnv_hasScope _ cid1 cl1 mid1).1 h
    simp only [storeEnv] at hs
    have h1 := List.find?_some hs
    have h2 := List.mem_of_find?_eq_some hs
    simp only [List.mem_filter] at h2
    rw [storeEnv_hasScope]
    cases hf : st.scopes.find? (fun s => sameKey s cid1 cl1 mid1) with
    | none =>
      rw [List.find?_eq_none] at hf
      exact absurd h1 (hf s h2.1)
    | some s1 =>
      refine ⟨s1, rfl, ?_⟩
      have h3 := List.find?_some hf
      rw [sameKey_mitigationId h3, ← sameKey_mitigationId h1]
      exact hne
  delete_keeps_stopped := by
    intro st cid cl mid cid1 cl1 mid1 q h
    exact h
  stop_disables := by
    intro st b p st1 cid cl mid h hen
    obtain ⟨e, he1, he2, he3⟩ := (storeEnv_enabledProtection st1 cid cl mid p).1 hen
    simp only [storeEnv] at h
    split at h
    · cases h
    · simp only [Prod.mk.injEq, true_and] at h
      subst h
      simp only at he1
      have hmem := List.mem_of_find?_eq_some he1
      rw [List.mem_map] at hmem
      obtain ⟨e0, _, h0⟩ := hmem
      by_cases hid : e0.2.Id = p.Id
      · rw [if_pos hid] at h0
        rw [← h0] at he2
        simp only at he2
        rw [← he2] at he3
        simp at he3
      · rw [if_neg hid] at h0
        rw [← h0] at he2
        exact hid (by rw [he2])
  stop_keeps_stopped := by
    intro st b p cid cl mid q h
    have hstop : storeEnv.StopProtection st b p =
        if b ∈ st.failing then (some (GoError.ext 2), st)
        else
          let stopped := st.protections.map
            (fun e => if e.2.Id = p.Id then (e.1, { e.2 with IsEnabled := false }) else e)
          (none, { st with protections := stopped }) :=
      rfl
    rw [hstop] at h
    by_cases hb : b ∈ st.failing
    · rw [if_pos hb] at h
      exact h
    · rw [if_neg hb] at h
      rw [storeEnv_enabledProtection] at h ⊢
      obtain ⟨e, he1, he2, he3⟩ := h
      simp only at he1
      rw [find?_map_same_key _ _ (by intro e; split <;> rfl)] at he1
      cases hf : st.protections.find? (fun e => sameKey e.1 cid cl mid) with
      | none => rw [hf] at he1; cases he1
      | some e0 =>
        rw [hf] at he1
        simp only [Option.map_some', Option.some.injEq] at he1
        by_cases hid : e0.2.Id = p.Id
        · rw [if_pos hid] at he1
          rw [← he1] at he2
          simp only at he2
          rw [← he2] at he3
          simp at he3
        · rw [if_neg hid] at he1
          exact ⟨e0, rfl, by rw [he1]; exact he2, he3⟩

/-- Witness of `Delete_success`: a DELETE of the mitigations 12345 and 12346 on
the world in which both are protected. -/
theorem Delete_success_witness :
    ({ Typ := MsgType.NonConfirmable, Code := Deleted, Body := Body.nil } : Response).Code =
      Deleted ∧
    (∃ queries protections,
      (MitigationRequest.Delete storeEnv
        (some (requestOf [exampleScope 12345 3600, exampleScope 12346 3600]))
        exampleCustomer twiceProtectedWorld).world.trace =
        twiceProtectedWorld.trace ++ queries ++
          protections.map (fun p => Event.StopProtection p true) ++
          (requestOf [exampleScope 12345 3600, exampleScope 12346 3600]).MitigationScope.Scopes.map
            (fun scope => Event.DeleteMitigationScope exampleCustomer.Id
              (storeEnv.EffectiveClientIdentifier
                (requestOf [exampleScope 12345 3600, exampleScope 12346 3600]))
              scope.MitigationId true) ∧
      (∀ e ∈ queries, e.isQuery = true) ∧
      List.Forall₂ (fun id p =>
        storeEnv.GetActiveProtectionByMitigationId twiceProtectedWorld.st exampleCustomer.Id
          (storeEnv.EffectiveClientIdentifier
            (requestOf [exampleScope 12345 3600, exampleScope 12346 3600])) id =
          Except.ok (some p) ∧ p.IsEnabled = true)
        ((requestOf [exampleScope 12345 3600, exampleScope 12346 3600]).MitigationScope.Scopes.map
          (fun scope => scope.MitigationId)) protections) ∧
    ∀ scope ∈ (requestOf [exampleScope 12345 3600, exampleScope 12346 3600]).MitigationScope.Scopes,
      hasScope storeEnv (MitigationRequest.Delete storeEnv
        (some (requestOf [exampleScope 12345 3600, exampleScope 12346 3600]))
        exampleCustomer twiceProtectedWorld).world.st exampleCustomer.Id
        (storeEnv.EffectiveClientIdentifier
          (requestOf [exampleScope 12345 3600, exampleScope 12346 3600]))
        scope.MitigationId = false ∧
      enabledProtection storeEnv (MitigationRequest.Delete storeEnv
        (some (requestOf [exampleScope 12345 3600, exampleScope 12346 3600]))
        exampleCustomer twiceProtectedWorld).world.st exampleCustomer.Id
        (storeEnv.EffectiveClientIdentifier
          (requestOf [exampleScope 12345 3600, exampleScope 12346 3600]))
        scope.MitigationId = none :=
  Delete_success storeEnv storeEnv_laws
    (requestOf [exampleScope 12345 3600, exampleScope 12346 3600]) exampleCustomer
    twiceProtectedWorld { Typ := MsgType.NonConfirmable, Code := Deleted, Body := Body.nil }
    (by decide)

/-! ### The dispatcher -/

/-- C12: for every inbound request and however the method handler ends
(`Forbidden`, decode failure, controller error, encode failure, success, and
also when the controller verb panics or never returns), the message-id and the
token of the response are those of the request. -/
theorem toMethodHandler_correlation {σ ρ : Type} (t : Transport σ ρ)
    (method : DotsServiceMethod σ ρ) (session : libcoap.Session)
    (request response : libcoap.Pdu) (w : World σ) :
    (toMethodHandler t method session request response w).response.MessageID =
      request.MessageID ∧
    (toMethodHandler t method session request response w).response.Token = request.Token := by
  unfold toMethodHandler
  simp only
  split
  · exact ⟨rfl, rfl⟩
  · split
    · exact ⟨rfl, rfl⟩
    · exact ⟨rfl, rfl⟩
    · split
      · exact ⟨rfl, rfl⟩
      · split
        · exact ⟨rfl, rfl⟩
        · split
          · exact ⟨rfl, rfl⟩
          · exact ⟨rfl, rfl⟩
          · exact ⟨rfl, rfl⟩
          · split
            · exact ⟨rfl, rfl⟩
            · exact ⟨rfl, rfl⟩

/-- C13: for every inbound request, if the Common Name of the peer cannot be
extracted from the session, or the lookup of the customer fails, or the
customer found has id 0, the method handler returns with the response code
`Forbidden`; it has neither decoded the payload nor invoked the controller
verb, the data of the response PDU is as it was (no body is attached), and
the world is unchanged. -/
theorem toMethodHandler_forbidden {σ ρ : Type} (t : Transport σ ρ)
    (method : DotsServiceMethod σ ρ) (session : libcoap.Session)
    (request response : libcoap.Pdu) (w : World σ)
    (h : (∃ e, t.DtlsGetPeerCommonName session = Except.error e) ∨
      ∃ cn, t.DtlsGetPeerCommonName session = Except.ok cn ∧
        ((∃ e, t.GetCustomerByCommonName w.st cn = Except.error e) ∨
          ∃ customer, t.GetCustomerByCommonName w.st cn = Except.ok (some customer) ∧
            customer.Id = 0)) :
    (toMethodHandler t method session request response w).status = HandlerStatus.returned ∧
    (toMethodHandler t method session request response w).response.Code = Forbidden ∧
    (toMethodHandler t method session request response w).response.Data = response.Data ∧
    HandlerStep.unmarshalCbor ∉ (toMethodHandler t method session request response w).steps ∧
    HandlerStep.method ∉ (toMethodHandler t method session request response w).steps ∧
    HandlerStep.marshalCbor ∉ (toMethodHandler t method session request response w).steps ∧
    (toMethodHandler t method session request response w).world = w := by
  unfold toMethodHandler
  rcases h with ⟨e, he⟩ | ⟨cn, hcn, ⟨e, he⟩ | ⟨customer, hc, hid⟩⟩
  · simp [he, libcoap.ResponseForbidden]
  · simp [hcn, he, libcoap.ResponseForbidden]
  · simp [hcn, hc, hid, libcoap.ResponseForbidden]

/-- Witness of `toMethodHandler_forbidden`: a DELETE from session 2, from which
no Common Name can be extracted, and one from session 3, whose peer is no
customer. -/
theorem toMethodHandler_forbidden_witness :
    ((toMethodHandler exampleTransport (MitigationRequest.Delete storeEnv) { id := 2 }
        (examplePdu [57]) emptyPdu protectedWorld).status = HandlerStatus.returned ∧
      (toMethodHandler exampleTransport (MitigationRequest.Delete storeEnv) { id := 2 }
        (examplePdu [57]) emptyPdu protectedWorld).response.Code = Forbidden ∧
      (toMethodHandler exampleTransport (MitigationRequest.Delete storeEnv) { id := 2 }
        (examplePdu [57]) emptyPdu protectedWorld).response.Data = emptyPdu.Data ∧
      HandlerStep.unmarshalCbor ∉
        (toMethodHandler exampleTransport (MitigationRequest.Delete storeEnv) { id := 2 }
          (examplePdu [57]) emptyPdu protectedWorld).steps ∧
      HandlerStep.method ∉
        (toMethodHandler exampleTransport (MitigationRequest.Delete storeEnv) { id := 2 }
          (examplePdu [57]) emptyPdu protectedWorld).steps ∧
      HandlerStep.marshalCbor ∉
        (toMethodHandler exampleTransport (MitigationRequest.Delete storeEnv) { id := 2 }
          (examplePdu [57]) emptyPdu protectedWorld).steps ∧
      (toMethodHandler exampleTransport (MitigationRequest.Delete storeEnv) { id := 2 }
        (examplePdu [57]) emptyPdu protectedWorld).world = protectedWorld) ∧
    ((toMethodHandler exampleTransport (MitigationRequest.Delete storeEnv) { id := 3 }
        (examplePdu [57]) emptyPdu protectedWorld).status = HandlerStatus.returned ∧
      (toMethodHandler exampleTransport (MitigationRequest.Delete storeEnv) { id := 3 }
        (examplePdu [57]) emptyPdu protectedWorld).response.Code = Forbidden ∧
      (toMethodHandler exampleTransport (MitigationRequest.Delete storeEnv) { id := 3 }
        (examplePdu [57]) emptyPdu protectedWorld).response.Data = emptyPdu.Data ∧
      HandlerStep.unmarshalCbor ∉
        (toMethodHandler exampleTransport (MitigationRequest.Delete storeEnv) { id := 3 }
          (examplePdu [57]) emptyPdu protectedWorld).steps ∧
      HandlerStep.method ∉
        (toMethodHandler exampleTransport (MitigationRequest.Delete storeEnv) { id := 3 }
          (examplePdu [57]) emptyPdu protectedWorld).steps ∧
      HandlerStep.marshalCbor ∉
        (toMethodHandler exampleTransport (MitigationRequest.Delete storeEnv) { id := 3 }
          (examplePdu [57]) emptyPdu protectedWorld).steps ∧
      (toMethodHandler exampleTransport (MitigationRequest.Delete storeEnv) { id := 3 }
        (examplePdu [57]) emptyPdu protectedWorld).world = protectedWorld) :=
  ⟨toMethodHandler_forbidden exampleTransport (MitigationRequest.Delete storeEnv) { id := 2 }
      (examplePdu [57]) emptyPdu protectedWorld (Or.inl ⟨GoError.ext 10, rfl⟩),
   toMethodHandler_forbidden exampleTransport (MitigationRequest.Delete storeEnv) { id := 3 }
      (examplePdu [57]) emptyPdu protectedWorld
      (Or.inr ⟨"stranger", rfl, Or.inr ⟨{ Id := 0, Name := "" }, rfl, rfl⟩⟩)⟩

/-- Whatever error a controller verb returns, the method handler answers
`InternalServerError` (lines 93-98): the code that a `controllers.Error`
carries is not looked at. -/
theorem toMethodHandler_controller_error {σ ρ : Type} (t : Transport σ ρ)
    (method : DotsServiceMethod σ ρ) (session : libcoap.Session)
    (request response : libcoap.Pdu) (w : World σ) (cn : String) (customer : models.Customer)
    (req : Option ρ) (res : Response) (e : GoError)
    (hcn : t.DtlsGetPeerCommonName session = Except.ok cn)
    (hc : t.GetCustomerByCommonName w.st cn = Except.ok (some customer))
    (hid : customer.Id ≠ 0)
    (hreq : unmarshalCbor t request = Except.ok req)
    (hm : (method req customer w).status = Status.returned res (some e)) :
    (toMethodHandler t method session request response w).status = HandlerStatus.returned ∧
    (toMethodHandler t method session request response w).response.Code =
      InternalServerError ∧
    (toMethodHandler t method session request response w).response.Data = response.Data := by
  unfold toMethodHandler
  simp [hcn, hc, hid, hreq, hm, libcoap.ResponseInternalServerError]

/-- C11, at the failing input: scenario 5 of the specification, a DELETE of
`/mitigation_request` from the customer with one scope whose mitigation-id is
0.  The controller verb fails with the error that carries `NotFound`, and the
response of the method handler has the code `InternalServerError`, 5.00, not
`NotFound`, 4.04. -/
theorem toMethodHandler_delete_id_zero :
    unmarshalCbor exampleTransport (examplePdu [0]) =
      Except.ok (some (requestOf [emptyScope 0 0])) ∧
    (MitigationRequest.Delete storeEnv (some (requestOf [emptyScope 0 0])) exampleCustomer
      protectedWorld).status =
      Status.returned Response.zero (some (GoError.ctrl NotFound MsgType.NonConfirmable)) ∧
    (toMethodHandler exampleTransport (MitigationRequest.Delete storeEnv) { id := 1 }
      (examplePdu [0]) emptyPdu protectedWorld).status = HandlerStatus.returned ∧
    (toMethodHandler exampleTransport (MitigationRequest.Delete storeEnv) { id := 1 }
      (examplePdu [0]) emptyPdu protectedWorld).response.Code = InternalServerError ∧
    InternalServerError = 160 ∧ NotFound = 132 :=
  ⟨rfl, by decide, by decide, by decide, rfl, rfl⟩

/-! ### Session configuration -/

/-- C14: for every request to `SessionConfiguration.Put` the code of the
response is `BadRequest` when the request is nil, when the validator rejects
the configuration built from the payload, and when
`CreateSignalSessionConfiguration` fails (its error is then returned next to
the response), and `Created` otherwise.  When the request is nil or the
validator rejects, no call is made on the repository and its state is as
before. -/
theorem SessionConfiguration_Put_code {σ : Type} (env : SessionEnv σ)
    (request : Option messages.SignalConfigRequest) (customer : models.Customer)
    (w : World σ) :
    (request = none →
      (SessionConfiguration.Put env request customer w).status =
        Status.returned
          { Typ := MsgType.NonConfirmable, Code := BadRequest, Body := Body.nil } none ∧
      (SessionConfiguration.Put env request customer w).world = w) ∧
    (∀ req, request = some req →
      env.Validate (configurationOfPayload req.SignalConfig) customer = false →
      (SessionConfiguration.Put env request customer w).status =
        Status.returned
          { Typ := MsgType.NonConfirmable, Code := BadRequest, Body := Body.nil } none ∧
      (SessionConfiguration.Put env request customer w).world = w) ∧
    (∀ req e st, request = some req →
      env.Validate (configurationOfPayload req.SignalConfig) customer = true →
      env.CreateSignalSessionConfiguration w.st (configurationOfPayload req.SignalConfig)
        customer = (some e, st) →
      (SessionConfiguration.Put env request customer w).status =
        Status.returned
          { Typ := MsgType.NonConfirmable, Code := BadRequest, Body := Body.nil } (some e) ∧
      (SessionConfiguration.Put env request customer w).world =
        w.step st (Event.CreateSignalSessionConfiguration
          (configurationOfPayload req.SignalConfig) false)) ∧
    (∀ req st, request = some req →
      env.Validate (configurationOfPayload req.SignalConfig) customer = true →
      env.CreateSignalSessionConfiguration w.st (configurationOfPayload req.SignalConfig)
        customer = (none, st) →
      (SessionConfiguration.Put env request customer w).status =
        Status.returned
          { Typ := MsgType.NonConfirmable, Code := Created, Body := Body.nil } none ∧
      (SessionConfiguration.Put env request customer w).world =
        w.step st (Event.CreateSignalSessionConfiguration
          (configurationOfPayload req.SignalConfig) true)) := by
  refine ⟨?_, ?_, ?_, ?_⟩
  · intro h
    subst h
    exact ⟨rfl, rfl⟩
  · intro req h hv
    subst h
    simp [SessionConfiguration.Put, hv, badRequestResponse]
  · intro req e st h hv hc
    subst h
    simp [SessionConfiguration.Put, hv, hc, badRequestResponse]
  · intro req st h hv hc
    subst h
    simp [SessionConfiguration.Put, hv, hc]

/-- Witness of `SessionConfiguration_Put_code`: a nil request, a payload outside
the policy, the payload of scenario 6 on a repository that refuses to write,
and the payload of scenario 6 on the empty repository. -/
theorem SessionConfiguration_Put_code_witness :
    ((SessionConfiguration.Put sessionStoreEnv none exampleCustomer sessionWorld).status =
        Status.returned
          { Typ := MsgType.NonConfirmable, Code := BadRequest, Body := Body.nil } none ∧
      (SessionConfiguration.Put sessionStoreEnv none exampleCustomer sessionWorld).world =
        sessionWorld) ∧
    ((SessionConfiguration.Put sessionStoreEnv (some rejectedSignalConfig) exampleCustomer
        sessionWorld).status =
        Status.returned
          { Typ := MsgType.NonConfirmable, Code := BadRequest, Body := Body.nil } none ∧
      (SessionConfiguration.Put sessionStoreEnv (some rejectedSignalConfig) exampleCustomer
        sessionWorld).world = sessionWorld) ∧
    ((SessionConfiguration.Put sessionStoreEnv (some exampleSignalConfig) exampleCustomer
        readOnlySessionWorld).status =
        Status.returned
          { Typ := MsgType.NonConfirmable, Code := BadRequest, Body := Body.nil }
          (some (GoError.ext 5)) ∧
      (SessionConfiguration.Put sessionStoreEnv (some exampleSignalConfig) exampleCustomer
        readOnlySessionWorld).world =
        readOnlySessionWorld.step readOnlySessionWorld.st
          (Event.CreateSignalSessionConfiguration
            (configurationOfPayload exampleSignalConfig.SignalConfig) false)) ∧
    ((SessionConfiguration.Put sessionStoreEnv (some exampleSignalConfig) exampleCustomer
        sessionWorld).status =
        Status.returned
          { Typ := MsgType.NonConfirmable, Code := Created, Body := Body.nil } none ∧
      (SessionConfiguration.Put sessionStoreEnv (some exampleSignalConfig) exampleCustomer
        sessionWorld).world =
        sessionWorld.step
          { configurations :=
              [(1, configurationOfPayload exampleSignalConfig.SignalConfig)],
            readOnly := false }
          (Event.CreateSignalSessionConfiguration
            (configurationOfPayload exampleSignalConfig.SignalConfig) true)) :=
  ⟨(SessionConfiguration_Put_code sessionStoreEnv none exampleCustomer sessionWorld).1 rfl,
   (SessionConfiguration_Put_code sessionStoreEnv (some rejectedSignalConfig) exampleCustomer
      sessionWorld).2.1 rejectedSignalConfig rfl (by decide),
   (SessionConfiguration_Put_code sessionStoreEnv (some exampleSignalConfig) exampleCustomer
      readOnlySessionWorld).2.2.1 exampleSignalConfig (GoError.ext 5) readOnlySessionWorld.st
      rfl (by decide) rfl,
   (SessionConfiguration_Put_code sessionStoreEnv (some exampleSignalConfig) exampleCustomer
      sessionWorld).2.2.2 exampleSignalConfig
      { configurations := [(1, configurationOfPayload exampleSignalConfig.SignalConfig)],
        readOnly := false }
      rfl (by decide) rfl⟩

/-- C15: for every payload of a `SessionConfiguration.Put` that validates and
is persisted, on a repository that keeps what it has persisted
(`SessionRepositoryLaws`), the PUT returns `Created` and a
`SessionConfiguration.Get` for the same customer on the world that the PUT
leaves returns code `Content` with a `ConfigurationResponse` whose current
values of heartbeat-interval, missing-hb-allowed, max-retransmit, ack-timeout,
ack-random-factor and trigger-mitigation are those of the payload and whose
min and max values are those of the server policy.  A real value is equal
when it is the same `float64`, bit by bit. -/
theorem SessionConfiguration_Put_then_Get {σ : Type} (env : SessionEnv σ)
    (laws : SessionRepositoryLaws env) (req : messages.SignalConfigRequest)
    (getRequest : Option messages.SignalConfigRequest) (customer : models.Customer)
    (w : World σ) (st : σ)
    (hv : env.Validate (configurationOfPayload req.SignalConfig) customer = true)
    (hc : env.CreateSignalSessionConfiguration w.st (configurationOfPayload req.SignalConfig)
      customer = (none, st)) :
    (SessionConfiguration.Put env (some req) customer w).status =
      Status.returned
        { Typ := MsgType.NonConfirmable, Code := Created, Body := Body.nil } none ∧
    (SessionConfiguration.Get env getRequest customer
      (SessionConfiguration.Put env (some req) customer w).world).status =
      Status.returned
        { Typ := MsgType.NonConfirmable, Code := Content,
          Body := Body.configurationResponse
            { HeartbeatInterval :=
                { CurrentValue := req.SignalConfig.HeartbeatInterval,
                  MinValue := env.SignalConfigurationParameter.HeartbeatInterval.Min,
                  MaxValue := env.SignalConfigurationParameter.HeartbeatInterval.Max },
              MissingHbAllowed :=
                { CurrentValue := req.SignalConfig.MissingHbAllowed,
                  MinValue := env.SignalConfigurationParameter.MissingHbAllowed.Min,
                  MaxValue := env.SignalConfigurationParameter.MissingHbAllowed.Max },
              MaxRetransmit :=
                { CurrentValue := req.SignalConfig.MaxRetransmit,
                  MinValue := env.SignalConfigurationParameter.MaxRetransmit.Min,
                  MaxValue := env.SignalConfigurationParameter.MaxRetransmit.Max },
              AckTimeout :=
                { CurrentValue := req.SignalConfig.AckTimeout,
                  MinValue := env.SignalConfigurationParameter.AckTimeout.Min,
                  MaxValue := env.SignalConfigurationParameter.AckTimeout.Max },
              AckRandomFactor :=
                { CurrentValue := req.SignalConfig.AckRandomFactor,
                  MinValue := env.SignalConfigurationParameter.AckRandomFactor.Min,
                  MaxValue := env.SignalConfigurationParameter.AckRandomFactor.Max },
              TriggerMitigation :=
                { CurrentValue := req.SignalConfig.TriggerMitigation } } } none := by
  have hget := laws.create_then_get w.st _ customer st hc
  have hput : SessionConfiguration.Put env (some req) customer w =
      { status := Status.returned
          { Typ := MsgType.NonConfirmable, Code := Created, Body := Body.nil } none,
        world := w.step st (Event.CreateSignalSessionConfiguration
          (configurationOfPayload req.SignalConfig) true) } := by
    simp [SessionConfiguration.Put, hv, hc]
  rw [hput]
  refine ⟨rfl, ?_⟩
  simp only [SessionConfiguration.Get, World.step_st, hget]
  rfl

theorem sessionStoreEnv_laws : SessionRepositoryLaws sessionStoreEnv where
  create_then_get := by
    intro st configuration customer st1 h
    simp only [sessionStoreEnv] at h
    split at h
    · cases h
    · simp only [Prod.mk.injEq, true_and] at h
      subst h
      simp [sessionStoreEnv]

/-- Witness of `SessionConfiguration_Put_then_Get`: scenario 6 of the
specification, the PUT of heartbeat-interval 30, missing-hb-allowed 5,
max-retransmit 3, ack-timeout 2, ack-random-factor 1.5 and trigger-mitigation
true, then a GET. -/
theorem SessionConfiguration_Put_then_Get_witness :
    (SessionConfiguration.Put sessionStoreEnv (some exampleSignalConfig) exampleCustomer
      sessionWorld).status =
      Status.returned
        { Typ := MsgType.NonConfirmable, Code := Created, Body := Body.nil } none ∧
    (SessionConfiguration.Get sessionStoreEnv none exampleCustomer
      (SessionConfiguration.Put sessionStoreEnv (some exampleSignalConfig) exampleCustomer
        sessionWorld).world).status =
      Status.returned
        { Typ := MsgType.NonConfirmable, Code := Content,
          Body := Body.configurationResponse
            { HeartbeatInterval := { CurrentValue := 30, MinValue := 15, MaxValue := 240 },
              MissingHbAllowed := { CurrentValue := 5, MinValue := 3, MaxValue := 9 },
              MaxRetransmit := { CurrentValue := 3, MinValue := 2, MaxValue := 15 },
              AckTimeout := { CurrentValue := 2, MinValue := 1, MaxValue := 30 },
              AckRandomFactor :=
                { CurrentValue := { bits := 0x3FF8000000000000 },
                  MinValue := { bits := 0x3FF0000000000000 },
                  MaxValue := { bits := 0x4010000000000000 } },
              TriggerMitigation := { CurrentValue := true } } } none :=
  SessionConfiguration_Put_then_Get sessionStoreEnv sessionStoreEnv_laws exampleSignalConfig
    none exampleCustomer sessionWorld
    { configurations := [(1, configurationOfPayload exampleSignalConfig.SignalConfig)],
      readOnly := false }
    (by decide) rfl

/-! ### The fan-in loop of the orchestrator -/

/-- After a failed `RegisterProtection` the `select` is left with the counter
and the unregister commands as they were. -/
theorem callBlockerSelect_register_failed {σ : Type} (env : Env σ) (blocker : Nat)
    (scope : models.MitigationScope) (s : FanIn σ) (e : GoError) (st : σ)
    (h : env.RegisterProtection s.world.st blocker scope = (Except.error e, st)) :
    (callBlockerSelect env (SelMsg.assigned blocker scope) s).counter = s.counter ∧
    (callBlockerSelect env (SelMsg.assigned blocker scope) s).unregisterCommands =
      s.unregisterCommands ∧
    (callBlockerSelect env (SelMsg.assigned blocker scope) s).err = some e := by
  simp [callBlockerSelect, h]

/-- After a successful `RegisterProtection` whose `ExecuteProtection` fails the
`select` is left with the counter and the unregister commands as they were:
the registered protection is not among the commands of the rollback. -/
theorem callBlockerSelect_execute_failed {σ : Type} (env : Env σ) (blocker : Nat)
    (scope : models.MitigationScope) (s : FanIn σ) (p : models.Protection) (e : GoError)
    (st st2 : σ)
    (h : env.RegisterProtection s.world.st blocker scope = (Except.ok p, st))
    (h2 : env.ExecuteProtection st blocker p = (some e, st2)) :
    (callBlockerSelect env (SelMsg.assigned blocker scope) s).counter = s.counter ∧
    (callBlockerSelect env (SelMsg.assigned blocker scope) s).unregisterCommands =
      s.unregisterCommands ∧
    (callBlockerSelect env (SelMsg.assigned blocker scope) s).err = some e := by
  simp [callBlockerSelect, h, h2]

theorem callBlockerSelect_counter_ge {σ : Type} (env : Env σ) (m : SelMsg) (s : FanIn σ) :
    s.counter - 1 ≤ (callBlockerSelect env m s).counter := by
  unfold callBlockerSelect
  cases m with
  | failed e => simp
  | assigned blocker scope =>
    simp only
    split
    · simp
    · split
      · simp
      · simp

/-- The loop takes at most one off the counter for each message. -/
theorem callBlockerLoop_counter_ge {σ : Type} (env : Env σ) (msgs : List SelMsg) :
    ∀ s : FanIn σ, s.counter - msgs.length ≤ (callBlockerLoop env msgs s).counter := by
  induction msgs with
  | nil => intro s; simp [callBlockerLoop]
  | cons m rest ih =>
    intro s
    unfold callBlockerLoop
    split
    · omega
    · have h1 := callBlockerSelect_counter_ge env m s
      have h2 := ih (callBlockerSelect env m s)
      simp only [List.length_cons]
      omega

/-- When as many messages arrive as the counter says and the first one is an
assignment whose `RegisterProtection` or `ExecuteProtection` fails, the loop
uses up all messages with the counter still positive: it waits for a further
message. -/
theorem callBlockerLoop_waits_after_failure {σ : Type} (env : Env σ) (blocker : Nat)
    (scope : models.MitigationScope) (rest : List SelMsg) (s : FanIn σ)
    (hn : s.counter = rest.length + 1)
    (hfail : (∃ e st, env.RegisterProtection s.world.st blocker scope = (Except.error e, st)) ∨
      ∃ p st e st2, env.RegisterProtection s.world.st blocker scope = (Except.ok p, st) ∧
        env.ExecuteProtection st blocker p = (some e, st2)) :
    0 < (callBlockerLoop env (SelMsg.assigned blocker scope :: rest) s).counter := by
  have hc : (callBlockerSelect env (SelMsg.assigned blocker scope) s).counter = s.counter := by
    rcases hfail with ⟨e, st, h⟩ | ⟨p, st, e, st2, h, h2⟩
    · exact (callBlockerSelect_register_failed env blocker scope s e st h).1
    · exact (callBlockerSelect_execute_failed env blocker scope s p e st st2 h h2).1
  have h2 := callBlockerLoop_counter_ge env rest
    (callBlockerSelect env (SelMsg.assigned blocker scope) s)
  unfold callBlockerLoop
  rw [if_neg (by omega)]
  omega

/-- C17, at the failing input: a batch of one validated scope for which the
selection service delivers exactly one message, the assignment to blocker 7.
When `RegisterProtection` fails, and likewise when `ExecuteProtection` fails,
the loop has consumed the one message with its counter still 1, and
`callBlocker` waits for a further message: it never returns. -/
theorem callBlocker_failure_waits_for_ever :
    (storeEnv.Arrivals (storeEnv.Enqueue registerFailingWorld.st exampleModelScope)
      [exampleModelScope]).length = 1 ∧
    (callBlocker storeEnv (requestOf [exampleScope 12345 3600]) exampleCustomer
      registerFailingWorld).status = CallStatus.blocked ∧
    (callBlocker storeEnv (requestOf [exampleScope 12345 3600]) exampleCustomer
      registerFailingWorld).world.trace =
      [Event.Enqueue exampleModelScope, Event.RegisterProtection 7 exampleModelScope false] ∧
    (callBlockerLoop storeEnv
      (storeEnv.Arrivals (storeEnv.Enqueue registerFailingWorld.st exampleModelScope)
        [exampleModelScope])
      { counter := 1, err := none, unregisterCommands := [],
        world := registerFailingWorld.step
          (storeEnv.Enqueue registerFailingWorld.st exampleModelScope)
          (Event.Enqueue exampleModelScope) }).counter = 1 ∧
    (executeFailingEnv.Arrivals (executeFailingEnv.Enqueue exampleWorld.st exampleModelScope)
      [exampleModelScope]).length = 1 ∧
    (callBlocker executeFailingEnv (requestOf [exampleScope 12345 3600]) exampleCustomer
      exampleWorld).status = CallStatus.blocked ∧
    (callBlocker executeFailingEnv (requestOf [exampleScope 12345 3600]) exampleCustomer
      exampleWorld).world.trace =
      [Event.Enqueue exampleModelScope,
       Event.RegisterProtection 7 exampleModelScope true,
       Event.ExecuteProtection 7
         { Id := 0, IsEnabled := false, TargetBlocker := 7, StartedAt := 0 } false] := by
  decide

/-! ### The rollback of the orchestrator -/

/-- The first loop of `callBlocker` adds `Enqueue` calls only, one for each
scope that it adds to the enqueued ones. -/
theorem callBlockerEnqueue_trace {σ : Type} (env : Env σ) (data : messages.MitigationRequest)
    (c : models.Customer) (scopes : List messages.Scope) :
    ∀ (enqueued : List models.MitigationScope) (w : World σ),
      ∃ q : List models.MitigationScope,
        (callBlockerEnqueue env data c scopes enqueued w).2.trace =
          w.trace ++ q.map Event.Enqueue ∧
        ∀ r, (callBlockerEnqueue env data c scopes enqueued w).1 = Except.ok r →
          r = enqueued ++ q := by
  induction scopes with
  | nil =>
    intro enqueued w
    refine ⟨[], by simp [callBlockerEnqueue], ?_⟩
    intro r h
    simp only [callBlockerEnqueue, Except.ok.injEq] at h
    simp [h]
  | cons s rest ih =>
    intro enqueued w
    unfold callBlockerEnqueue
    cases newMitigationScope env s c (env.EffectiveClientIdentifier data) with
    | error e => exact ⟨[], by simp, by intro r h; cases h⟩
    | ok scope =>
      simp only
      split
      · obtain ⟨q, h1, h2⟩ := ih (enqueued ++ [scope])
          (w.step (env.Enqueue w.st scope) (Event.Enqueue scope))
        refine ⟨scope :: q, ?_, ?_⟩
        · rw [h1]; simp
        · intro r h; rw [h2 r h]; simp
      · exact ⟨[], by simp, by intro r h; cases h⟩

/-- The rollback adds one `UnregisterProtection` call for each command, in the
order of the commands. -/
theorem callBlockerRollback_trace {σ : Type} (env : Env σ)
    (cmds : List (Nat × models.Protection)) :
    ∀ w : World σ, (callBlockerRollback env cmds w).trace =
      w.trace ++ cmds.map (fun x => Event.UnregisterProtection x.1 x.2) := by
  induction cmds with
  | nil => intro w; simp [callBlockerRollback]
  | cons cmd rest ih =>
    intro w
    obtain ⟨blocker, p⟩ := cmd
    unfold callBlockerRollback
    rw [ih]
    simp

/-- A turn of the `select` that takes one off a positive counter is either the
turn of an error of the selection service, which calls nothing, or the turn of
an assignment whose `RegisterProtection` and `ExecuteProtection` both
succeeded and whose protection has been added to the unregister commands. -/
theorem callBlockerSelect_decrement {σ : Type} (env : Env σ) (m : SelMsg) (s : FanIn σ)
    (hpos : 0 < s.counter) (h : (callBlockerSelect env m s).counter = s.counter - 1) :
    ((callBlockerSelect env m s).world.trace = s.world.trace ∧
      (callBlockerSelect env m s).unregisterCommands = s.unregisterCommands) ∨
    ∃ b scope p,
      (callBlockerSelect env m s).world.trace = s.world.trace ++
        [Event.RegisterProtection b scope true, Event.ExecuteProtection b p true] ∧
      (callBlockerSelect env m s).unregisterCommands = s.unregisterCommands ++ [(b, p)] := by
  cases m with
  | failed e => left; simp [callBlockerSelect]
  | assigned blocker scope =>
    unfold callBlockerSelect at h ⊢
    simp only at h ⊢
    split at h
    · simp only at h; omega
    · split at h
      · simp only at h; omega
      · next p st hr e2 st2 he =>
        right
        refine ⟨blocker, scope, p, ?_, ?_⟩
        · simp [hr, he]
        · simp [hr, he]

/-- When the loop has taken one off the counter for every message, no
`RegisterProtection` and no `ExecuteProtection` has failed: the calls of the
loop are a successful `RegisterProtection` and a successful
`ExecuteProtection` for each slot of a list of slots, and the unregister
commands have grown by the protections of these slots, in order. -/
theorem callBlockerLoop_all_decrement {σ : Type} (env : Env σ) (msgs : List SelMsg) :
    ∀ s : FanIn σ, (callBlockerLoop env msgs s).counter + msgs.length = s.counter →
      ∃ slots : List (Nat × models.MitigationScope × models.Protection),
        (callBlockerLoop env msgs s).world.trace = s.world.trace ++
          slots.flatMap (fun x => [Event.RegisterProtection x.1 x.2.1 true,
            Event.ExecuteProtection x.1 x.2.2 true]) ∧
        (callBlockerLoop env msgs s).unregisterCommands =
          s.unregisterCommands ++ slots.map (fun x => (x.1, x.2.2)) := by
  induction msgs with
  | nil => intro s _; exact ⟨[], by simp [callBlockerLoop], by simp [callBlockerLoop]⟩
  | cons m rest ih =>
    intro s h
    unfold callBlockerLoop at h ⊢
    by_cases h0 : s.counter = 0
    · rw [if_pos h0] at h
      simp only [List.length_cons] at h
      omega
    · rw [if_neg h0] at h ⊢
      simp only [List.length_cons] at h
      have h1 := callBlockerSelect_counter_ge env m s
      have h2 := callBlockerLoop_counter_ge env rest (callBlockerSelect env m s)
      obtain ⟨slots, ht, hu⟩ := ih (callBlockerSelect env m s) (by omega)
      rcases callBlockerSelect_decrement env m s (by omega) (by omega) with ⟨h3, h4⟩ | ⟨b, scope, p, h3, h4⟩
      · exact ⟨slots, by rw [ht, h3], by rw [hu, h4]⟩
      · refine ⟨(b, scope, p) :: slots, ?_, ?_⟩
        · rw [ht, h3]; simp
        · rw [hu, h4]; simp

/-- C16: for every batch for which the selection service delivers one message
per enqueued scope and which ends with an error `e`, the calls of
`callBlocker` are the `Enqueue` calls, then for each slot of a list of slots a
successful `RegisterProtection` followed by a successful `ExecuteProtection`
of the protection it returned, then in the rollback one
`UnregisterProtection` for the protection of each of these slots, in the same
order.  So every protection that `ExecuteProtection` was called on, which is
every protection that `RegisterProtection` returned, is unregistered; no
`ExecuteProtection` and no `RegisterProtection` of such a batch has failed
(after a failed one the loop does not end, since its counter stays as it
was), and nothing is unregistered but a protection that `RegisterProtection`
returned. -/
theorem callBlocker_error_unregisters {σ : Type} (env : Env σ)
    (data : messages.MitigationRequest) (c : models.Customer) (w : World σ) (e : GoError)
    (hone : ∀ enqueued w1,
      callBlockerEnqueue env data c data.MitigationScope.Scopes [] w = (Except.ok enqueued, w1) →
        (env.Arrivals w1.st enqueued).length = enqueued.length)
    (hret : (callBlocker env data c w).status = CallStatus.returned (some e)) :
    ∃ (t : List Event) (enqueued : List models.MitigationScope)
        (slots : List (Nat × models.MitigationScope × models.Protection)),
      (callBlocker env data c w).world.trace = w.trace ++ t ∧
      t = enqueued.map Event.Enqueue ++
          slots.flatMap (fun x => [Event.RegisterProtection x.1 x.2.1 true,
            Event.ExecuteProtection x.1 x.2.2 true]) ++
          slots.map (fun x => Event.UnregisterProtection x.1 x.2.2) ∧
      (∀ b p ok, Event.ExecuteProtection b p ok ∈ t →
        ok = true ∧ Event.UnregisterProtection b p ∈ t) ∧
      (∀ b scope ok, Event.RegisterProtection b scope ok ∈ t → ok = true) ∧
      (∀ b p, Event.UnregisterProtection b p ∈ t → Event.ExecuteProtection b p true ∈ t) := by
  have hshape : ∃ (enqueued : List models.MitigationScope)
      (slots : List (Nat × models.MitigationScope × models.Protection)),
      (callBlocker env data c w).world.trace = w.trace ++ (enqueued.map Event.Enqueue ++
          slots.flatMap (fun x => [Event.RegisterProtection x.1 x.2.1 true,
            Event.ExecuteProtection x.1 x.2.2 true]) ++
          slots.map (fun x => Event.UnregisterProtection x.1 x.2.2)) := by
    obtain ⟨q, hq, hr⟩ :=
      callBlockerEnqueue_trace env data c data.MitigationScope.Scopes [] w
    unfold callBlocker at hret ⊢
    split at hret
    · next e1 w1 heq =>
      rw [heq] at hq
      simp only at hq
      exact ⟨q, [], by simp [hq]⟩
    · next enqueued w1 heq =>
      rw [heq] at hq
      simp only at hq
      have hlen := hone enqueued w1 heq
      simp only at hret ⊢
      split at hret
      · next h0 =>
        rw [if_pos h0]
        obtain ⟨slots, ht, hu⟩ := callBlockerLoop_all_decrement env
          (env.Arrivals w1.st enqueued)
          { counter := enqueued.length, err := none, unregisterCommands := [], world := w1 }
          (by rw [h0, hlen]; simp)
        split at hret
        · next e1 he1 =>
          simp only [he1]
          refine ⟨q, slots, ?_⟩
          rw [callBlockerRollback_trace, ht, hu, hq]
          simp [Function.comp_def]
        · cases hret
      · cases hret
  obtain ⟨enqueued, slots, ht⟩ := hshape
  refine ⟨_, enqueued, slots, ht, rfl, ?_, ?_, ?_⟩
  · intro b p ok h
    rcases List.mem_append.1 h with h | h
    · rcases List.mem_append.1 h with h | h
      · obtain ⟨x, _, hx⟩ := List.mem_map.1 h
        cases hx
      · obtain ⟨x, hx, h1⟩ := List.mem_flatMap.1 h
        simp only [List.mem_cons, List.mem_singleton, List.not_mem_nil, or_false,
          reduceCtorEq, false_or, Event.ExecuteProtection.injEq] at h1
        obtain ⟨h1, h2, h3⟩ := h1
        refine ⟨h3, List.mem_append_right _ (List.mem_map.2 ⟨x, hx, ?_⟩)⟩
        rw [h1, h2]
    · obtain ⟨x, _, hx⟩ := List.mem_map.1 h
      cases hx
  · intro b scope ok h
    rcases List.mem_append.1 h with h | h
    · rcases List.mem_append.1 h with h | h
      · obtain ⟨x, _, hx⟩ := List.mem_map.1 h
        cases hx
      · obtain ⟨x, hx, h1⟩ := List.mem_flatMap.1 h
        simp only [List.mem_cons, List.mem_singleton, List.not_mem_nil, or_false,
          reduceCtorEq, or_false, Event.RegisterProtection.injEq] at h1
        exact h1.2.2
    · obtain ⟨x, _, hx⟩ := List.mem_map.1 h
      cases hx
  · intro b p h
    rcases List.mem_append.1 h with h | h
    · rcases List.mem_append.1 h with h | h
      · obtain ⟨x, _, hx⟩ := List.mem_map.1 h
        cases hx
      · obtain ⟨x, hx, h1⟩ := List.mem_flatMap.1 h
        simp at h1
    · obtain ⟨x, hx, h1⟩ := List.mem_map.1 h
      simp only [Event.UnregisterProtection.injEq] at h1
      refine List.mem_append_left _ (List.mem_append_right _ (List.mem_flatMap.2 ⟨x, hx, ?_⟩))
      rw [h1.1, h1.2]
      simp

/-- Witness of `callBlocker_error_unregisters`: a batch of two scopes on a
store whose only blocker, number 7, has room for one protection.  The
selection service delivers one message per scope, the assignment of the first
scope to blocker 7 and an error for the second; the protection of the first
scope is registered and executed, the batch ends with the error of the second
and the rollback unregisters the protection. -/
theorem callBlocker_error_unregisters_witness :
    (callBlocker storeEnv twoScopeRequest exampleCustomer oneSlotWorld).status =
      CallStatus.returned (some (GoError.ext 1)) ∧
    (callBlocker storeEnv twoScopeRequest exampleCustomer oneSlotWorld).world.trace =
      [Event.Enqueue exampleModelScope,
       Event.Enqueue { exampleModelScope with MitigationId := 12346 },
       Event.RegisterProtection 7 exampleModelScope true,
       Event.ExecuteProtection 7
         { Id := 0, IsEnabled := false, TargetBlocker := 7, StartedAt := 0 } true,
       Event.UnregisterProtection 7
         { Id := 0, IsEnabled := false, TargetBlocker := 7, StartedAt := 0 }] ∧
    (callBlocker storeEnv twoScopeRequest exampleCustomer oneSlotWorld).world.st.protections =
      [] ∧
    ∃ (t : List Event) (enqueued : List models.MitigationScope)
        (slots : List (Nat × models.MitigationScope × models.Protection)),
      (callBlocker storeEnv twoScopeRequest exampleCustomer oneSlotWorld).world.trace =
        oneSlotWorld.trace ++ t ∧
      t = enqueued.map Event.Enqueue ++
          slots.flatMap (fun x => [Event.RegisterProtection x.1 x.2.1 true,
            Event.ExecuteProtection x.1 x.2.2 true]) ++
          slots.map (fun x => Event.UnregisterProtection x.1 x.2.2) ∧
      (∀ b p ok, Event.ExecuteProtection b p ok ∈ t →
        ok = true ∧ Event.UnregisterProtection b p ∈ t) ∧
      (∀ b scope ok, Event.RegisterProtection b scope ok ∈ t → ok = true) ∧
      (∀ b p, Event.UnregisterProtection b p ∈ t → Event.ExecuteProtection b p true ∈ t) :=
  ⟨by decide, by decide, by decide,
   callBlocker_error_unregisters storeEnv twoScopeRequest exampleCustomer oneSlotWorld
     (GoError.ext 1)
     (by
       intro enqueued w1 h
       have h1 : w1 = (callBlockerEnqueue storeEnv twoScopeRequest exampleCustomer
           twoScopeRequest.MitigationScope.Scopes [] oneSlotWorld).2 := by rw [h]
       have h2 : Except.ok enqueued = (callBlockerEnqueue storeEnv twoScopeRequest
           exampleCustomer twoScopeRequest.MitigationScope.Scopes [] oneSlotWorld).1 := by
         rw [h]
       have h3 : enqueued = [exampleModelScope,
           { exampleModelScope with MitigationId := 12346 }] :=
         Except.ok.inj h2
       subst h1 h3
       decide)
     (by decide)⟩

end GoDots
